import Mathlib

/-!
# esphome native API connection: framing, send path and keepalive

A shallow embedding of `esphome/components/api/api_connection.cpp`.

* Bytes and machine integers are natural numbers; where the C++ computes in
  `uint32_t` the wrap-around is written out as `% 2 ^ 32`.
* Everything the file calls but does not define (the message dispatcher
  `read_message`, the entity iterators, the socket, the clock, the protobuf
  encoders) is a parameter of the function that uses it.
* The message handlers reach the connection through `Session`, the part of
  `APIConnection` without the receive buffer and the last-traffic timestamp:
  in the source only the constructor, `on_data_`, `parse_recv_buffer_` and
  `loop` touch these two members.
* Loops are written with a fuel argument that is structurally decreasing; the
  callers pass a fuel that is provably enough (`read_msg_size_eq`,
  `read_msg_type_eq`, `parse_loop_fuel`, `varint_bytes_value`), so the fuel
  never runs out.
-/

namespace esphome.api

/-! ## Data model -/

/-- The `ConnectionState` enumeration. -/
inductive ConnectionState where
  | INITIALIZED
  | CONNECTED
  | AUTHENTICATED
  deriving DecidableEq, Repr

/-- What the connection has done to its `AsyncClient` socket (an external
library): whether `close()` was called, the bytes handed over with `add()`
in the order of the calls, and how many times `send()` was called. -/
structure AsyncClient where
  closed_ : Bool
  added_ : List Nat
  sends_ : Nat
  deriving DecidableEq, Repr

/-- Modelled from the spec: the camera image reader is declared in the camera
component, which is not part of these sources; the spec describes it as "a
pull source exposing bytes available and consume N bytes".  `image_` is the
image currently held (if any) and `offset_` the number of its bytes already
consumed. -/
structure CameraImageReader where
  image_ : Option (List Nat)
  offset_ : Nat
  deriving DecidableEq, Repr

/-- The members of `APIConnection` that message handlers and the send path
work on.  `recv_buffer_` and `last_traffic_` are kept apart (see
`APIConnection`): in `api_connection.cpp` they are written only by the
constructor, `on_data_` and `parse_recv_buffer_`. -/
structure Session where
  remove_ : Bool
  sent_ping_ : Bool
  connection_state_ : ConnectionState
  state_subscription_ : Bool
  log_subscription_ : Int
  client_info_ : String
  client_ : AsyncClient
  image_reader_ : CameraImageReader
  deriving DecidableEq, Repr

/-- One connection: the session members plus the receive buffer and the
last-traffic timestamp. -/
structure APIConnection extends Session where
  recv_buffer_ : List Nat
  last_traffic_ : Nat
  deriving DecidableEq, Repr

/-- A dispatched message: the `msg_type` and the `msg_size` payload bytes
starting at `msg` that `read_message` receives. -/
structure Frame where
  msg_type : Nat
  payload : List Nat
  deriving DecidableEq, Repr

/-- The type of `read_message(msg_size, msg_type, msg)`.  It is declared in the
generated service base class, outside `api_connection.cpp`, and reaches the
connection through the handler hooks only. -/
abbrev Dispatcher := Session → Nat → Nat → List Nat → Session

/-! ## Socket and termination primitives -/

/-- `client_->close()`. -/
def AsyncClient.close (k : AsyncClient) : AsyncClient :=
  { k with closed_ := true }

/-- `client_->add(data, size)`. -/
def AsyncClient.add (k : AsyncClient) (data : List Nat) : AsyncClient :=
  { k with added_ := k.added_ ++ data }

/-- `client_->send()`. -/
def AsyncClient.send (k : AsyncClient) : AsyncClient :=
  { k with sends_ := k.sends_ + 1 }

/-- `APIConnection::on_fatal_error`: close the socket and set `remove_`. -/
def Session.on_fatal_error (s : Session) : Session :=
  { s with client_ := s.client_.close, remove_ := true }

/-- `APIConnection::disconnect_client`. -/
def Session.disconnect_client (s : Session) : Session :=
  { s with client_ := s.client_.close, remove_ := true }

/-- `APIConnection::on_error_`: the error code is ignored. -/
def Session.on_error_ (_error : Int) (s : Session) : Session :=
  { s with remove_ := true }

/-- `APIConnection::on_disconnect_`. -/
def Session.on_disconnect_ (s : Session) : Session :=
  { s with remove_ := true }

/-- `APIConnection::on_timeout_`: the duration is ignored. -/
def Session.on_timeout_ (_time : Nat) (s : Session) : Session :=
  s.on_fatal_error

/-- `APIConnection::on_unauthenticated_access`. -/
def Session.on_unauthenticated_access (s : Session) : Session :=
  s.on_fatal_error

/-- `APIConnection::on_no_setup_connection`. -/
def Session.on_no_setup_connection (s : Session) : Session :=
  s.on_fatal_error

/-- A session operation applied to a connection. -/
def APIConnection.withSession (c : APIConnection) (s : Session) : APIConnection :=
  { c with toSession := s }

/-! ## Receive path -/

/-- `APIConnection::on_data_(buf, len)`.  `none` is the null pointer; `len` is
the length of the list. -/
def on_data_ (buf : Option (List Nat)) (c : APIConnection) : APIConnection :=
  match buf with
  | none => c
  | some data =>
    if data.length = 0 then c
    else { c with recv_buffer_ := c.recv_buffer_ ++ data }

/-- The first inner loop of `parse_recv_buffer_` (message length).
Returns `(msg_size, i)` as they are when the loop is left. -/
def read_msg_size (buf : List Nat) (size : Nat) : Nat → Nat → Nat → Nat × Nat
  | 0, i, msg_size => (msg_size, i)
  | fuel + 1, i, msg_size =>
    if i < size then
      let dat := buf.getD i 0
      let msg_size := msg_size ||| (dat &&& 0x7F)
      let i := (i + 1) % 2 ^ 32
      if dat &&& 0x80 = 0x00 then (msg_size, i)
      else read_msg_size buf size fuel i ((msg_size <<< 7) % 2 ^ 32)
    else (msg_size, i)

/-- The second inner loop of `parse_recv_buffer_` (message type).
Returns `(msg_type, msg_type_done, i)` as they are when the loop is left. -/
def read_msg_type (buf : List Nat) (size : Nat) : Nat → Nat → Nat → Nat × Bool × Nat
  | 0, i, msg_type => (msg_type, false, i)
  | fuel + 1, i, msg_type =>
    if i < size then
      let dat := buf.getD i 0
      let msg_type := msg_type ||| (dat &&& 0x7F)
      let i := (i + 1) % 2 ^ 32
      if dat &&& 0x80 = 0x00 then (msg_type, true, i)
      else read_msg_type buf size fuel i ((msg_type <<< 7) % 2 ^ 32)
    else (msg_type, false, i)

/-- How one pass through the body of the outer `while` loop ends: with a
`return` (having dispatched a frame or not), or at the end of the body, from
where the loop condition is tested again. -/
inductive Iteration where
  | returned (c : APIConnection) (dispatched : Option Frame)
  | again (c : APIConnection) (dispatched : Frame)
  deriving DecidableEq, Repr

/-- The body of the outer `while` loop of `parse_recv_buffer_`, entered with a
non-empty buffer.  `now` is what `millis()` returns at the end of the body. -/
def parse_iteration (read_message : Dispatcher) (now : Nat) (c : APIConnection) :
    Iteration :=
  if c.recv_buffer_.getD 0 0 ≠ 0x00 then
    .returned (c.withSession c.toSession.on_fatal_error) none
  else
    let size := c.recv_buffer_.length % 2 ^ 32
    let r := read_msg_size c.recv_buffer_ size size 1 0
    let msg_size := r.1
    let i := r.2
    if i = size then .returned c none
    else
      let r := read_msg_type c.recv_buffer_ size size i 0
      let msg_type := r.1
      let msg_type_done := r.2.1
      let i := r.2.2
      if !msg_type_done then .returned c none
      else if size - i < msg_size then .returned c none
      else
        let msg := (c.recv_buffer_.drop i).take msg_size
        let s := read_message c.toSession msg_size msg_type msg
        if s.remove_ then .returned (c.withSession s) (some ⟨msg_type, msg⟩)
        else
          let total := (i + msg_size) % 2 ^ 32
          .again { c with toSession := s,
                          recv_buffer_ := c.recv_buffer_.drop total,
                          last_traffic_ := now } ⟨msg_type, msg⟩

/-- The outer `while (!recv_buffer_.empty())` loop.  `millis k` is the value
`millis()` returns at the end of the body when `k` bodies were completed
before in this call.  The result is the connection and the frames handed to
`read_message`, in order. -/
def parse_loop (read_message : Dispatcher) (millis : Nat → Nat) :
    Nat → Nat → APIConnection → APIConnection × List Frame
  | 0, _, c => (c, [])
  | fuel + 1, k, c =>
    if c.recv_buffer_.isEmpty then (c, [])
    else
      match parse_iteration read_message (millis k) c with
      | .returned c1 dispatched => (c1, dispatched.toList)
      | .again c1 dispatched =>
        let r := parse_loop read_message millis fuel (k + 1) c1
        (r.1, dispatched :: r.2)

/-- `APIConnection::parse_recv_buffer_`. -/
def parse_recv_buffer_ (read_message : Dispatcher) (millis : Nat → Nat)
    (c : APIConnection) : APIConnection × List Frame :=
  if c.recv_buffer_.isEmpty || c.remove_ then (c, [])
  else parse_loop read_message millis c.recv_buffer_.length 0 c

/-! ## Send path -/

/-- What one call of `send_buffer` observes of the socket: `space()` at the
first check, `space()` at the re-check after `delay(0)` (read only when the
first check fails), and the result of `send()`. -/
structure SocketReadings where
  space_first : Nat
  space_second : Nat
  send_result : Bool
  deriving DecidableEq, Repr

/-- The bytes of a varint, least-significant group first.  The second
argument is the value, the first bounds the number of bytes. -/
def varint_bytes : Nat → Nat → List Nat
  | 0, value => [value % 128]
  | fuel + 1, value =>
    if value ≤ 0x7F then [value]
    else (value % 128 + 128) :: varint_bytes fuel (value / 128)

/-- Modelled from the spec: `ProtoVarInt(value).encode(out)` is defined in
proto.h, which is not part of these sources.  The spec: "unsigned integer
encoded 7 bits per byte, least-significant group first, continuation bit =
high bit of each byte set except the last".  The bytes are appended to
`out`. -/
def ProtoVarInt.encode (value : Nat) (out : List Nat) : List Nat :=
  out ++ varint_bytes value value

/-- `APIConnection::send_buffer(buffer, message_type)`: the session afterwards
and the returned flag. -/
def send_buffer (sock : SocketReadings) (buffer : List Nat) (message_type : Nat)
    (s : Session) : Session × Bool :=
  if s.remove_ then (s, false)
  else
    let header := [0x00]
    let header := ProtoVarInt.encode buffer.length header
    let header := ProtoVarInt.encode message_type header
    let needed_space := buffer.length + header.length
    let hand_over : Session × Bool :=
      ({ s with client_ := ((s.client_.add header).add buffer).send }, sock.send_result)
    if needed_space > sock.space_first then
      if needed_space > sock.space_second then (s, false)
      else hand_over
    else hand_over

/-! ## The periodic tick -/

/-- The code and constants that `loop()` uses and `api_connection.cpp` does
not define: the dispatcher, the encoded `PingRequest` and its message type
(generated service code), the protobuf field encoders of the write buffer, the
camera's object id hash, the message type of the camera image response, and
whether the firmware is built with `USE_ESP32_CAMERA`. -/
structure Externals where
  read_message : Dispatcher
  ping_request : List Nat
  PING_REQUEST : Nat
  encode_fixed32 : Nat → Nat → List Nat
  encode_bytes : Nat → List Nat → List Nat
  encode_bool : Nat → Bool → List Nat
  camera_object_id_hash : Nat
  CAMERA_IMAGE_RESPONSE : Nat
  USE_ESP32_CAMERA : Bool

/-- What one call of `loop()` observes of its environment: the network and
socket status, the clock (`millis k` inside `parse_recv_buffer_`, see
`parse_loop`; `now` in the keepalive check), what the two entity iterators do
to the session when they advance, and the socket readings of the two sends the
tick can make itself. -/
structure Tick where
  network_is_connected : Bool
  client_disconnected : Bool
  millis : Nat → Nat
  now : Nat
  list_entities_advance : Session → Session
  initial_state_advance : Session → Session
  ping_socket : SocketReadings
  camera_space : Nat
  camera_socket : SocketReadings

/-- Subtraction of `uint32_t` values. -/
def u32_sub (a b : Nat) : Nat :=
  (a % 2 ^ 32 + 2 ^ 32 - b % 2 ^ 32) % 2 ^ 32

/-- Modelled from the spec: `send_ping_request` is generated service code that
is not part of these sources.  The spec: "send a keepalive probe"; like every
outbound message it goes through the send path, as the encoded `PingRequest`
under its message type. -/
def send_ping_request (x : Externals) (sock : SocketReadings) (s : Session) :
    Session × Bool :=
  send_buffer sock x.ping_request x.PING_REQUEST s

/-- The keepalive part of `loop()`. -/
def loop_keepalive (x : Externals) (t : Tick) (c : APIConnection) : APIConnection :=
  let keepalive := 60000
  if c.sent_ping_ then
    if u32_sub t.now c.last_traffic_ > (keepalive * 3) % 2 ^ 32 / 2 then
      c.withSession c.toSession.disconnect_client
    else c
  else if u32_sub t.now c.last_traffic_ > keepalive then
    let s := { c.toSession with sent_ping_ := true }
    c.withSession (send_ping_request x t.ping_socket s).1
  else c

/-- Modelled from the spec: `image_reader_.available()`, the number of bytes
the source still has. -/
def CameraImageReader.available (r : CameraImageReader) : Nat :=
  match r.image_ with
  | none => 0
  | some image => image.length - r.offset_

/-- Modelled from the spec: `image_reader_.peek_data_buffer()`, the bytes not
yet consumed. -/
def CameraImageReader.peek_data_buffer (r : CameraImageReader) : List Nat :=
  match r.image_ with
  | none => []
  | some image => image.drop r.offset_

/-- Modelled from the spec: `image_reader_.consume_data(n)`. -/
def CameraImageReader.consume_data (n : Nat) (r : CameraImageReader) :
    CameraImageReader :=
  { r with offset_ := r.offset_ + n }

/-- Modelled from the spec: `image_reader_.return_image()` releases the
source. -/
def CameraImageReader.return_image (r : CameraImageReader) : CameraImageReader :=
  { r with image_ := none }

/-- The camera streaming part of `loop()` (compiled under
`USE_ESP32_CAMERA`). -/
def loop_camera (x : Externals) (t : Tick) (s : Session) : Session :=
  if s.image_reader_.available ≠ 0 then
    let space := t.camera_space % 2 ^ 32
    if space ≥ 15 + 64 then
      let to_send := min (space - 15) s.image_reader_.available
      let buffer : List Nat := []
      let buffer := buffer ++ x.encode_fixed32 1 x.camera_object_id_hash
      let buffer := buffer ++ x.encode_bytes 2 (s.image_reader_.peek_data_buffer.take to_send)
      let done := s.image_reader_.available == to_send
      let buffer := buffer ++ x.encode_bool 3 done
      let r := send_buffer t.camera_socket buffer x.CAMERA_IMAGE_RESPONSE s
      let success := r.2
      let s := r.1
      let s := if success then
        { s with image_reader_ := s.image_reader_.consume_data to_send } else s
      let s := if success && done then
        { s with image_reader_ := s.image_reader_.return_image } else s
      s
    else s
  else s

/-- The part of `loop()` between the status checks and the keepalive check:
`parse_recv_buffer_()` and the two `advance()` calls of the entity iterators.
The result is the connection and the frames that were dispatched. -/
def loop_receive (x : Externals) (t : Tick) (c : APIConnection) :
    APIConnection × List Frame :=
  let r := parse_recv_buffer_ x.read_message t.millis c
  let c := r.1
  let c := c.withSession (t.list_entities_advance c.toSession)
  let c := c.withSession (t.initial_state_advance c.toSession)
  (c, r.2)

/-- `APIConnection::loop`: the connection afterwards and the frames that were
dispatched during the tick. -/
def loop (x : Externals) (t : Tick) (c : APIConnection) : APIConnection × List Frame :=
  if c.remove_ then (c, [])
  else if !t.network_is_connected then
    (c.withSession c.toSession.on_fatal_error, [])
  else if t.client_disconnected then
    (c.withSession c.toSession.on_disconnect_, [])
  else
    let r := loop_receive x t c
    let c := loop_keepalive x t r.1
    let c := if x.USE_ESP32_CAMERA then c.withSession (loop_camera x t c.toSession) else c
    (c, r.2)

/-! ## List view of the receive path

The parser above works with indices into the buffer, as the C++ does.  The
definitions below say the same over the list of bytes that starts at the
index; `read_msg_size_eq`, `read_msg_type_eq` and `parse_iteration_eq` prove
that they agree with the code on every buffer shorter than `2 ^ 32` bytes. -/

/-- The accumulation of both inner loops over the bytes from index `i` on:
the accumulator when the loop is left, the number of bytes consumed, and
whether the loop was left through `break`. -/
def scan_varint : Nat → List Nat → Nat × Nat × Bool
  | acc, [] => (acc, 0, false)
  | acc, dat :: rest =>
    if dat &&& 0x80 = 0x00 then (acc ||| (dat &&& 0x7F), 1, true)
    else
      let r := scan_varint (((acc ||| (dat &&& 0x7F)) <<< 7) % 2 ^ 32) rest
      (r.1, r.2.1 + 1, r.2.2)

/-- What the parser finds at the front of a buffer. -/
inductive Decoded where
  | malformed
  | incomplete
  | frame (msg_size msg_type i : Nat)
  deriving DecidableEq, Repr

/-- The decoding steps of `parse_iteration` over the list of bytes. -/
def frame_view : List Nat → Decoded
  | [] => .incomplete
  | b0 :: rest =>
    if b0 ≠ 0x00 then .malformed
    else
      let r1 := scan_varint 0 rest
      if r1.2.1 = rest.length then .incomplete
      else
        let r2 := scan_varint 0 (rest.drop r1.2.1)
        if !r2.2.2 then .incomplete
        else if rest.length - r1.2.1 - r2.2.1 < r1.1 then .incomplete
        else .frame r1.1 r2.1 (1 + r1.2.1 + r2.2.1)

/-- The outer loop over session and buffer, without the clock. -/
def frames_loop (read_message : Dispatcher) :
    Nat → Session → List Nat → Session × List Nat × List Frame
  | 0, s, buf => (s, buf, [])
  | fuel + 1, s, buf =>
    match frame_view buf with
    | .malformed => (s.on_fatal_error, buf, [])
    | .incomplete => (s, buf, [])
    | .frame msg_size msg_type i =>
      let msg := (buf.drop i).take msg_size
      let s1 := read_message s msg_size msg_type msg
      if s1.remove_ then (s1, buf, [⟨msg_type, msg⟩])
      else
        let r := frames_loop read_message fuel s1 (buf.drop (i + msg_size))
        (r.1, r.2.1, ⟨msg_type, msg⟩ :: r.2.2)

/-- A byte sequence is one terminated varint: every byte but the last has the
high bit set, the last has not. -/
def is_varint : List Nat → Bool
  | [] => false
  | [dat] => dat &&& 0x80 == 0
  | dat :: rest => dat &&& 0x80 != 0 && is_varint rest

/-- The value the parser's loops compute from the bytes of a varint. -/
def varint_value (v : List Nat) : Nat :=
  (scan_varint 0 v).1

/-- Claim C4 in the spec's words: the sum over `k` of
`(b_k & 0x7F) * 2 ^ (7 k)`. -/
def lsb_first_value : List Nat → Nat
  | [] => 0
  | dat :: rest => (dat &&& 0x7F) + 2 ^ 7 * lsb_first_value rest

/-- Claim C1 in the spec's words: `encode_frame(type, payload)`, "a single
zero byte, then the varint-encoded payload length, then the varint-encoded
type, then the payload verbatim". -/
def encode_frame (type : Nat) (payload : List Nat) : List Nat :=
  ProtoVarInt.encode type (ProtoVarInt.encode payload.length [0x00]) ++ payload

/-- Deliver the chunks in order with `on_data_` and run `parse_recv_buffer_`
after each one; `clock j` is the clock during the parse that follows chunk
`j`.  The result is the connection at the end and all dispatched frames. -/
def deliver (read_message : Dispatcher) (clock : Nat → Nat → Nat) :
    Nat → List (List Nat) → APIConnection → APIConnection × List Frame
  | _, [], c => (c, [])
  | j, chunk :: chunks, c =>
    let r := parse_recv_buffer_ read_message (clock j) (on_data_ (some chunk) c)
    let r2 := deliver read_message clock (j + 1) chunks r.1
    (r2.1, r.2 ++ r2.2)

/-- `parse_recv_buffer_` over session and buffer, without the clock: the
entry test followed by the loop. -/
def frames_run (read_message : Dispatcher) (s : Session) (buf : List Nat) :
    Session × List Nat × List Frame :=
  if buf.isEmpty || s.remove_ then (s, buf, [])
  else frames_loop read_message buf.length s buf

/-- A connection as the constructor leaves it when `millis()` returns `now`
and `client_->remoteIP().toString()` is "10.0.0.2" (an example address): live,
nothing received, no probe pending, nothing subscribed, `client_info_` the
address of the peer. -/
def APIConnection.fresh (now : Nat) : APIConnection :=
  { remove_ := false, sent_ping_ := false, connection_state_ := .INITIALIZED,
    state_subscription_ := false, log_subscription_ := 0, client_info_ := "10.0.0.2",
    client_ := { closed_ := false, added_ := [], sends_ := 0 },
    image_reader_ := { image_ := none, offset_ := 0 },
    recv_buffer_ := [], last_traffic_ := now }

/-- A dispatcher that leaves the session alone, as the dispatch of an unknown
message type does. -/
def ignore_message : Dispatcher :=
  fun s _ _ _ => s

/-- A dispatcher whose handler ends the session, as a message that needs
authentication does on a session that has none. -/
def reject_message : Dispatcher :=
  fun s _ _ _ => s.on_unauthenticated_access

/-- Example externals: messages are ignored, `PingRequest` has an empty body
and message type 7, the field encoders write nothing and the camera is not
compiled in. -/
def Externals.plain : Externals :=
  { read_message := ignore_message, ping_request := [], PING_REQUEST := 7,
    encode_fixed32 := fun _ _ => [], encode_bytes := fun _ _ => [],
    encode_bool := fun _ _ => [], camera_object_id_hash := 0,
    CAMERA_IMAGE_RESPONSE := 44, USE_ESP32_CAMERA := false }

/-- Example tick at clock value `now`: network up, socket connected with room
for 1000 bytes, sends succeed, the iterators have nothing to do. -/
def Tick.quiet (now : Nat) : Tick :=
  { network_is_connected := true, client_disconnected := false,
    millis := fun _ => now, now := now,
    list_entities_advance := fun s => s, initial_state_advance := fun s => s,
    ping_socket := { space_first := 1000, space_second := 1000, send_result := true },
    camera_space := 1000,
    camera_socket := { space_first := 1000, space_second := 1000, send_result := true } }

/-- The accumulation of the inner loops in arithmetic: every 7-bit group is
added below the groups read before it, so the first group is the most
significant; each shift is cut to 32 bits. -/
def msb_first_value : Nat → List Nat → Nat
  | acc, [] => acc
  | acc, [dat] => acc + dat % 128
  | acc, dat :: rest => msb_first_value ((acc + dat % 128) * 128 % 2 ^ 32) rest

/-! ## Handshake, authentication and outbound pushes -/

/-- Modelled from the spec: the request and response messages are declared
in the generated message header, which is not part of these sources.  Of the
"handshake request" the connection uses the client's description. -/
structure HelloRequest where
  client_info : String
  deriving DecidableEq, Repr

/-- Modelled from the spec: the handshake response, with the fields that
`hello` fills in. -/
structure HelloResponse where
  api_version_major : Nat
  api_version_minor : Nat
  server_info : String
  deriving DecidableEq, Repr

/-- Modelled from the spec: the "auth request" carries the credential. -/
structure ConnectRequest where
  password : String
  deriving DecidableEq, Repr

/-- Modelled from the spec: the auth "response carries a failure flag". -/
structure ConnectResponse where
  invalid_password : Bool
  deriving DecidableEq, Repr

/-- A response message after the generated code has encoded it: the payload
bytes and the message type it is sent under. -/
structure EncodedMessage where
  payload : List Nat
  message_type : Nat
  deriving DecidableEq, Repr

/-- What the handlers and pushes of `api_connection.cpp` use of the server,
the application and the build, and do not define: the password check of the
parent server, the application name and version string, the peer address of
the socket, the entity ids of the parent's Home Assistant state subscriptions
and how the response for one of them is encoded, the encoded time request,
whether the firmware is built with `USE_HOMEASSISTANT_TIME` and has a time
component, and the two field encoders of the write buffer that the log push
uses besides `encode_bool`. -/
structure Server where
  check_password : String → Bool
  app_name : String
  ESPHOME_VERSION : String
  remote_ip : String
  state_subs : List String
  state_subscription_response : String → EncodedMessage
  time_request : EncodedMessage
  USE_HOMEASSISTANT_TIME : Bool
  global_homeassistant_time : Bool
  encode_uint32 : Nat → Nat → List Nat
  encode_string : Nat → List Nat → List Nat

/-- Modelled from the spec: the `send_*_response` and `send_*_request`
functions are generated service code that is not part of these sources; the
spec's dispatch and send path: the typed message is encoded and handed to the
send path (`send_buffer`) under its message type. -/
def send_message_ (sock : SocketReadings) (msg : EncodedMessage) (s : Session) :
    Session × Bool :=
  send_buffer sock msg.payload msg.message_type s

/-- `APIConnection::hello`: the session afterwards and the response. -/
def hello (srv : Server) (msg : HelloRequest) (s : Session) : Session × HelloResponse :=
  let s := { s with client_info_ := msg.client_info ++ " (" ++ srv.remote_ip ++ ")" }
  let resp : HelloResponse :=
    { api_version_major := 1, api_version_minor := 2,
      server_info := srv.app_name ++ " (esphome v" ++ srv.ESPHOME_VERSION ++ ")" }
  ({ s with connection_state_ := .CONNECTED }, resp)

/-- `APIConnection::connect`: the session afterwards and the response.  `sock`
is what the send of the time request observes of the socket. -/
def connect (srv : Server) (sock : SocketReadings) (msg : ConnectRequest) (s : Session) :
    Session × ConnectResponse :=
  let correct := srv.check_password msg.password
  let resp : ConnectResponse := { invalid_password := !correct }
  if correct then
    let s := { s with connection_state_ := .AUTHENTICATED }
    let s :=
      if srv.USE_HOMEASSISTANT_TIME && srv.global_homeassistant_time then
        (send_message_ sock srv.time_request s).1
      else s
    (s, resp)
  else (s, resp)

/-- The order of the session states: INITIALIZED < CONNECTED < AUTHENTICATED,
as numbers. -/
def ConnectionState.rank : ConnectionState → Nat
  | .INITIALIZED => 0
  | .CONNECTED => 1
  | .AUTHENTICATED => 2

/-- `APIConnection::send_binary_sensor_state`; `resp` is the encoded
`BinarySensorStateResponse` that the function builds from key and state. -/
def send_binary_sensor_state (sock : SocketReadings) (resp : EncodedMessage) (s : Session) :
    Session × Bool :=
  if !s.state_subscription_ then (s, false)
  else send_message_ sock resp s

/-- `APIConnection::send_cover_state`; `resp` is the encoded
`CoverStateResponse` built from the cover and its traits. -/
def send_cover_state (sock : SocketReadings) (resp : EncodedMessage) (s : Session) :
    Session × Bool :=
  if !s.state_subscription_ then (s, false)
  else send_message_ sock resp s

/-- `APIConnection::send_fan_state`; `resp` is the encoded `FanStateResponse`
built from the fan and its traits. -/
def send_fan_state (sock : SocketReadings) (resp : EncodedMessage) (s : Session) :
    Session × Bool :=
  if !s.state_subscription_ then (s, false)
  else send_message_ sock resp s

/-- `APIConnection::send_light_state`; `resp` is the encoded
`LightStateResponse` built from the light, its values and its traits. -/
def send_light_state (sock : SocketReadings) (resp : EncodedMessage) (s : Session) :
    Session × Bool :=
  if !s.state_subscription_ then (s, false)
  else send_message_ sock resp s

/-- `APIConnection::send_sensor_state`; `resp` is the encoded
`SensorStateResponse` built from key and state. -/
def send_sensor_state (sock : SocketReadings) (resp : EncodedMessage) (s : Session) :
    Session × Bool :=
  if !s.state_subscription_ then (s, false)
  else send_message_ sock resp s

/-- `APIConnection::send_switch_state`; `resp` is the encoded
`SwitchStateResponse` built from key and state. -/
def send_switch_state (sock : SocketReadings) (resp : EncodedMessage) (s : Session) :
    Session × Bool :=
  if !s.state_subscription_ then (s, false)
  else send_message_ sock resp s

/-- `APIConnection::send_text_sensor_state`; `resp` is the encoded
`TextSensorStateResponse` built from key and state. -/
def send_text_sensor_state (sock : SocketReadings) (resp : EncodedMessage) (s : Session) :
    Session × Bool :=
  if !s.state_subscription_ then (s, false)
  else send_message_ sock resp s

/-- `APIConnection::send_climate_state`; `resp` is the encoded
`ClimateStateResponse` built from the climate device and its traits. -/
def send_climate_state (sock : SocketReadings) (resp : EncodedMessage) (s : Session) :
    Session × Bool :=
  if !s.state_subscription_ then (s, false)
  else send_message_ sock resp s

/-- Modelled from the spec: `image_reader_.set_image(image)` takes a new
source and puts the cursor at its start. -/
def CameraImageReader.set_image (image : List Nat) (_r : CameraImageReader) :
    CameraImageReader :=
  { image_ := some image, offset_ := 0 }

/-- `APIConnection::send_camera_state`. -/
def send_camera_state (image : List Nat) (s : Session) : Session :=
  if !s.state_subscription_ then s
  else if s.image_reader_.available ≠ 0 then s
  else { s with image_reader_ := s.image_reader_.set_image image }

/-- `APIConnection::send_log_message(level, tag, line)`: the session afterwards
and the returned flag.  `line` is the text up to its terminating zero byte;
`sock` and `sock_retry` are what the first and the second `send_buffer` call
observe of the socket. -/
def send_log_message (x : Externals) (srv : Server) (sock sock_retry : SocketReadings)
    (level : Int) (line : List Nat) (s : Session) : Session × Bool :=
  if s.log_subscription_ < level then (s, false)
  else
    let buffer : List Nat := []
    let buffer := buffer ++ srv.encode_uint32 1 (level % 2 ^ 32).toNat
    let buffer := buffer ++ srv.encode_string 3 line
    let r := send_buffer sock buffer 29 s
    let success := r.2
    if !success then
      let buffer : List Nat := []
      let buffer := buffer ++ x.encode_bool 4 true
      send_buffer sock_retry buffer 29 r.1
    else (r.1, true)

/-- The `for` loop of `subscribe_home_assistant_states` over the state
subscriptions that are left; `socks k` is what the send for subscription `k`
observes of the socket. -/
def subscribe_states_loop (srv : Server) (socks : Nat → SocketReadings) :
    Nat → List String → Session → Session
  | _, [], s => s
  | k, entity_id :: rest, s =>
    let r := send_message_ (socks k) (srv.state_subscription_response entity_id) s
    if !r.2 then r.1.on_fatal_error
    else subscribe_states_loop srv socks (k + 1) rest r.1

/-- `APIConnection::subscribe_home_assistant_states`. -/
def subscribe_home_assistant_states (srv : Server) (socks : Nat → SocketReadings)
    (s : Session) : Session :=
  subscribe_states_loop srv socks 0 srv.state_subs s

/-- Example server: the password is "secret", one Home Assistant state
subscription, no time component. -/
def Server.plain : Server :=
  { check_password := fun p => p == "secret", app_name := "node", ESPHOME_VERSION := "1",
    remote_ip := "10.0.0.2", state_subs := ["sensor.outside"],
    state_subscription_response := fun _ => { payload := [0x0a, 0x00], message_type := 39 },
    time_request := { payload := [], message_type := 36 },
    USE_HOMEASSISTANT_TIME := false, global_homeassistant_time := false,
    encode_uint32 := fun _ v => [0x08, v % 128], encode_string := fun _ l => 0x1a :: l.length :: l }

/-- Example socket readings: room for `space` bytes at both checks, `send()`
succeeds. -/
def SocketReadings.room (space : Nat) : SocketReadings :=
  { space_first := space, space_second := space, send_result := true }

/-- The value of `to_send` in the camera part of `loop()`. -/
def camera_to_send (t : Tick) (s : Session) : Nat :=
  min (t.camera_space % 2 ^ 32 - 15) s.image_reader_.available

/-- The buffer that the camera part of `loop()` fills for one chunk: the key,
the next `to_send` bytes of the image and the `done` flag. -/
def camera_chunk (x : Externals) (t : Tick) (s : Session) : List Nat :=
  x.encode_fixed32 1 x.camera_object_id_hash ++
    x.encode_bytes 2 (s.image_reader_.peek_data_buffer.take (camera_to_send t s)) ++
    x.encode_bool 3 (s.image_reader_.available == camera_to_send t s)

/-- Modelled from the spec: the field encoders of the write buffer are defined
in proto.h, which is not part of these sources.  A fixed32 field is its tag
byte and the four bytes of the value, least significant first (5 bytes). -/
def proto_fixed32 (field value : Nat) : List Nat :=
  [(field <<< 3 ||| 5) % 256, value % 256, value / 2 ^ 8 % 256, value / 2 ^ 16 % 256,
    value / 2 ^ 24 % 256]

/-- Modelled from the spec: a bytes (or string) field is its tag byte, the
varint of the length and the bytes. -/
def proto_bytes (field : Nat) (data : List Nat) : List Nat :=
  (field <<< 3 ||| 2) % 256 :: (varint_bytes data.length data.length ++ data)

/-- Modelled from the spec: a bool field is its tag byte and one byte for the
value (2 bytes). -/
def proto_bool (field : Nat) (value : Bool) : List Nat :=
  [(field <<< 3) % 256, if value then 1 else 0]

/-- Example externals of a firmware with the camera compiled in: the field
encoders as modelled above, the camera image response under message type
44. -/
def Externals.camera : Externals :=
  { read_message := ignore_message, ping_request := [], PING_REQUEST := 7,
    encode_fixed32 := proto_fixed32, encode_bytes := proto_bytes, encode_bool := proto_bool,
    camera_object_id_hash := 0x1234abcd, CAMERA_IMAGE_RESPONSE := 44,
    USE_ESP32_CAMERA := true }

/-- Example tick at clock value `now` in which the socket reports `space` free
bytes at every reading. -/
def Tick.with_space (now space : Nat) : Tick :=
  { Tick.quiet now with
    ping_socket := SocketReadings.room space, camera_space := space,
    camera_socket := SocketReadings.room space }

/-- Example session that streams an image of `n` bytes: subscribed, the
reader at the start of the image. -/
def Session.streaming (n : Nat) : Session :=
  { (APIConnection.fresh 0).toSession with
    state_subscription_ := true,
    image_reader_ := { image_ := some (List.replicate n 0xab), offset_ := 0 } }

/-- Example connection that streams an image of `n` bytes. -/
def APIConnection.streaming (n : Nat) : APIConnection :=
  { APIConnection.fresh 0 with toSession := Session.streaming n }

/-- Example session that streams the given image: subscribed, the reader at
the start of the image. -/
def Session.with_image (image : List Nat) : Session :=
  { (APIConnection.fresh 0).toSession with
    state_subscription_ := true,
    image_reader_ := { image_ := some image, offset_ := 0 } }

end esphome.api

namespace esphome.neopixelbus

/-! ## Pixel order of the NeoPixelBus light (neopixelbus_light.h) -/

/-- The enumerators of `enum class ESPNeoPixelOrder`, in the order of the
header. -/
inductive ESPNeoPixelOrder where
  | GBWR | GBRW | GBR | GWBR | GRBW | GRB | GWRB | GRWB | BGWR | BGRW | BGR | WGBR | RGBW | RGB
  | WGRB | RGWB | BWGR | BRGW | BRG | WBGR | RBGW | RBG | WRGB | RWGB | BWRG | BRWG | WBRG
  | RBWG | WRBG | RWBG
  deriving DecidableEq, Repr

/-- The value the header gives each enumerator (`GBR` and `GBRW`, for example,
have the same value). -/
def ESPNeoPixelOrder.value : ESPNeoPixelOrder → Nat
  | .GBWR => 0b11000110
  | .GBRW => 0b10000111
  | .GBR => 0b10000111
  | .GWBR => 0b11001001
  | .GRBW => 0b01001011
  | .GRB => 0b01001011
  | .GWRB => 0b10001101
  | .GRWB => 0b01001110
  | .BGWR => 0b11010010
  | .BGRW => 0b10010011
  | .BGR => 0b10010011
  | .WGBR => 0b11011000
  | .RGBW => 0b00011011
  | .RGB => 0b00011011
  | .WGRB => 0b10011100
  | .RGWB => 0b00011110
  | .BWGR => 0b11100001
  | .BRGW => 0b01100011
  | .BRG => 0b01100011
  | .WBGR => 0b11100100
  | .RBGW => 0b00100111
  | .RBG => 0b00100111
  | .WRGB => 0b01101100
  | .RWGB => 0b00101101
  | .BWRG => 0b10110001
  | .BRWG => 0b01110010
  | .WBRG => 0b10110100
  | .RBWG => 0b00110110
  | .WRBG => 0b01111000
  | .RWBG => 0b00111001

/-- The name of each enumerator in the header. -/
def ESPNeoPixelOrder.identifier : ESPNeoPixelOrder → String
  | .GBWR => "GBWR"
  | .GBRW => "GBRW"
  | .GBR => "GBR"
  | .GWBR => "GWBR"
  | .GRBW => "GRBW"
  | .GRB => "GRB"
  | .GWRB => "GWRB"
  | .GRWB => "GRWB"
  | .BGWR => "BGWR"
  | .BGRW => "BGRW"
  | .BGR => "BGR"
  | .WGBR => "WGBR"
  | .RGBW => "RGBW"
  | .RGB => "RGB"
  | .WGRB => "WGRB"
  | .RGWB => "RGWB"
  | .BWGR => "BWGR"
  | .BRGW => "BRGW"
  | .BRG => "BRG"
  | .WBGR => "WBGR"
  | .RBGW => "RBGW"
  | .RBG => "RBG"
  | .WRGB => "WRGB"
  | .RWGB => "RWGB"
  | .BWRG => "BWRG"
  | .BRWG => "BRWG"
  | .WBRG => "WBRG"
  | .RBWG => "RBWG"
  | .WRBG => "WRBG"
  | .RWBG => "RWBG"

/-- Of `NeoPixelBusLightOutputBase` the member `uint8_t rgb_offsets_[4]`. -/
structure NeoPixelBusLightOutputBase where
  rgb_offsets_ : Fin 4 → Nat

/-- The member initialiser of `rgb_offsets_`: 0, 1, 2, 3. -/
def NeoPixelBusLightOutputBase.initial : NeoPixelBusLightOutputBase :=
  { rgb_offsets_ := fun k => k.val }

/-- `NeoPixelBusLightOutputBase::set_pixel_order(order)`.  The stores are to
`uint8_t`, hence the `% 2 ^ 8`. -/
def NeoPixelBusLightOutputBase.set_pixel_order (order : ESPNeoPixelOrder)
    (o : NeoPixelBusLightOutputBase) : NeoPixelBusLightOutputBase :=
  let u_order := order.value % 2 ^ 8
  let o := { o with
    rgb_offsets_ := Function.update o.rgb_offsets_ 0 (((u_order >>> 6) &&& 0b11) % 2 ^ 8) }
  let o := { o with
    rgb_offsets_ := Function.update o.rgb_offsets_ 1 (((u_order >>> 4) &&& 0b11) % 2 ^ 8) }
  let o := { o with
    rgb_offsets_ := Function.update o.rgb_offsets_ 2 (((u_order >>> 2) &&& 0b11) % 2 ^ 8) }
  let o := { o with
    rgb_offsets_ := Function.update o.rgb_offsets_ 3 (((u_order >>> 0) &&& 0b11) % 2 ^ 8) }
  o

/-- `NeoPixelRGBLightOutput::operator[](index)` for an index that is not
negative: the first three arguments of the colour view it builds, which are the
addresses of the red, green and blue byte, given as offsets from
`controller_->Pixels()`.  The fourth argument (white) is `nullptr`. -/
def NeoPixelRGBLightOutput.operator_index (o : NeoPixelBusLightOutputBase) (index : Nat) :
    List Nat :=
  let base := 3 * index
  [base + o.rgb_offsets_ 0, base + o.rgb_offsets_ 1, base + o.rgb_offsets_ 2]

/-- Claim C22 in the spec's words: the position of a letter in the
enumerator's name, with "W at position 3 for the three-letter names". -/
def spec_letter_position (name : String) (letter : Char) : Nat :=
  if letter ∈ name.toList then name.toList.indexOf letter else 3

end esphome.neopixelbus

namespace esphome.api

set_option maxRecDepth 1000000

/-! ## The list view agrees with the code -/

theorem scan_varint_consumed_le (v : List Nat) :
    ∀ acc, (scan_varint acc v).2.1 ≤ v.length := by
  induction v with
  | nil => intro acc; simp [scan_varint]
  | cons dat rest ih =>
    intro acc
    unfold scan_varint
    split
    · simp
    · have := ih (((acc ||| (dat &&& 0x7F)) <<< 7) % 2 ^ 32)
      simp only [List.length_cons]
      omega

theorem scan_varint_unterminated (v : List Nat) :
    ∀ acc, (scan_varint acc v).2.2 = false → (scan_varint acc v).2.1 = v.length := by
  induction v with
  | nil => intro acc _; simp [scan_varint]
  | cons dat rest ih =>
    intro acc
    unfold scan_varint
    split
    · simp
    · intro h
      have := ih _ h
      simp only [List.length_cons]
      omega

theorem scan_varint_terminated_pos (v : List Nat) :
    ∀ acc, (scan_varint acc v).2.2 = true → 1 ≤ (scan_varint acc v).2.1 := by
  cases v with
  | nil => intro acc; simp [scan_varint]
  | cons dat rest =>
    intro acc _
    unfold scan_varint
    split <;> simp

theorem read_msg_type_eq (buf : List Nat) (hlen : buf.length < 2 ^ 32) :
    ∀ fuel i acc, i ≤ buf.length → buf.length - i ≤ fuel →
      read_msg_type buf buf.length fuel i acc =
        ((scan_varint acc (buf.drop i)).1, (scan_varint acc (buf.drop i)).2.2,
          i + (scan_varint acc (buf.drop i)).2.1) := by
  intro fuel
  induction fuel with
  | zero =>
    intro i acc hi hf
    have : i = buf.length := by omega
    subst this
    simp [read_msg_type, scan_varint]
  | succ fuel ih =>
    intro i acc hi hf
    unfold read_msg_type
    by_cases hlt : i < buf.length
    · have hdrop : buf.drop i = buf[i] :: buf.drop (i + 1) := List.drop_eq_getElem_cons hlt
      have hget : buf.getD i 0 = buf[i] := by
        simp [List.getD_eq_getElem?_getD, List.getElem?_eq_getElem hlt]
      have hmod : (i + 1) % 2 ^ 32 = i + 1 := Nat.mod_eq_of_lt (by omega)
      rw [if_pos hlt, hdrop]
      simp only [hget, hmod]
      unfold scan_varint
      by_cases hb : buf[i] &&& 0x80 = 0x00
      · simp [hb]
      · simp only [hb, if_false]
        rw [ih (i + 1) _ (by omega) (by omega)]
        simp only [Prod.mk.injEq, true_and]
        omega
    · have : i = buf.length := by omega
      subst this
      simp [scan_varint]

theorem read_msg_size_eq (buf : List Nat) (hlen : buf.length < 2 ^ 32) :
    ∀ fuel i acc, i ≤ buf.length → buf.length - i ≤ fuel →
      read_msg_size buf buf.length fuel i acc =
        ((scan_varint acc (buf.drop i)).1, i + (scan_varint acc (buf.drop i)).2.1) := by
  intro fuel
  induction fuel with
  | zero =>
    intro i acc hi hf
    have : i = buf.length := by omega
    subst this
    simp [read_msg_size, scan_varint]
  | succ fuel ih =>
    intro i acc hi hf
    unfold read_msg_size
    by_cases hlt : i < buf.length
    · have hdrop : buf.drop i = buf[i] :: buf.drop (i + 1) := List.drop_eq_getElem_cons hlt
      have hget : buf.getD i 0 = buf[i] := by
        simp [List.getD_eq_getElem?_getD, List.getElem?_eq_getElem hlt]
      have hmod : (i + 1) % 2 ^ 32 = i + 1 := Nat.mod_eq_of_lt (by omega)
      rw [if_pos hlt, hdrop]
      simp only [hget, hmod]
      unfold scan_varint
      by_cases hb : buf[i] &&& 0x80 = 0x00
      · simp [hb]
      · simp only [hb, if_false]
        rw [ih (i + 1) _ (by omega) (by omega)]
        simp only [Prod.mk.injEq, true_and]
        omega
    · have : i = buf.length := by omega
      subst this
      simp [scan_varint]

theorem scan_varint_cons_pos (dat : Nat) (rest : List Nat) (acc : Nat) :
    1 ≤ (scan_varint acc (dat :: rest)).2.1 := by
  unfold scan_varint
  split <;> simp

theorem frame_view_bounds {buf : List Nat} {msg_size msg_type i : Nat}
    (h : frame_view buf = .frame msg_size msg_type i) :
    3 ≤ i ∧ i + msg_size ≤ buf.length := by
  cases buf with
  | nil => simp [frame_view] at h
  | cons b0 rest =>
    simp only [frame_view] at h
    split at h
    · cases h
    · split at h
      · cases h
      · rename_i h1
        split at h
        · cases h
        · rename_i h2
          split at h
          · cases h
          · rename_i h3
            simp only [Decoded.frame.injEq] at h
            obtain ⟨rfl, rfl, rfl⟩ := h
            have hc1 := scan_varint_consumed_le rest 0
            have hc2 := scan_varint_consumed_le (rest.drop (scan_varint 0 rest).2.1) 0
            have hp2 := scan_varint_terminated_pos (rest.drop (scan_varint 0 rest).2.1) 0
              (by simpa using h2)
            have hp1 : 1 ≤ (scan_varint 0 rest).2.1 := by
              cases rest with
              | nil => simp [scan_varint] at h1
              | cons d r => exact scan_varint_cons_pos d r 0
            simp only [List.length_drop, List.length_cons] at *
            omega

theorem parse_iteration_eq (read_message : Dispatcher) (now : Nat) (c : APIConnection)
    (hlen : c.recv_buffer_.length < 2 ^ 32) (hne : c.recv_buffer_ ≠ []) :
    parse_iteration read_message now c =
      match frame_view c.recv_buffer_ with
      | .malformed => .returned (c.withSession c.toSession.on_fatal_error) none
      | .incomplete => .returned c none
      | .frame msg_size msg_type i =>
        if (read_message c.toSession msg_size msg_type
            ((c.recv_buffer_.drop i).take msg_size)).remove_ then
          .returned (c.withSession (read_message c.toSession msg_size msg_type
            ((c.recv_buffer_.drop i).take msg_size)))
            (some ⟨msg_type, (c.recv_buffer_.drop i).take msg_size⟩)
        else
          .again { c with
              toSession := read_message c.toSession msg_size msg_type
                ((c.recv_buffer_.drop i).take msg_size),
              recv_buffer_ := c.recv_buffer_.drop (i + msg_size),
              last_traffic_ := now }
            ⟨msg_type, (c.recv_buffer_.drop i).take msg_size⟩ := by
  obtain ⟨s, buf, lt⟩ := c
  simp only at hlen hne ⊢
  cases buf with
  | nil => exact absurd rfl hne
  | cons b0 rest =>
    have hlen1 : rest.length + 1 < 2 ^ 32 := by simpa using hlen
    have hc1 := scan_varint_consumed_le rest 0
    have hc2 := scan_varint_consumed_le (rest.drop (scan_varint 0 rest).2.1) 0
    have hsize := read_msg_size_eq (b0 :: rest) hlen (b0 :: rest).length 1 0 (by simp) (by simp)
    have htype := read_msg_type_eq (b0 :: rest) hlen (b0 :: rest).length
      (1 + (scan_varint 0 rest).2.1) 0 (by simp only [List.length_cons]; omega) (by omega)
    have hdrop : List.drop (1 + (scan_varint 0 rest).2.1) (b0 :: rest)
        = List.drop (scan_varint 0 rest).2.1 rest := by
      rw [Nat.add_comm]; rfl
    rw [hdrop] at htype
    simp only [List.drop_succ_cons, List.drop_zero] at hsize
    unfold parse_iteration
    simp only [Nat.mod_eq_of_lt hlen, hsize, htype, frame_view, List.getD_cons_zero]
    simp only [List.length_drop, List.length_cons] at hc2 ⊢
    generalize scan_varint 0 (List.drop (scan_varint 0 rest).2.1 rest) = r2 at hc2 ⊢
    generalize scan_varint 0 rest = r1 at hc1 hc2 ⊢
    obtain ⟨v2, c2, d2⟩ := r2
    obtain ⟨v1, c1, d1⟩ := r1
    simp only at hc1 hc2 ⊢
    by_cases hb0 : b0 = 0
    · subst hb0
      simp only [ne_eq, not_true_eq_false, if_false]
      by_cases h1 : c1 = rest.length
      · have h1' : 1 + c1 = rest.length + 1 := by omega
        rw [if_pos h1', if_pos h1]
      · have h1' : ¬ (1 + c1 = rest.length + 1) := by omega
        rw [if_neg h1', if_neg h1]
        cases d2 with
        | false => simp
        | true =>
          simp only [Bool.not_true, Bool.false_eq_true, if_false]
          by_cases h3 : rest.length - c1 - c2 < v1
          · have h3' : rest.length + 1 - (1 + c1 + c2) < v1 := by omega
            rw [if_pos h3', if_pos h3]
          · have h3' : ¬ (rest.length + 1 - (1 + c1 + c2) < v1) := by omega
            have hmod : (1 + c1 + c2 + v1) % 2 ^ 32 = 1 + c1 + c2 + v1 :=
              Nat.mod_eq_of_lt (by omega)
            rw [if_neg h3', if_neg h3, hmod]
    · simp [hb0]

/-! ## Varints at the front of a list -/

theorem scan_varint_append (v : List Nat) (x : List Nat) :
    ∀ acc, (scan_varint acc v).2.2 = true →
      scan_varint acc (v ++ x) = scan_varint acc v := by
  induction v with
  | nil => intro acc h; simp [scan_varint] at h
  | cons dat rest ih =>
    intro acc h
    simp only [List.cons_append]
    unfold scan_varint at h ⊢
    by_cases hb : dat &&& 0x80 = 0x00
    · simp [hb]
    · simp only [hb, if_false] at h ⊢
      rw [ih _ h]

theorem scan_varint_is_varint (v : List Nat) :
    ∀ acc, is_varint v = true →
      (scan_varint acc v).2.1 = v.length ∧ (scan_varint acc v).2.2 = true := by
  induction v with
  | nil => intro acc h; simp [is_varint] at h
  | cons dat rest ih =>
    intro acc h
    cases rest with
    | nil =>
      simp only [is_varint, beq_iff_eq] at h
      simp [scan_varint, h]
    | cons d r =>
      simp only [is_varint, Bool.and_eq_true, bne_iff_ne, ne_eq] at h
      unfold scan_varint
      simp only [h.1, if_false]
      have := ih (((acc ||| (dat &&& 0x7F)) <<< 7) % 2 ^ 32) h.2
      simp only [List.length_cons] at this ⊢
      exact ⟨by omega, this.2⟩

theorem scan_varint_continuation (u : List Nat) (hu : ∀ b ∈ u, b &&& 0x80 ≠ 0) :
    ∀ acc, (scan_varint acc u).2.1 = u.length ∧ (scan_varint acc u).2.2 = false := by
  induction u with
  | nil => intro acc; simp [scan_varint]
  | cons dat rest ih =>
    intro acc
    have hd : ¬ (dat &&& 0x80 = 0x00) := hu dat (List.mem_cons_self _ _)
    unfold scan_varint
    simp only [hd, if_false]
    have := ih (fun b hb => hu b (List.mem_cons_of_mem _ hb))
      (((acc ||| (dat &&& 0x7F)) <<< 7) % 2 ^ 32)
    simp only [List.length_cons]
    exact ⟨by omega, this.2⟩

/-- A complete frame at the front of the buffer is what `frame_view` finds. -/
theorem frame_view_frame (l t rest : List Nat) (hl : is_varint l = true)
    (ht : is_varint t = true) (hrest : varint_value l ≤ rest.length) :
    frame_view (0x00 :: (l ++ t ++ rest)) =
      .frame (varint_value l) (varint_value t) (1 + l.length + t.length) := by
  have h1 := scan_varint_is_varint l 0 hl
  have h2 := scan_varint_is_varint t 0 ht
  have e1 : scan_varint 0 (l ++ t ++ rest) = scan_varint 0 l := by
    rw [List.append_assoc]; exact scan_varint_append l _ 0 h1.2
  have e2 : scan_varint 0 (t ++ rest) = scan_varint 0 t := scan_varint_append t _ 0 h2.2
  have hpos : 1 ≤ t.length := by
    have := scan_varint_terminated_pos t 0 h2.2
    omega
  have hd : List.drop l.length (l ++ t ++ rest) = t ++ rest := by
    rw [List.append_assoc, List.drop_left]
  simp only [frame_view, e1, h1.1, hd, e2, h2.1, h2.2, varint_value, List.length_append]
  have c1 : ¬ (l.length = l.length + t.length + rest.length) := by omega
  have c3 : ¬ (l.length + t.length + rest.length - l.length - t.length < (scan_varint 0 l).1) := by
    simp only [varint_value] at hrest; omega
  simp [c1, c3]

/-- More bytes behind a complete frame do not change what is found. -/
theorem frame_view_append {buf : List Nat} {msg_size msg_type i : Nat} (x : List Nat)
    (h : frame_view buf = .frame msg_size msg_type i) :
    frame_view (buf ++ x) = .frame msg_size msg_type i := by
  cases buf with
  | nil => simp [frame_view] at h
  | cons b0 rest =>
    simp only [frame_view, List.cons_append] at h ⊢
    by_cases hb0 : b0 = 0
    · simp only [hb0, ne_eq, not_true_eq_false, if_false] at h ⊢
      by_cases h1 : (scan_varint 0 rest).2.1 = rest.length
      · simp [h1] at h
      · have hd1 : (scan_varint 0 rest).2.2 = true := by
          by_contra hc
          exact h1 (scan_varint_unterminated rest 0 (by simpa using hc))
        have hle := scan_varint_consumed_le rest 0
        simp only [h1, if_false] at h
        rw [scan_varint_append rest x 0 hd1]
        have h1' : ¬ ((scan_varint 0 rest).2.1 = (rest ++ x).length) := by
          simp only [List.length_append]; omega
        simp only [h1', if_false]
        have hdrop : List.drop (scan_varint 0 rest).2.1 (rest ++ x)
            = List.drop (scan_varint 0 rest).2.1 rest ++ x := by
          rw [List.drop_append_of_le_length hle]
        rw [hdrop]
        by_cases h2 : (scan_varint 0 (List.drop (scan_varint 0 rest).2.1 rest)).2.2 = true
        · rw [scan_varint_append _ x 0 h2]
          simp only [h2, Bool.not_true, Bool.false_eq_true, if_false] at h ⊢
          by_cases h3 : rest.length - (scan_varint 0 rest).2.1 -
                (scan_varint 0 (List.drop (scan_varint 0 rest).2.1 rest)).2.1
                  < (scan_varint 0 rest).1
          · simp [h3] at h
          · have h3' : ¬ ((rest ++ x).length - (scan_varint 0 rest).2.1 -
                (scan_varint 0 (List.drop (scan_varint 0 rest).2.1 rest)).2.1
                  < (scan_varint 0 rest).1) := by
              simp only [List.length_append]; omega
            simp only [h3, h3', if_false] at h ⊢
            exact h
        · simp [h2] at h
    · simp [hb0] at h

theorem frame_view_malformed_append {buf : List Nat} (x : List Nat)
    (h : frame_view buf = .malformed) : frame_view (buf ++ x) = .malformed := by
  cases buf with
  | nil => simp [frame_view] at h
  | cons b0 rest =>
    simp only [frame_view, List.cons_append] at h ⊢
    by_cases hb0 : b0 = 0
    · simp only [hb0, ne_eq, not_true_eq_false, if_false] at h
      split at h
      · cases h
      · split at h
        · cases h
        · split at h <;> cases h
    · simp [hb0]

/-! ## The outer loop -/

theorem frame_view_nil : frame_view [] = .incomplete := rfl

theorem frames_loop_succ (read_message : Dispatcher) (fuel : Nat) (s : Session)
    (buf : List Nat) :
    frames_loop read_message (fuel + 1) s buf =
      match frame_view buf with
      | .malformed => (s.on_fatal_error, buf, [])
      | .incomplete => (s, buf, [])
      | .frame msg_size msg_type i =>
        if (read_message s msg_size msg_type ((buf.drop i).take msg_size)).remove_ then
          (read_message s msg_size msg_type ((buf.drop i).take msg_size), buf,
            [⟨msg_type, (buf.drop i).take msg_size⟩])
        else
          ((frames_loop read_message fuel
              (read_message s msg_size msg_type ((buf.drop i).take msg_size))
              (buf.drop (i + msg_size))).1,
           (frames_loop read_message fuel
              (read_message s msg_size msg_type ((buf.drop i).take msg_size))
              (buf.drop (i + msg_size))).2.1,
           ⟨msg_type, (buf.drop i).take msg_size⟩ ::
           (frames_loop read_message fuel
              (read_message s msg_size msg_type ((buf.drop i).take msg_size))
              (buf.drop (i + msg_size))).2.2) := by
  rw [frames_loop]

/-- Any fuel that is at least the buffer length gives the same run. -/
theorem frames_loop_fuel (read_message : Dispatcher) :
    ∀ fuel m s buf, buf.length ≤ fuel → buf.length ≤ m →
      frames_loop read_message fuel s buf = frames_loop read_message m s buf := by
  intro fuel
  induction fuel with
  | zero =>
    intro m s buf hf _
    have hb : buf = [] := List.length_eq_zero.mp (by omega)
    subst hb
    cases m <;> simp [frames_loop, frame_view_nil]
  | succ fuel ih =>
    intro m s buf hf hm
    cases m with
    | zero =>
      have hb : buf = [] := List.length_eq_zero.mp (by omega)
      subst hb
      simp [frames_loop, frame_view_nil]
    | succ m =>
      rw [frames_loop_succ, frames_loop_succ]
      cases hv : frame_view buf with
      | malformed => rfl
      | incomplete => rfl
      | frame msg_size msg_type i =>
        have hb := frame_view_bounds hv
        simp only
        have hlen : (buf.drop (i + msg_size)).length ≤ buf.length - 3 := by
          simp only [List.length_drop]; omega
        rw [ih m _ _ (by omega) (by omega)]

/-- The run of the loop, in the form of the loop's own unfolding. -/
theorem frames_loop_unfold (read_message : Dispatcher) (s : Session) (buf : List Nat) :
    frames_loop read_message buf.length s buf =
      match frame_view buf with
      | .malformed => (s.on_fatal_error, buf, [])
      | .incomplete => (s, buf, [])
      | .frame msg_size msg_type i =>
        if (read_message s msg_size msg_type ((buf.drop i).take msg_size)).remove_ then
          (read_message s msg_size msg_type ((buf.drop i).take msg_size), buf,
            [⟨msg_type, (buf.drop i).take msg_size⟩])
        else
          ((frames_loop read_message (buf.drop (i + msg_size)).length
              (read_message s msg_size msg_type ((buf.drop i).take msg_size))
              (buf.drop (i + msg_size))).1,
           (frames_loop read_message (buf.drop (i + msg_size)).length
              (read_message s msg_size msg_type ((buf.drop i).take msg_size))
              (buf.drop (i + msg_size))).2.1,
           ⟨msg_type, (buf.drop i).take msg_size⟩ ::
           (frames_loop read_message (buf.drop (i + msg_size)).length
              (read_message s msg_size msg_type ((buf.drop i).take msg_size))
              (buf.drop (i + msg_size))).2.2) := by
  cases hlen : buf.length with
  | zero =>
    have hb : buf = [] := List.length_eq_zero.mp hlen
    subst hb
    simp [frames_loop, frame_view_nil]
  | succ n =>
    rw [frames_loop_succ]
    cases hv : frame_view buf with
    | malformed => rfl
    | incomplete => rfl
    | frame msg_size msg_type i =>
      have hb := frame_view_bounds hv
      simp only
      have hl : (buf.drop (i + msg_size)).length ≤ n := by
        simp only [List.length_drop]; omega
      rw [frames_loop_fuel read_message n (buf.drop (i + msg_size)).length _ _ hl (le_refl _)]

/-- The clocked loop of the code and the loop over session and buffer make the
same run. -/
theorem parse_loop_view (read_message : Dispatcher) (millis : Nat → Nat) :
    ∀ fuel k c, c.recv_buffer_.length < 2 ^ 32 →
      ((parse_loop read_message millis fuel k c).1.toSession,
        (parse_loop read_message millis fuel k c).1.recv_buffer_,
        (parse_loop read_message millis fuel k c).2) =
      frames_loop read_message fuel c.toSession c.recv_buffer_ := by
  intro fuel
  induction fuel with
  | zero => intro k c _; rfl
  | succ fuel ih =>
    intro k c hlen
    rw [frames_loop_succ]
    unfold parse_loop
    by_cases he : c.recv_buffer_ = []
    · simp [he, frame_view_nil]
    · have hne : c.recv_buffer_.isEmpty = false := by
        cases hb : c.recv_buffer_ with
        | nil => exact absurd hb he
        | cons _ _ => rfl
      simp only [hne, Bool.false_eq_true, if_false]
      rw [parse_iteration_eq read_message (millis k) c hlen he]
      cases hv : frame_view c.recv_buffer_ with
      | malformed => rfl
      | incomplete => rfl
      | frame msg_size msg_type i =>
        simp only
        by_cases hr : (read_message c.toSession msg_size msg_type
            ((c.recv_buffer_.drop i).take msg_size)).remove_ = true
        · simp only [hr, if_true]; rfl
        · simp only [hr, Bool.false_eq_true, if_false]
          have := ih (k + 1)
            { c with
              toSession := read_message c.toSession msg_size msg_type
                ((c.recv_buffer_.drop i).take msg_size),
              recv_buffer_ := c.recv_buffer_.drop (i + msg_size),
              last_traffic_ := millis k }
            (by simp only [List.length_drop]; omega)
          simp only at this
          rw [← this]

/-- `parse_recv_buffer_` over session and buffer. -/
theorem parse_recv_buffer_view (read_message : Dispatcher) (millis : Nat → Nat)
    (c : APIConnection) (hlen : c.recv_buffer_.length < 2 ^ 32) :
    ((parse_recv_buffer_ read_message millis c).1.toSession,
      (parse_recv_buffer_ read_message millis c).1.recv_buffer_,
      (parse_recv_buffer_ read_message millis c).2) =
    if c.recv_buffer_.isEmpty || c.remove_ then (c.toSession, c.recv_buffer_, [])
    else frames_loop read_message c.recv_buffer_.length c.toSession c.recv_buffer_ := by
  unfold parse_recv_buffer_
  split
  · rfl
  · exact parse_loop_view read_message millis _ 0 c hlen

/-! ## Splitting a delivery -/

theorem frames_loop_buffer_le (read_message : Dispatcher) :
    ∀ fuel s buf, (frames_loop read_message fuel s buf).2.1.length ≤ buf.length := by
  intro fuel
  induction fuel with
  | zero => intro s buf; exact le_refl _
  | succ fuel ih =>
    intro s buf
    rw [frames_loop_succ]
    cases hv : frame_view buf with
    | malformed => exact le_refl _
    | incomplete => exact le_refl _
    | frame msg_size msg_type i =>
      simp only
      split
      · exact le_refl _
      · have := ih (read_message s msg_size msg_type ((buf.drop i).take msg_size))
          (buf.drop (i + msg_size))
        simp only [List.length_drop] at this ⊢
        omega

theorem frames_run_buffer_le (read_message : Dispatcher) (s : Session) (buf : List Nat) :
    (frames_run read_message s buf).2.1.length ≤ buf.length := by
  unfold frames_run
  split
  · exact le_refl _
  · exact frames_loop_buffer_le read_message _ s buf

theorem frames_run_removed (read_message : Dispatcher) (s : Session) (buf : List Nat)
    (h : s.remove_ = true) : frames_run read_message s buf = (s, buf, []) := by
  simp [frames_run, h]

theorem frames_run_live (read_message : Dispatcher) (s : Session) (buf : List Nat)
    (h : s.remove_ = false) :
    frames_run read_message s buf = frames_loop read_message buf.length s buf := by
  cases buf with
  | nil => simp [frames_run, frames_loop]
  | cons b rest => simp [frames_run, h]

theorem take_drop_append_of_le (buf x : List Nat) (i n : Nat) (h : i + n ≤ buf.length) :
    ((buf ++ x).drop i).take n = (buf.drop i).take n := by
  rw [List.drop_append_of_le_length (by omega)]
  rw [List.take_append_of_le_length (by simp only [List.length_drop]; omega)]

theorem frames_loop_split (read_message : Dispatcher) :
    ∀ n buf, buf.length ≤ n → ∀ s x, s.remove_ = false →
      frames_loop read_message (buf ++ x).length s (buf ++ x) =
        ((frames_run read_message (frames_loop read_message buf.length s buf).1
            ((frames_loop read_message buf.length s buf).2.1 ++ x)).1,
         (frames_run read_message (frames_loop read_message buf.length s buf).1
            ((frames_loop read_message buf.length s buf).2.1 ++ x)).2.1,
         (frames_loop read_message buf.length s buf).2.2 ++
         (frames_run read_message (frames_loop read_message buf.length s buf).1
            ((frames_loop read_message buf.length s buf).2.1 ++ x)).2.2) := by
  intro n
  induction n with
  | zero =>
    intro buf hn s x hs
    have hb : buf = [] := List.length_eq_zero.mp (by omega)
    subst hb
    simp only [List.nil_append, List.length_nil, frames_loop]
    rw [frames_run_live read_message s x hs]
  | succ n ih =>
    intro buf hn s x hs
    by_cases hb : buf = []
    · subst hb
      simp only [List.nil_append, List.length_nil, frames_loop]
      rw [frames_run_live read_message s x hs]
    · rw [frames_loop_unfold read_message s buf]
      cases hv : frame_view buf with
      | malformed =>
        simp only
        rw [frames_loop_unfold read_message s (buf ++ x), frame_view_malformed_append x hv]
        simp only
        rw [frames_run_removed read_message _ _ (by rfl)]
        simp
      | incomplete =>
        simp only
        rw [frames_run_live read_message s _ hs]
        simp
      | frame msg_size msg_type i =>
        have hbd := frame_view_bounds hv
        rw [frames_loop_unfold read_message s (buf ++ x), frame_view_append x hv]
        simp only
        rw [take_drop_append_of_le buf x i msg_size hbd.2]
        by_cases hr : (read_message s msg_size msg_type ((buf.drop i).take msg_size)).remove_
            = true
        · simp only [hr, if_true]
          rw [frames_run_removed read_message _ _ hr]
          simp
        · simp only [hr, Bool.false_eq_true, if_false]
          have hd : (buf ++ x).drop (i + msg_size) = buf.drop (i + msg_size) ++ x :=
            List.drop_append_of_le_length hbd.2
          rw [hd]
          rw [ih (buf.drop (i + msg_size)) (by simp only [List.length_drop]; omega) _ x
            (by simpa using hr)]
          simp

theorem frames_run_split (read_message : Dispatcher) (s : Session) (buf x : List Nat) :
    frames_run read_message s (buf ++ x) =
      ((frames_run read_message (frames_run read_message s buf).1
          ((frames_run read_message s buf).2.1 ++ x)).1,
       (frames_run read_message (frames_run read_message s buf).1
          ((frames_run read_message s buf).2.1 ++ x)).2.1,
       (frames_run read_message s buf).2.2 ++
       (frames_run read_message (frames_run read_message s buf).1
          ((frames_run read_message s buf).2.1 ++ x)).2.2) := by
  cases hs : s.remove_ with
  | true =>
    simp [frames_run_removed read_message s _ hs]
  | false =>
    rw [frames_run_live read_message s (buf ++ x) hs, frames_run_live read_message s buf hs]
    exact frames_loop_split read_message buf.length buf (le_refl _) s x hs

theorem on_data_some (data : List Nat) (c : APIConnection) :
    on_data_ (some data) c = { c with recv_buffer_ := c.recv_buffer_ ++ data } := by
  unfold on_data_
  by_cases h : data.length = 0
  · have hd : data = [] := List.length_eq_zero.mp h
    subst hd
    simp
  · simp [h]

theorem on_data_some_buffer (data : List Nat) (c : APIConnection) :
    (on_data_ (some data) c).recv_buffer_ = c.recv_buffer_ ++ data := by
  rw [on_data_some]

theorem on_data_some_session (data : List Nat) (c : APIConnection) :
    (on_data_ (some data) c).toSession = c.toSession := by
  rw [on_data_some]

theorem parse_recv_buffer_run (read_message : Dispatcher) (millis : Nat → Nat)
    (c : APIConnection) (hlen : c.recv_buffer_.length < 2 ^ 32) :
    ((parse_recv_buffer_ read_message millis c).1.toSession,
      (parse_recv_buffer_ read_message millis c).1.recv_buffer_,
      (parse_recv_buffer_ read_message millis c).2) =
    frames_run read_message c.toSession c.recv_buffer_ :=
  parse_recv_buffer_view read_message millis c hlen

theorem deliver_run (read_message : Dispatcher) (clock : Nat → Nat → Nat) :
    ∀ chunks j c, (c.recv_buffer_ ++ chunks.flatten).length < 2 ^ 32 → chunks ≠ [] →
      ((deliver read_message clock j chunks c).1.toSession,
        (deliver read_message clock j chunks c).1.recv_buffer_,
        (deliver read_message clock j chunks c).2) =
      frames_run read_message c.toSession (c.recv_buffer_ ++ chunks.flatten) := by
  intro chunks
  induction chunks with
  | nil => intro j c _ h; exact absurd rfl h
  | cons chunk rest ih =>
    intro j c hlen _
    simp only [List.flatten_cons, List.length_append] at hlen
    have h1 := parse_recv_buffer_run read_message (clock j) (on_data_ (some chunk) c)
      (by rw [on_data_some_buffer]; simp only [List.length_append]; omega)
    rw [on_data_some_buffer, on_data_some_session] at h1
    have hs := congrArg (fun r => r.1) h1
    have hb := congrArg (fun r => r.2.1) h1
    have hf := congrArg (fun r => r.2.2) h1
    simp only at hs hb hf
    by_cases hrest : rest = []
    · subst hrest
      simp only [deliver, List.flatten_cons, List.flatten_nil, List.append_nil]
      rw [hs, hb, hf]
    · have hle := frames_run_buffer_le read_message c.toSession (c.recv_buffer_ ++ chunk)
      rw [← hb] at hle
      simp only [List.length_append] at hle
      have h2 := ih (j + 1) (parse_recv_buffer_ read_message (clock j) (on_data_ (some chunk) c)).1
        (by simp only [List.length_append]; omega) hrest
      have hs2 := congrArg (fun r => r.1) h2
      have hb2 := congrArg (fun r => r.2.1) h2
      have hf2 := congrArg (fun r => r.2.2) h2
      simp only at hs2 hb2 hf2
      simp only [deliver, List.flatten_cons]
      rw [hs2, hb2, hf2, hf, hs, hb, ← List.append_assoc,
        frames_run_split read_message c.toSession (c.recv_buffer_ ++ chunk) rest.flatten]

/-- C2 (fragmentation invariance): delivering a byte sequence in any number of
chunks, parsing after each, dispatches the same frames and ends with the same
receive buffer, termination flag and session as delivering it at once. -/
theorem fragmentation_invariance (read_message : Dispatcher) (clock : Nat → Nat → Nat)
    (millis : Nat → Nat) (chunks : List (List Nat)) (c : APIConnection)
    (hlen : (c.recv_buffer_ ++ chunks.flatten).length < 2 ^ 32)
    (hsplit : chunks ≠ [] ∨ c.recv_buffer_ = []) :
    (deliver read_message clock 0 chunks c).2 =
      (parse_recv_buffer_ read_message millis (on_data_ (some chunks.flatten) c)).2 ∧
    (deliver read_message clock 0 chunks c).1.recv_buffer_ =
      (parse_recv_buffer_ read_message millis (on_data_ (some chunks.flatten) c)).1.recv_buffer_ ∧
    (deliver read_message clock 0 chunks c).1.remove_ =
      (parse_recv_buffer_ read_message millis (on_data_ (some chunks.flatten) c)).1.remove_ ∧
    (deliver read_message clock 0 chunks c).1.toSession =
      (parse_recv_buffer_ read_message millis (on_data_ (some chunks.flatten) c)).1.toSession := by
  have h1 := parse_recv_buffer_run read_message millis (on_data_ (some chunks.flatten) c)
    (by rw [on_data_some_buffer]; exact hlen)
  rw [on_data_some_buffer, on_data_some_session] at h1
  by_cases hc : chunks = []
  · subst hc
    have hb : c.recv_buffer_ = [] := by
      rcases hsplit with h | h
      · exact absurd rfl h
      · exact h
    have hd : on_data_ (some ([] : List (List Nat)).flatten) c = c := by
      simp [on_data_]
    rw [hd]
    simp [deliver, parse_recv_buffer_, hb]
  · have h2 := deliver_run read_message clock chunks 0 c hlen hc
    rw [← h1] at h2
    simp only [Prod.mk.injEq] at h2
    obtain ⟨hs, hb, hf⟩ := h2
    exact ⟨hf, hb, by rw [hs], hs⟩

theorem fragmentation_invariance_witness :
    (((APIConnection.fresh 0).recv_buffer_ ++
        [[0x00, 0x05], [0x01, 1, 2, 3], [], [4, 5, 0x00, 0x00, 0x07, 0x00]].flatten).length
          < 2 ^ 32 ∧
      ([[0x00, 0x05], [0x01, 1, 2, 3], [], [4, 5, 0x00, 0x00, 0x07, 0x00]] ≠ [] ∨
        (APIConnection.fresh 0).recv_buffer_ = [])) ∧
    (deliver ignore_message (fun j _ => j) 0
        [[0x00, 0x05], [0x01, 1, 2, 3], [], [4, 5, 0x00, 0x00, 0x07, 0x00]]
        (APIConnection.fresh 0)).2 =
      (parse_recv_buffer_ ignore_message (fun _ => 9)
        (on_data_ (some [[0x00, 0x05], [0x01, 1, 2, 3], [], [4, 5, 0x00, 0x00, 0x07, 0x00]].flatten)
          (APIConnection.fresh 0))).2 :=
  ⟨⟨by decide, Or.inl (by decide)⟩,
    (fragmentation_invariance ignore_message (fun j _ => j) (fun _ => 9)
      [[0x00, 0x05], [0x01, 1, 2, 3], [], [4, 5, 0x00, 0x00, 0x07, 0x00]]
      (APIConnection.fresh 0) (by decide) (Or.inl (by decide))).1⟩

/-! ## `parse_recv_buffer_` by what is at the front of the buffer -/

theorem parse_loop_succ (read_message : Dispatcher) (millis : Nat → Nat) (fuel k : Nat)
    (c : APIConnection) :
    parse_loop read_message millis (fuel + 1) k c =
      if c.recv_buffer_.isEmpty then (c, [])
      else
        match parse_iteration read_message (millis k) c with
        | .returned c1 dispatched => (c1, dispatched.toList)
        | .again c1 dispatched =>
          ((parse_loop read_message millis fuel (k + 1) c1).1,
            dispatched :: (parse_loop read_message millis fuel (k + 1) c1).2) := by
  rw [parse_loop]

theorem parse_loop_nil (read_message : Dispatcher) (millis : Nat → Nat) (fuel k : Nat)
    (c : APIConnection) (h : c.recv_buffer_ = []) :
    parse_loop read_message millis fuel k c = (c, []) := by
  cases fuel with
  | zero => rfl
  | succ fuel => rw [parse_loop_succ]; simp [h]

/-- The fuel never runs out: any fuel that is at least the buffer length gives
the same run of the loop. -/
theorem parse_loop_fuel (read_message : Dispatcher) (millis : Nat → Nat) :
    ∀ fuel m k c, c.recv_buffer_.length < 2 ^ 32 → c.recv_buffer_.length ≤ fuel →
      c.recv_buffer_.length ≤ m →
      parse_loop read_message millis fuel k c = parse_loop read_message millis m k c := by
  intro fuel
  induction fuel with
  | zero =>
    intro m k c _ hf _
    have hb : c.recv_buffer_ = [] := List.length_eq_zero.mp (by omega)
    rw [parse_loop_nil _ _ _ _ _ hb, parse_loop_nil _ _ _ _ _ hb]
  | succ fuel ih =>
    intro m k c hlen hf hm
    by_cases hb : c.recv_buffer_ = []
    · rw [parse_loop_nil _ _ _ _ _ hb, parse_loop_nil _ _ _ _ _ hb]
    · cases m with
      | zero => exact absurd (List.length_eq_zero.mp (by omega)) hb
      | succ m =>
        rw [parse_loop_succ, parse_loop_succ, parse_iteration_eq read_message _ c hlen hb]
        cases hv : frame_view c.recv_buffer_ with
        | malformed => rfl
        | incomplete => rfl
        | frame msg_size msg_type i =>
          have hbd := frame_view_bounds hv
          simp only
          by_cases hr : (read_message c.toSession msg_size msg_type
              ((c.recv_buffer_.drop i).take msg_size)).remove_ = true
          · simp only [hr, if_true]
          · simp only [hr, Bool.false_eq_true, if_false]
            have hd : (c.recv_buffer_.drop (i + msg_size)).length ≤ c.recv_buffer_.length - 3 := by
              simp only [List.length_drop]; omega
            rw [ih m (k + 1)
              { c with
                toSession := read_message c.toSession msg_size msg_type
                  ((c.recv_buffer_.drop i).take msg_size),
                recv_buffer_ := c.recv_buffer_.drop (i + msg_size),
                last_traffic_ := millis k }
              (show (c.recv_buffer_.drop (i + msg_size)).length < 2 ^ 32 by omega)
              (show (c.recv_buffer_.drop (i + msg_size)).length ≤ fuel by omega)
              (show (c.recv_buffer_.drop (i + msg_size)).length ≤ m by omega)]

theorem parse_loop_shift (read_message : Dispatcher) (millis : Nat → Nat) :
    ∀ fuel k c, parse_loop read_message millis fuel (k + 1) c =
      parse_loop read_message (fun j => millis (j + 1)) fuel k c := by
  intro fuel
  induction fuel with
  | zero => intro k c; rfl
  | succ fuel ih =>
    intro k c
    rw [parse_loop_succ, parse_loop_succ]
    split
    · rfl
    · cases parse_iteration read_message (millis (k + 1)) c with
      | returned c1 d => rfl
      | again c1 d => simp only; rw [ih (k + 1) c1]

theorem parse_recv_buffer_incomplete (read_message : Dispatcher) (millis : Nat → Nat)
    (c : APIConnection) (hlen : c.recv_buffer_.length < 2 ^ 32)
    (hv : frame_view c.recv_buffer_ = .incomplete) :
    parse_recv_buffer_ read_message millis c = (c, []) := by
  unfold parse_recv_buffer_
  split
  · rfl
  · by_cases hb : c.recv_buffer_ = []
    · exact parse_loop_nil _ _ _ _ _ hb
    · obtain ⟨n, hn⟩ : ∃ n, c.recv_buffer_.length = n + 1 :=
        Nat.exists_eq_succ_of_ne_zero (fun h => hb (List.length_eq_zero.mp h))
      rw [hn, parse_loop_succ, parse_iteration_eq read_message _ c hlen hb, hv]
      simp

theorem parse_recv_buffer_frame (read_message : Dispatcher) (millis : Nat → Nat)
    (c : APIConnection) (hlen : c.recv_buffer_.length < 2 ^ 32) (hlive : c.remove_ = false)
    {msg_size msg_type i : Nat} (hv : frame_view c.recv_buffer_ = .frame msg_size msg_type i) :
    parse_recv_buffer_ read_message millis c =
      if (read_message c.toSession msg_size msg_type
          ((c.recv_buffer_.drop i).take msg_size)).remove_ then
        (c.withSession (read_message c.toSession msg_size msg_type
            ((c.recv_buffer_.drop i).take msg_size)),
          [⟨msg_type, (c.recv_buffer_.drop i).take msg_size⟩])
      else
        ((parse_recv_buffer_ read_message (fun j => millis (j + 1))
            { c with
              toSession := read_message c.toSession msg_size msg_type
                ((c.recv_buffer_.drop i).take msg_size),
              recv_buffer_ := c.recv_buffer_.drop (i + msg_size),
              last_traffic_ := millis 0 }).1,
          ⟨msg_type, (c.recv_buffer_.drop i).take msg_size⟩ ::
          (parse_recv_buffer_ read_message (fun j => millis (j + 1))
            { c with
              toSession := read_message c.toSession msg_size msg_type
                ((c.recv_buffer_.drop i).take msg_size),
              recv_buffer_ := c.recv_buffer_.drop (i + msg_size),
              last_traffic_ := millis 0 }).2) := by
  have hbd := frame_view_bounds hv
  have hb : c.recv_buffer_ ≠ [] := by
    intro h; rw [h] at hv; cases hv
  obtain ⟨n, hn⟩ : ∃ n, c.recv_buffer_.length = n + 1 :=
    Nat.exists_eq_succ_of_ne_zero (fun h => hb (List.length_eq_zero.mp h))
  have hne : c.recv_buffer_.isEmpty = false := by
    cases hc : c.recv_buffer_ with
    | nil => exact absurd hc hb
    | cons _ _ => rfl
  conv_lhs => unfold parse_recv_buffer_
  simp only [hne, hlive, Bool.or_self, Bool.false_eq_true, if_false]
  rw [hn, parse_loop_succ, parse_iteration_eq read_message _ c hlen hb, hv]
  simp only [hne, Bool.false_eq_true, if_false]
  by_cases hr : (read_message c.toSession msg_size msg_type
      ((c.recv_buffer_.drop i).take msg_size)).remove_ = true
  · simp only [hr, if_true]; rfl
  · simp only [hr, Bool.false_eq_true, if_false]
    have hr' : (read_message c.toSession msg_size msg_type
      ((c.recv_buffer_.drop i).take msg_size)).remove_ = false := by simpa using hr
    rw [parse_loop_shift]
    unfold parse_recv_buffer_
    simp only [hr', Bool.or_false]
    split
    · rename_i he
      rw [parse_loop_nil _ _ _ _ _ (by simpa using he)]
    · rw [parse_loop_fuel read_message _ n (c.recv_buffer_.drop (i + msg_size)).length 0 _
        (by simp only [List.length_drop]; omega) (by simp only [List.length_drop]; omega)
        (le_refl _)]

/-! ## Claims about the receive path -/

/-- C3 (malformed preamble is fatal): on a connection that is not terminated,
a buffer whose first byte is not 0x00 makes `parse_recv_buffer_` set `remove_`
and dispatch no frame, whatever the other bytes are; nothing but the fatal
error happens to the connection. -/
theorem malformed_preamble_is_fatal (read_message : Dispatcher) (millis : Nat → Nat)
    (c : APIConnection) (b0 : Nat) (rest : List Nat)
    (hbuf : c.recv_buffer_ = b0 :: rest) (hb0 : b0 ≠ 0x00) (hlive : c.remove_ = false) :
    (parse_recv_buffer_ read_message millis c).1.remove_ = true ∧
    (parse_recv_buffer_ read_message millis c).2 = [] ∧
    parse_recv_buffer_ read_message millis c =
      (c.withSession c.toSession.on_fatal_error, []) := by
  have h : parse_recv_buffer_ read_message millis c =
      (c.withSession c.toSession.on_fatal_error, []) := by
    unfold parse_recv_buffer_
    simp only [hbuf, hlive, List.isEmpty_cons, Bool.or_self, Bool.false_eq_true, if_false,
      List.length_cons]
    rw [parse_loop_succ]
    simp only [hbuf, List.isEmpty_cons, Bool.false_eq_true, if_false]
    unfold parse_iteration
    simp [hbuf, hb0]
  rw [h]
  exact ⟨rfl, rfl, rfl⟩

/-- Witness of C3: the buffer `01 00 00` on a fresh connection. -/
theorem malformed_preamble_is_fatal_witness :
    ({ APIConnection.fresh 0 with recv_buffer_ := [0x01, 0x00, 0x00] } : APIConnection).recv_buffer_
        = 0x01 :: [0x00, 0x00] ∧
      (0x01 : Nat) ≠ 0x00 ∧
      ({ APIConnection.fresh 0 with recv_buffer_ := [0x01, 0x00, 0x00] } : APIConnection).remove_
        = false ∧
      (parse_recv_buffer_ ignore_message (fun _ => 5)
        { APIConnection.fresh 0 with recv_buffer_ := [0x01, 0x00, 0x00] }).1.remove_ = true :=
  ⟨rfl, by decide, rfl,
    (malformed_preamble_is_fatal ignore_message (fun _ => 5)
      { APIConnection.fresh 0 with recv_buffer_ := [0x01, 0x00, 0x00] } 0x01 [0x00, 0x00]
      rfl (by decide) rfl).1⟩

theorem frame_view_unterminated_size (u : List Nat) (hu : ∀ b ∈ u, b &&& 0x80 ≠ 0) :
    frame_view (0x00 :: u) = .incomplete := by
  have h := scan_varint_continuation u hu 0
  simp [frame_view, h.1]

theorem frame_view_unterminated_type (l u : List Nat) (hl : is_varint l = true)
    (hu : ∀ b ∈ u, b &&& 0x80 ≠ 0) :
    frame_view (0x00 :: (l ++ u)) = .incomplete := by
  have h1 := scan_varint_is_varint l 0 hl
  have h2 := scan_varint_continuation u hu 0
  have e1 : scan_varint 0 (l ++ u) = scan_varint 0 l := scan_varint_append l u 0 h1.2
  simp only [frame_view, e1, h1.1, List.drop_left, h2.2, List.length_append]
  simp

theorem frame_view_short_payload (l t p : List Nat) (hl : is_varint l = true)
    (ht : is_varint t = true) (hp : p.length < varint_value l) :
    frame_view (0x00 :: (l ++ t ++ p)) = .incomplete := by
  have h1 := scan_varint_is_varint l 0 hl
  have h2 := scan_varint_is_varint t 0 ht
  have e1 : scan_varint 0 (l ++ t ++ p) = scan_varint 0 l := by
    rw [List.append_assoc]; exact scan_varint_append l _ 0 h1.2
  have e2 : scan_varint 0 (t ++ p) = scan_varint 0 t := scan_varint_append t _ 0 h2.2
  have hd : List.drop l.length (l ++ t ++ p) = t ++ p := by
    rw [List.append_assoc, List.drop_left]
  have c3 : l.length + t.length + p.length - l.length - t.length < (scan_varint 0 l).1 := by
    simp only [varint_value] at hp; omega
  simp only [frame_view, e1, h1.1, hd, e2, h2.1, h2.2, List.length_append]
  simp [c3]

/-- Incomplete data, measured by the length the parser has decoded (for a
one-byte length varint that is the declared length): when the buffer starts
with 0x00 and ends before the length varint terminates, or before the type
varint terminates, or with fewer payload bytes than the length the parser has
decoded, `parse_recv_buffer_` dispatches nothing and leaves the whole
connection as it was: receive buffer, last-traffic timestamp and termination
flag included. -/
theorem incomplete_data_decoded_length (read_message : Dispatcher) (millis : Nat → Nat)
    (c : APIConnection) (hlen : c.recv_buffer_.length < 2 ^ 32)
    (hshort :
      (∃ u, (∀ b ∈ u, b &&& 0x80 ≠ 0) ∧ c.recv_buffer_ = 0x00 :: u) ∨
      (∃ l u, is_varint l = true ∧ (∀ b ∈ u, b &&& 0x80 ≠ 0) ∧
        c.recv_buffer_ = 0x00 :: (l ++ u)) ∨
      (∃ l t p, is_varint l = true ∧ is_varint t = true ∧ p.length < varint_value l ∧
        c.recv_buffer_ = 0x00 :: (l ++ t ++ p))) :
    parse_recv_buffer_ read_message millis c = (c, []) := by
  apply parse_recv_buffer_incomplete read_message millis c hlen
  rcases hshort with ⟨u, hu, hb⟩ | ⟨l, u, hl, hu, hb⟩ | ⟨l, t, p, hl, ht, hp, hb⟩
  · rw [hb]; exact frame_view_unterminated_size u hu
  · rw [hb]; exact frame_view_unterminated_type l u hl hu
  · rw [hb]; exact frame_view_short_payload l t p hl ht hp

/-- Example: `00 05 01 09 09` declares five payload bytes and holds two. -/
theorem incomplete_data_decoded_length_example :
    ({ APIConnection.fresh 0 with recv_buffer_ := [0x00, 0x05, 0x01, 9, 9] } :
        APIConnection).recv_buffer_.length < 2 ^ 32 ∧
      (is_varint [0x05] = true ∧ is_varint [0x01] = true ∧
        [9, 9].length < varint_value [0x05]) ∧
      parse_recv_buffer_ ignore_message (fun _ => 5)
          { APIConnection.fresh 0 with recv_buffer_ := [0x00, 0x05, 0x01, 9, 9] } =
        ({ APIConnection.fresh 0 with recv_buffer_ := [0x00, 0x05, 0x01, 9, 9] }, []) :=
  ⟨by decide, ⟨by decide, by decide, by decide⟩,
    incomplete_data_decoded_length ignore_message (fun _ => 5)
      { APIConnection.fresh 0 with recv_buffer_ := [0x00, 0x05, 0x01, 9, 9] } (by decide)
      (Or.inr (Or.inr ⟨[0x05], [0x01], [9, 9], by decide, by decide, by decide, rfl⟩))⟩

theorem frame_bytes_payload (l t p rest : List Nat) :
    ((0x00 :: (l ++ t ++ (p ++ rest))).drop (1 + l.length + t.length)).take p.length = p := by
  have h : (0x00 :: (l ++ t ++ (p ++ rest))).drop (1 + l.length + t.length) = p ++ rest := by
    rw [show 1 + l.length + t.length = (l ++ t).length + 1 by
      simp only [List.length_append]; omega]
    rw [List.drop_succ_cons, List.drop_left]
  rw [h, List.take_left]

theorem frame_bytes_rest (l t p rest : List Nat) :
    (0x00 :: (l ++ t ++ (p ++ rest))).drop (1 + l.length + t.length + p.length) = rest := by
  rw [show 1 + l.length + t.length + p.length = (l ++ t ++ p).length + 1 by
    simp only [List.length_append]; omega]
  rw [List.drop_succ_cons, ← List.append_assoc, List.drop_left]

theorem parse_recv_buffer_complete_frame (read_message : Dispatcher) (millis : Nat → Nat)
    (c : APIConnection) (l t p rest : List Nat)
    (hlen : c.recv_buffer_.length < 2 ^ 32) (hlive : c.remove_ = false)
    (hl : is_varint l = true) (ht : is_varint t = true) (hp : p.length = varint_value l)
    (hbuf : c.recv_buffer_ = 0x00 :: (l ++ t ++ p ++ rest)) :
    ((read_message c.toSession (varint_value l) (varint_value t) p).remove_ = false →
      parse_recv_buffer_ read_message millis c =
        ((parse_recv_buffer_ read_message (fun j => millis (j + 1))
            { c with
              toSession := read_message c.toSession (varint_value l) (varint_value t) p,
              recv_buffer_ := rest,
              last_traffic_ := millis 0 }).1,
          ⟨varint_value t, p⟩ ::
          (parse_recv_buffer_ read_message (fun j => millis (j + 1))
            { c with
              toSession := read_message c.toSession (varint_value l) (varint_value t) p,
              recv_buffer_ := rest,
              last_traffic_ := millis 0 }).2) ∧
      rest = c.recv_buffer_.drop (1 + l.length + t.length + p.length)) ∧
    ((read_message c.toSession (varint_value l) (varint_value t) p).remove_ = true →
      parse_recv_buffer_ read_message millis c =
        (c.withSession (read_message c.toSession (varint_value l) (varint_value t) p),
          [⟨varint_value t, p⟩])) := by
  have hbuf' : c.recv_buffer_ = 0x00 :: (l ++ t ++ (p ++ rest)) := by
    rw [hbuf, List.append_assoc (l ++ t) p rest]
  have hv : frame_view c.recv_buffer_ =
      .frame (varint_value l) (varint_value t) (1 + l.length + t.length) := by
    rw [hbuf']
    exact frame_view_frame l t (p ++ rest) hl ht (by simp only [List.length_append]; omega)
  have hmsg : (c.recv_buffer_.drop (1 + l.length + t.length)).take (varint_value l) = p := by
    rw [hbuf', ← hp]; exact frame_bytes_payload l t p rest
  have hrest : c.recv_buffer_.drop (1 + l.length + t.length + varint_value l) = rest := by
    rw [hbuf', ← hp]; exact frame_bytes_rest l t p rest
  have h := parse_recv_buffer_frame read_message millis c hlen hlive hv
  rw [hmsg, hrest] at h
  refine ⟨fun hr => ⟨?_, ?_⟩, fun hr => ?_⟩
  · rw [h]; simp [hr]
  · rw [hp]; exact hrest.symm
  · rw [h]; simp [hr]

/-- Exact consumption, measured by the length the parser has decoded (for a
one-byte length varint that is the declared length): with a complete frame at
the front of the buffer (preamble, length varint `l`, type varint `t`, payload
`p` of the decoded length, then any bytes `rest`), `parse_recv_buffer_`
dispatches that frame.
If the dispatch does not terminate the session, parsing goes on from a buffer
that is exactly `rest`, which is the old buffer without its first
`1 + |l| + |t| + |p|` bytes; if the dispatch terminates the session, only the
session changes (the buffer is untouched) and no further frame is
dispatched. -/
theorem exact_consumption_decoded_length (read_message : Dispatcher) (millis : Nat → Nat)
    (c : APIConnection) (l t p rest : List Nat)
    (hlen : c.recv_buffer_.length < 2 ^ 32) (hlive : c.remove_ = false)
    (hl : is_varint l = true) (ht : is_varint t = true) (hp : p.length = varint_value l)
    (hbuf : c.recv_buffer_ = 0x00 :: (l ++ t ++ p ++ rest)) :
    ((read_message c.toSession (varint_value l) (varint_value t) p).remove_ = false →
      parse_recv_buffer_ read_message millis c =
        ((parse_recv_buffer_ read_message (fun j => millis (j + 1))
            { c with
              toSession := read_message c.toSession (varint_value l) (varint_value t) p,
              recv_buffer_ := rest,
              last_traffic_ := millis 0 }).1,
          ⟨varint_value t, p⟩ ::
          (parse_recv_buffer_ read_message (fun j => millis (j + 1))
            { c with
              toSession := read_message c.toSession (varint_value l) (varint_value t) p,
              recv_buffer_ := rest,
              last_traffic_ := millis 0 }).2) ∧
      rest = c.recv_buffer_.drop (1 + l.length + t.length + p.length)) ∧
    ((read_message c.toSession (varint_value l) (varint_value t) p).remove_ = true →
      parse_recv_buffer_ read_message millis c =
        (c.withSession (read_message c.toSession (varint_value l) (varint_value t) p),
          [⟨varint_value t, p⟩])) :=
  parse_recv_buffer_complete_frame read_message millis c l t p rest hlen hlive hl ht hp hbuf

/-- Example: the frame `00 02 07 aa bb` followed by `00 01`, with a
handler that leaves the session alone; parsing goes on from `00 01`, the
buffer without its first five bytes. -/
theorem exact_consumption_decoded_length_example :
    (({ APIConnection.fresh 0 with
          recv_buffer_ := [0x00, 0x02, 0x07, 0xaa, 0xbb, 0x00, 0x01] } :
        APIConnection).recv_buffer_.length < 2 ^ 32 ∧
      ({ APIConnection.fresh 0 with
          recv_buffer_ := [0x00, 0x02, 0x07, 0xaa, 0xbb, 0x00, 0x01] } :
        APIConnection).remove_ = false ∧
      is_varint [0x02] = true ∧ is_varint [0x07] = true ∧
      [0xaa, 0xbb].length = varint_value [0x02] ∧
      ({ APIConnection.fresh 0 with
          recv_buffer_ := [0x00, 0x02, 0x07, 0xaa, 0xbb, 0x00, 0x01] } :
        APIConnection).recv_buffer_ =
          0x00 :: ([0x02] ++ [0x07] ++ [0xaa, 0xbb] ++ [0x00, 0x01])) ∧
    (parse_recv_buffer_ ignore_message (fun _ => 5)
        { APIConnection.fresh 0 with
          recv_buffer_ := [0x00, 0x02, 0x07, 0xaa, 0xbb, 0x00, 0x01] } =
      ((parse_recv_buffer_ ignore_message (fun j => (fun _ => 5) (j + 1))
          { ({ APIConnection.fresh 0 with
                recv_buffer_ := [0x00, 0x02, 0x07, 0xaa, 0xbb, 0x00, 0x01] } :
              APIConnection) with
            toSession := ignore_message (APIConnection.fresh 0).toSession
              (varint_value [0x02]) (varint_value [0x07]) [0xaa, 0xbb],
            recv_buffer_ := [0x00, 0x01],
            last_traffic_ := (fun _ => 5) 0 }).1,
        ⟨varint_value [0x07], [0xaa, 0xbb]⟩ ::
        (parse_recv_buffer_ ignore_message (fun j => (fun _ => 5) (j + 1))
          { ({ APIConnection.fresh 0 with
                recv_buffer_ := [0x00, 0x02, 0x07, 0xaa, 0xbb, 0x00, 0x01] } :
              APIConnection) with
            toSession := ignore_message (APIConnection.fresh 0).toSession
              (varint_value [0x02]) (varint_value [0x07]) [0xaa, 0xbb],
            recv_buffer_ := [0x00, 0x01],
            last_traffic_ := (fun _ => 5) 0 }).2) ∧
      [0x00, 0x01] =
        ({ APIConnection.fresh 0 with
            recv_buffer_ := [0x00, 0x02, 0x07, 0xaa, 0xbb, 0x00, 0x01] } :
          APIConnection).recv_buffer_.drop (1 + [0x02].length + [0x07].length +
            [0xaa, 0xbb].length)) :=
  ⟨⟨by decide, rfl, by decide, by decide, by decide, rfl⟩,
    (exact_consumption_decoded_length ignore_message (fun _ => 5)
      { APIConnection.fresh 0 with
        recv_buffer_ := [0x00, 0x02, 0x07, 0xaa, 0xbb, 0x00, 0x01] }
      [0x02] [0x07] [0xaa, 0xbb] [0x00, 0x01] (by decide) rfl (by decide) (by decide)
      (by decide) rfl).1 rfl⟩

theorem parse_recv_buffer_empty (read_message : Dispatcher) (millis : Nat → Nat)
    (c : APIConnection) (h : c.recv_buffer_ = []) :
    parse_recv_buffer_ read_message millis c = (c, []) := by
  simp [parse_recv_buffer_, h]

theorem and_0x80_of_lt : ∀ n, n < 128 → n &&& 0x80 = 0 := by decide

theorem and_0x7F_of_lt : ∀ n, n < 128 → 0 ||| (n &&& 0x7F) = n := by decide

theorem varint_bytes_one_byte (n : Nat) (h : n < 128) : varint_bytes n n = [n] := by
  cases n with
  | zero => rfl
  | succ n =>
    unfold varint_bytes
    rw [if_pos (by omega)]

theorem is_varint_one_byte (n : Nat) (h : n < 128) : is_varint [n] = true := by
  simp [is_varint, and_0x80_of_lt n h]

theorem varint_value_one_byte (n : Nat) (h : n < 128) : varint_value [n] = n := by
  simp only [varint_value, scan_varint, and_0x80_of_lt n h, if_true]
  exact and_0x7F_of_lt n h

theorem encode_frame_one_byte (type : Nat) (payload : List Nat) (ht : type < 128)
    (hp : payload.length < 128) :
    encode_frame type payload = 0x00 :: ([payload.length] ++ [type] ++ payload ++ []) := by
  simp [encode_frame, ProtoVarInt.encode, varint_bytes_one_byte _ ht,
    varint_bytes_one_byte _ hp]

/-- Decoding an encoded frame whose two header varints are one byte long. -/
theorem parse_encoded_frame (read_message : Dispatcher) (millis : Nat → Nat)
    (c : APIConnection) (type : Nat) (payload : List Nat)
    (hbuf : c.recv_buffer_ = encode_frame type payload) (hlive : c.remove_ = false)
    (ht : type < 128) (hp : payload.length < 128) :
    (parse_recv_buffer_ read_message millis c).2 = [⟨type, payload⟩] ∧
    ((read_message c.toSession payload.length type payload).remove_ = false →
      (parse_recv_buffer_ read_message millis c).1.recv_buffer_ = []) ∧
    ((read_message c.toSession payload.length type payload).remove_ = true →
      (parse_recv_buffer_ read_message millis c).1.recv_buffer_ = encode_frame type payload) := by
  have henc := encode_frame_one_byte type payload ht hp
  have hlen : c.recv_buffer_.length < 2 ^ 32 := by
    rw [hbuf, henc]
    simp only [List.length_cons, List.length_append, List.length_nil]
    omega
  have h := parse_recv_buffer_complete_frame read_message millis c [payload.length] [type]
    payload [] hlen hlive (is_varint_one_byte _ hp) (is_varint_one_byte _ ht)
    (varint_value_one_byte _ hp).symm (by rw [hbuf, henc])
  rw [varint_value_one_byte _ hp, varint_value_one_byte _ ht] at h
  cases hr : (read_message c.toSession payload.length type payload).remove_ with
  | false =>
    rw [(h.1 hr).1, parse_recv_buffer_empty _ _ _ rfl]
    exact ⟨rfl, fun _ => rfl, fun hc => (by cases hc)⟩
  | true =>
    rw [h.2 hr]
    exact ⟨rfl, fun hc => (by cases hc), fun _ => hbuf⟩

/-- C1 as amended (round trip): for every message type below 128 and every
payload shorter than 128 bytes (both header varints are one byte), a live
connection whose buffer holds exactly `encode_frame type payload` dispatches
exactly one frame, with that type and payload; all bytes are consumed if the
dispatch does not terminate the session, and all stay in the buffer if it
does. -/
theorem round_trip_one_byte_varints (read_message : Dispatcher) (millis : Nat → Nat)
    (c : APIConnection) (type : Nat) (payload : List Nat)
    (hbuf : c.recv_buffer_ = encode_frame type payload) (hlive : c.remove_ = false)
    (ht : type < 128) (hp : payload.length < 128) :
    (parse_recv_buffer_ read_message millis c).2 = [⟨type, payload⟩] ∧
    ((read_message c.toSession payload.length type payload).remove_ = false →
      (parse_recv_buffer_ read_message millis c).1.recv_buffer_ = []) ∧
    ((read_message c.toSession payload.length type payload).remove_ = true →
      (parse_recv_buffer_ read_message millis c).1.recv_buffer_ = encode_frame type payload) :=
  parse_encoded_frame read_message millis c type payload hbuf hlive ht hp

/-- Witness of C1 as amended: type 7 with the payload `aa bb cc`. -/
theorem round_trip_one_byte_varints_witness :
    (({ APIConnection.fresh 0 with recv_buffer_ := encode_frame 7 [0xaa, 0xbb, 0xcc] } :
        APIConnection).recv_buffer_ = encode_frame 7 [0xaa, 0xbb, 0xcc] ∧
      ({ APIConnection.fresh 0 with recv_buffer_ := encode_frame 7 [0xaa, 0xbb, 0xcc] } :
        APIConnection).remove_ = false ∧
      7 < 128 ∧ [0xaa, 0xbb, 0xcc].length < 128) ∧
    (parse_recv_buffer_ ignore_message (fun _ => 3)
      { APIConnection.fresh 0 with recv_buffer_ := encode_frame 7 [0xaa, 0xbb, 0xcc] }).2 =
      [⟨7, [0xaa, 0xbb, 0xcc]⟩] :=
  ⟨⟨rfl, rfl, by decide, by decide⟩,
    (round_trip_one_byte_varints ignore_message (fun _ => 3)
      { APIConnection.fresh 0 with recv_buffer_ := encode_frame 7 [0xaa, 0xbb, 0xcc] }
      7 [0xaa, 0xbb, 0xcc] rfl rfl (by decide) (by decide)).1⟩

/-- C1 as stated fails in two ways.  A frame of type 1 with 128 payload bytes
is encoded with the length varint `80 01`; the parser reads the length as 1,
dispatches type 1 with one payload byte, and then ends the session on the next
payload byte.  And a frame whose handler ends the session (here type 1 with an
empty payload) is dispatched but stays in the buffer. -/
theorem round_trip_counterexample :
    (parse_recv_buffer_ ignore_message (fun _ => 3)
      { APIConnection.fresh 0 with
        recv_buffer_ := encode_frame 1 (List.replicate 128 0x41) }).2 = [⟨1, [0x41]⟩] ∧
    (parse_recv_buffer_ ignore_message (fun _ => 3)
      { APIConnection.fresh 0 with
        recv_buffer_ := encode_frame 1 (List.replicate 128 0x41) }).1.remove_ = true ∧
    (parse_recv_buffer_ ignore_message (fun _ => 3)
      { APIConnection.fresh 0 with
        recv_buffer_ := encode_frame 1 (List.replicate 128 0x41) }).1.recv_buffer_
      = List.replicate 127 0x41 ∧
    (parse_recv_buffer_ reject_message (fun _ => 3)
      { APIConnection.fresh 0 with recv_buffer_ := encode_frame 1 [] }).2 = [⟨1, []⟩] ∧
    (parse_recv_buffer_ reject_message (fun _ => 3)
      { APIConnection.fresh 0 with recv_buffer_ := encode_frame 1 [] }).1.recv_buffer_
      = [0x00, 0x00, 0x01] := by
  refine ⟨?_, ?_, ?_, ?_, ?_⟩ <;> decide

/-- C4 fails on the code: from the varint `80 01`, whose value is 128, both
inner loops of `parse_recv_buffer_` compute 1 (they shift the accumulator,
so the first group ends up most significant); the buffer
`00 80 01 80 01 aa` is dispatched as type 1 with the one payload byte `aa`. -/
theorem varint_decoding_is_most_significant_group_first :
    lsb_first_value [0x80, 0x01] = 128 ∧
    read_msg_size [0x00, 0x80, 0x01, 0x80, 0x01, 0xaa] 6 6 1 0 = (1, 3) ∧
    read_msg_type [0x00, 0x80, 0x01, 0x80, 0x01, 0xaa] 6 6 3 0 = (1, true, 5) ∧
    (parse_recv_buffer_ ignore_message (fun _ => 3)
      { APIConnection.fresh 0 with
        recv_buffer_ := [0x00, 0x80, 0x01, 0x80, 0x01, 0xaa] }).2 = [⟨1, [0xaa]⟩] := by
  decide

/-! ## Send path -/

theorem band_0x7F_add_0x80 : ∀ n, n < 128 → (n + 128) &&& 0x7F = n := by decide

theorem band_0x7F_of_lt : ∀ n, n < 128 → n &&& 0x7F = n := by decide

theorem band_0x80_add_0x80 : ∀ n, n < 128 → (n + 128) &&& 0x80 ≠ 0 := by decide

/-- The modelled encoder writes what the spec calls a varint: the
least-significant-group-first value of its bytes is the encoded number. -/
theorem varint_bytes_value : ∀ fuel value, value ≤ fuel →
    lsb_first_value (varint_bytes fuel value) = value := by
  intro fuel
  induction fuel with
  | zero =>
    intro value h
    have : value = 0 := by omega
    subst this
    rfl
  | succ fuel ih =>
    intro value h
    unfold varint_bytes
    by_cases hv : value ≤ 0x7F
    · rw [if_pos hv]
      simp only [lsb_first_value]
      rw [band_0x7F_of_lt value (by omega)]
      omega
    · rw [if_neg hv]
      simp only [lsb_first_value]
      rw [band_0x7F_add_0x80 _ (Nat.mod_lt _ (by decide)), ih (value / 128) (by omega)]
      omega

/-- The modelled encoder writes a terminated varint. -/
theorem varint_bytes_is_varint : ∀ fuel value, value ≤ fuel →
    is_varint (varint_bytes fuel value) = true := by
  intro fuel
  induction fuel with
  | zero =>
    intro value h
    have : value = 0 := by omega
    subst this
    rfl
  | succ fuel ih =>
    intro value h
    unfold varint_bytes
    by_cases hv : value ≤ 0x7F
    · rw [if_pos hv]
      exact is_varint_one_byte value (by omega)
    · rw [if_neg hv]
      have hrec := ih (value / 128) (by omega)
      cases hrest : varint_bytes fuel (value / 128) with
      | nil => rw [hrest] at hrec; cases hrec
      | cons d r =>
        rw [hrest] at hrec
        simp only [is_varint, Bool.and_eq_true, bne_iff_ne, ne_eq]
        exact ⟨band_0x80_add_0x80 _ (Nat.mod_lt _ (by decide)), hrec⟩

theorem send_buffer_cases (sock : SocketReadings) (buffer : List Nat) (message_type : Nat)
    (s : Session) :
    (send_buffer sock buffer message_type s = (s, false) ∧
      (s.remove_ = true ∨
        (buffer.length + ([0x00] ++ varint_bytes buffer.length buffer.length ++
            varint_bytes message_type message_type).length > sock.space_first ∧
         buffer.length + ([0x00] ++ varint_bytes buffer.length buffer.length ++
            varint_bytes message_type message_type).length > sock.space_second))) ∨
    (send_buffer sock buffer message_type s =
        ({ s with client_ :=
            { closed_ := s.client_.closed_,
              added_ := s.client_.added_ ++
                ([0x00] ++ varint_bytes buffer.length buffer.length ++
                  varint_bytes message_type message_type ++ buffer),
              sends_ := s.client_.sends_ + 1 } },
          sock.send_result) ∧
      s.remove_ = false ∧
      ¬ (buffer.length + ([0x00] ++ varint_bytes buffer.length buffer.length ++
            varint_bytes message_type message_type).length > sock.space_first ∧
         buffer.length + ([0x00] ++ varint_bytes buffer.length buffer.length ++
            varint_bytes message_type message_type).length > sock.space_second)) := by
  unfold send_buffer
  by_cases hr : s.remove_ = true
  · left
    rw [if_pos hr]
    exact ⟨rfl, Or.inl hr⟩
  · have hr' : s.remove_ = false := by simpa using hr
    rw [if_neg hr]
    simp only [ProtoVarInt.encode, AsyncClient.add, AsyncClient.send]
    by_cases h1 : buffer.length + ([0x00] ++ varint_bytes buffer.length buffer.length ++
        varint_bytes message_type message_type).length > sock.space_first
    · by_cases h2 : buffer.length + ([0x00] ++ varint_bytes buffer.length buffer.length ++
          varint_bytes message_type message_type).length > sock.space_second
      · left
        rw [if_pos h1, if_pos h2]
        exact ⟨rfl, Or.inr ⟨h1, h2⟩⟩
      · right
        rw [if_pos h1, if_neg h2]
        refine ⟨?_, hr', fun h => h2 h.2⟩
        simp [List.append_assoc]
    · right
      rw [if_neg h1]
      refine ⟨?_, hr', fun h => h1 h.1⟩
      simp [List.append_assoc]

/-- C8 (send is all-or-nothing): `send_buffer` either leaves the session and
its socket untouched and returns false, which happens exactly when the
connection is already terminated or header size + payload size exceeds the
socket capacity at the first check and again at the re-check; or it hands the
socket exactly `0x00 ++ varint(payload length) ++ varint(message type) ++
payload`, in that order behind what the socket already holds, calls `send()`
once and returns its result.  Nothing else is ever handed over. -/
theorem send_is_all_or_nothing (sock : SocketReadings) (buffer : List Nat)
    (message_type : Nat) (s : Session) :
    (send_buffer sock buffer message_type s = (s, false) ∧
      (s.remove_ = true ∨
        (buffer.length + ([0x00] ++ varint_bytes buffer.length buffer.length ++
            varint_bytes message_type message_type).length > sock.space_first ∧
         buffer.length + ([0x00] ++ varint_bytes buffer.length buffer.length ++
            varint_bytes message_type message_type).length > sock.space_second))) ∨
    (send_buffer sock buffer message_type s =
        ({ s with client_ :=
            { closed_ := s.client_.closed_,
              added_ := s.client_.added_ ++
                ([0x00] ++ varint_bytes buffer.length buffer.length ++
                  varint_bytes message_type message_type ++ buffer),
              sends_ := s.client_.sends_ + 1 } },
          sock.send_result) ∧
      s.remove_ = false ∧
      ¬ (buffer.length + ([0x00] ++ varint_bytes buffer.length buffer.length ++
            varint_bytes message_type message_type).length > sock.space_first ∧
         buffer.length + ([0x00] ++ varint_bytes buffer.length buffer.length ++
            varint_bytes message_type message_type).length > sock.space_second)) :=
  send_buffer_cases sock buffer message_type s

/-! ## Keepalive -/

theorem send_buffer_remove (sock : SocketReadings) (buffer : List Nat) (message_type : Nat)
    (s : Session) : (send_buffer sock buffer message_type s).1.remove_ = s.remove_ := by
  rcases send_buffer_cases sock buffer message_type s with h | h <;> rw [h.1]

theorem send_buffer_sent_ping (sock : SocketReadings) (buffer : List Nat)
    (message_type : Nat) (s : Session) :
    (send_buffer sock buffer message_type s).1.sent_ping_ = s.sent_ping_ := by
  rcases send_buffer_cases sock buffer message_type s with h | h <;> rw [h.1]

theorem loop_camera_remove (x : Externals) (t : Tick) (s : Session) :
    (loop_camera x t s).remove_ = s.remove_ := by
  unfold loop_camera
  simp only
  split
  · split
    · split <;> split <;> simp [send_buffer_remove]
    · rfl
  · rfl

theorem loop_camera_sent_ping (x : Externals) (t : Tick) (s : Session) :
    (loop_camera x t s).sent_ping_ = s.sent_ping_ := by
  unfold loop_camera
  simp only
  split
  · split
    · split <;> split <;> simp [send_buffer_sent_ping]
    · rfl
  · rfl

theorem loop_live (x : Externals) (t : Tick) (c : APIConnection)
    (hlive : c.remove_ = false) (hnet : t.network_is_connected = true)
    (hsock : t.client_disconnected = false) :
    loop x t c =
      (if x.USE_ESP32_CAMERA then
          (loop_keepalive x t (loop_receive x t c).1).withSession
            (loop_camera x t (loop_keepalive x t (loop_receive x t c).1).toSession)
        else loop_keepalive x t (loop_receive x t c).1,
       (loop_receive x t c).2) := by
  unfold loop
  simp [hlive, hnet, hsock]

theorem loop_live_remove (x : Externals) (t : Tick) (c : APIConnection)
    (hlive : c.remove_ = false) (hnet : t.network_is_connected = true)
    (hsock : t.client_disconnected = false) :
    (loop x t c).1.remove_ = (loop_keepalive x t (loop_receive x t c).1).remove_ := by
  rw [loop_live x t c hlive hnet hsock]
  simp only
  split
  · exact loop_camera_remove x t _
  · rfl

theorem loop_live_sent_ping (x : Externals) (t : Tick) (c : APIConnection)
    (hlive : c.remove_ = false) (hnet : t.network_is_connected = true)
    (hsock : t.client_disconnected = false) :
    (loop x t c).1.sent_ping_ = (loop_keepalive x t (loop_receive x t c).1).sent_ping_ := by
  rw [loop_live x t c hlive hnet hsock]
  simp only
  split
  · exact loop_camera_sent_ping x t _
  · rfl

theorem loop_keepalive_probe (x : Externals) (t : Tick) (c : APIConnection)
    (hp : c.sent_ping_ = false) (hidle : 60000 < u32_sub t.now c.last_traffic_) :
    loop_keepalive x t c =
      c.withSession (send_buffer t.ping_socket x.ping_request x.PING_REQUEST
        { c.toSession with sent_ping_ := true }).1 := by
  unfold loop_keepalive
  simp only [hp, Bool.false_eq_true, if_false]
  rw [if_pos (by omega)]
  rfl

theorem loop_keepalive_timeout (x : Externals) (t : Tick) (c : APIConnection)
    (hp : c.sent_ping_ = true) (hidle : 90000 < u32_sub t.now c.last_traffic_) :
    loop_keepalive x t c = c.withSession c.toSession.disconnect_client := by
  unfold loop_keepalive
  simp only [hp, if_true]
  rw [if_pos (by norm_num; omega)]

theorem loop_keepalive_idle (x : Externals) (t : Tick) (c : APIConnection)
    (hidle : (c.sent_ping_ = false ∧ u32_sub t.now c.last_traffic_ ≤ 60000) ∨
      (c.sent_ping_ = true ∧ u32_sub t.now c.last_traffic_ ≤ 90000)) :
    loop_keepalive x t c = c := by
  unfold loop_keepalive
  rcases hidle with ⟨hp, h⟩ | ⟨hp, h⟩
  · simp only [hp, Bool.false_eq_true, if_false]
    rw [if_neg (by omega)]
  · simp only [hp, if_true]
    rw [if_neg (by norm_num; omega)]

/-- C9 as amended (liveness supervision, interval 60000 ms): on a tick of
`loop()` of a live connection (not terminated, network up, socket connected),
let `c1` be the connection after the tick's parsing and iterator steps and
`idle` the `uint32_t` difference between the clock and `c1.last_traffic_`.
If no probe is pending and `idle` is more than 60000, the keepalive step is
one `send_buffer` call with the `PingRequest` on the session with `sent_ping_`
set: the flag is set after the tick and the session is not terminated by the
step, whether or not the send succeeds.  If a probe is pending and `idle` is
more than 90000, the session is terminated after the tick.  In the remaining
cases (no probe pending and `idle` at most 60000, or a probe pending and
`idle` at most 90000) the keepalive step changes nothing. -/
theorem keepalive_supervision (x : Externals) (t : Tick) (c c1 : APIConnection) (idle : Nat)
    (hlive : c.remove_ = false) (hnet : t.network_is_connected = true)
    (hsock : t.client_disconnected = false)
    (hc1 : c1 = (loop_receive x t c).1) (hidle : idle = u32_sub t.now c1.last_traffic_) :
    (c1.sent_ping_ = false → 60000 < idle →
      loop_keepalive x t c1 =
        c1.withSession (send_buffer t.ping_socket x.ping_request x.PING_REQUEST
          { c1.toSession with sent_ping_ := true }).1 ∧
      (loop x t c).1.sent_ping_ = true ∧
      (loop x t c).1.remove_ = c1.remove_) ∧
    (c1.sent_ping_ = true → 90000 < idle → (loop x t c).1.remove_ = true) ∧
    (c1.sent_ping_ = false → idle ≤ 60000 →
      loop_keepalive x t c1 = c1 ∧ (loop x t c).1.sent_ping_ = false ∧
      (loop x t c).1.remove_ = c1.remove_) ∧
    (c1.sent_ping_ = true → idle ≤ 90000 →
      loop_keepalive x t c1 = c1 ∧ (loop x t c).1.sent_ping_ = true ∧
      (loop x t c).1.remove_ = c1.remove_) := by
  subst hidle
  have hr := loop_live_remove x t c hlive hnet hsock
  have hs := loop_live_sent_ping x t c hlive hnet hsock
  rw [← hc1] at hr hs
  refine ⟨fun hp h => ?_, fun hp h => ?_, fun hp h => ?_, fun hp h => ?_⟩
  · have hk := loop_keepalive_probe x t c1 hp h
    refine ⟨hk, ?_, ?_⟩
    · rw [hs, hk]
      exact send_buffer_sent_ping _ _ _ _
    · rw [hr, hk]
      exact send_buffer_remove _ _ _ _
  · rw [hr, loop_keepalive_timeout x t c1 hp h]
    rfl
  · have hk := loop_keepalive_idle x t c1 (Or.inl ⟨hp, h⟩)
    exact ⟨hk, by rw [hs, hk, hp], by rw [hr, hk]⟩
  · have hk := loop_keepalive_idle x t c1 (Or.inr ⟨hp, h⟩)
    exact ⟨hk, by rw [hs, hk, hp], by rw [hr, hk]⟩

/-- Witness of C9 as amended: a connection whose last traffic was at 0, ticked
at 60001 with no probe pending, has the probe flag set afterwards. -/
theorem keepalive_supervision_witness :
    ((APIConnection.fresh 0).remove_ = false ∧
      (Tick.quiet 60001).network_is_connected = true ∧
      (Tick.quiet 60001).client_disconnected = false ∧
      (loop_receive Externals.plain (Tick.quiet 60001) (APIConnection.fresh 0)).1 =
        (loop_receive Externals.plain (Tick.quiet 60001) (APIConnection.fresh 0)).1 ∧
      60001 = u32_sub (Tick.quiet 60001).now
        (loop_receive Externals.plain (Tick.quiet 60001)
          (APIConnection.fresh 0)).1.last_traffic_ ∧
      (loop_receive Externals.plain (Tick.quiet 60001)
          (APIConnection.fresh 0)).1.sent_ping_ = false ∧
      60000 < 60001) ∧
    (loop Externals.plain (Tick.quiet 60001) (APIConnection.fresh 0)).1.sent_ping_ = true :=
  ⟨⟨rfl, rfl, rfl, rfl, by decide, rfl, by decide⟩,
    ((keepalive_supervision Externals.plain (Tick.quiet 60001) (APIConnection.fresh 0)
      (loop_receive Externals.plain (Tick.quiet 60001) (APIConnection.fresh 0)).1 60001
      rfl rfl rfl rfl (by decide)).1 rfl (by decide)).2.1⟩

/-- C9 as stated fails at three points.  With the last traffic at 0, no probe
pending and the clock at exactly 60000, the tick sends nothing and sets no
flag.  With a probe pending and the clock at exactly 90000 the session is not
terminated.  With no probe pending and the clock at 100000 the tick sends the
probe (`00 00 07`) and does not terminate the session. -/
theorem keepalive_supervision_counterexample :
    ((loop Externals.plain (Tick.quiet 60000) (APIConnection.fresh 0)).1.sent_ping_ = false ∧
      (loop Externals.plain (Tick.quiet 60000) (APIConnection.fresh 0)).1.client_.added_
        = []) ∧
    (loop Externals.plain (Tick.quiet 90000)
      { APIConnection.fresh 0 with sent_ping_ := true }).1.remove_ = false ∧
    ((loop Externals.plain (Tick.quiet 100000) (APIConnection.fresh 0)).1.remove_ = false ∧
      (loop Externals.plain (Tick.quiet 100000) (APIConnection.fresh 0)).1.sent_ping_ = true ∧
      (loop Externals.plain (Tick.quiet 100000) (APIConnection.fresh 0)).1.client_.added_
        = [0x00, 0x00, 0x07]) := by
  decide

/-! ## Traffic and the pending probe -/

theorem parse_loop_alive (read_message : Dispatcher) (millis : Nat → Nat) :
    ∀ fuel k c, c.recv_buffer_.length < 2 ^ 32 →
      (parse_loop read_message millis fuel k c).1.remove_ = false →
      (parse_loop read_message millis fuel k c).1.toSession =
        (parse_loop read_message millis fuel k c).2.foldl
          (fun s f => read_message s f.payload.length f.msg_type f.payload) c.toSession ∧
      (parse_loop read_message millis fuel k c).1.last_traffic_ =
        if (parse_loop read_message millis fuel k c).2 = [] then c.last_traffic_
        else millis (k + (parse_loop read_message millis fuel k c).2.length - 1) := by
  intro fuel
  induction fuel with
  | zero => intro k c _ _; exact ⟨rfl, rfl⟩
  | succ fuel ih =>
    intro k c hlen
    by_cases hb : c.recv_buffer_ = []
    · rw [parse_loop_nil _ _ _ _ _ hb]
      intro _
      exact ⟨rfl, rfl⟩
    · have hne : c.recv_buffer_.isEmpty = false := by
        cases hc : c.recv_buffer_ with
        | nil => exact absurd hc hb
        | cons _ _ => rfl
      rw [parse_loop_succ, parse_iteration_eq read_message _ c hlen hb]
      simp only [hne, Bool.false_eq_true, if_false]
      cases hv : frame_view c.recv_buffer_ with
      | malformed =>
        intro h
        exact absurd h (by simp [APIConnection.withSession, Session.on_fatal_error])
      | incomplete =>
        intro _
        exact ⟨rfl, rfl⟩
      | frame msg_size msg_type i =>
        have hbd := frame_view_bounds hv
        have hpl : ((c.recv_buffer_.drop i).take msg_size).length = msg_size := by
          simp only [List.length_take, List.length_drop]; omega
        simp only
        by_cases hr : (read_message c.toSession msg_size msg_type
            ((c.recv_buffer_.drop i).take msg_size)).remove_ = true
        · simp only [hr, if_true]
          intro h
          exact absurd h (by simp [APIConnection.withSession, hr])
        · simp only [hr, Bool.false_eq_true, if_false]
          intro h
          have hrec := ih (k + 1)
            { c with
              toSession := read_message c.toSession msg_size msg_type
                ((c.recv_buffer_.drop i).take msg_size),
              recv_buffer_ := c.recv_buffer_.drop (i + msg_size),
              last_traffic_ := millis k }
            (show (c.recv_buffer_.drop (i + msg_size)).length < 2 ^ 32 by
              simp only [List.length_drop]; omega) h
          refine ⟨?_, ?_⟩
          · rw [hrec.1]
            simp only [List.foldl_cons, hpl]
          · rw [hrec.2]
            simp only [List.length_cons]
            split
            · rename_i hnil
              simp [hnil]
            · rename_i hnil
              have : 0 < (parse_loop read_message millis fuel (k + 1)
                  { c with
                    toSession := read_message c.toSession msg_size msg_type
                      ((c.recv_buffer_.drop i).take msg_size),
                    recv_buffer_ := c.recv_buffer_.drop (i + msg_size),
                    last_traffic_ := millis k }).2.length :=
                List.length_pos.mpr hnil
              simp only [List.cons_ne_nil, if_false]
              congr 1
              omega

theorem loop_keepalive_pending (x : Externals) (t : Tick) (c : APIConnection)
    (hlive : c.remove_ = false) (hp : c.sent_ping_ = true) :
    (loop_keepalive x t c).remove_ = true ↔ 90000 < u32_sub t.now c.last_traffic_ := by
  by_cases h : 90000 < u32_sub t.now c.last_traffic_
  · rw [loop_keepalive_timeout x t c hp h]
    exact ⟨fun _ => h, fun _ => rfl⟩
  · rw [loop_keepalive_idle x t c (Or.inr ⟨hp, by omega⟩), hlive]
    exact ⟨fun hc => (by cases hc), fun hc => absurd hc h⟩

theorem parse_recv_buffer_alive (read_message : Dispatcher) (millis : Nat → Nat)
    (c : APIConnection) (hlen : c.recv_buffer_.length < 2 ^ 32)
    (halive : (parse_recv_buffer_ read_message millis c).1.remove_ = false) :
    (parse_recv_buffer_ read_message millis c).1.toSession =
      (parse_recv_buffer_ read_message millis c).2.foldl
        (fun s f => read_message s f.payload.length f.msg_type f.payload) c.toSession ∧
    ((parse_recv_buffer_ read_message millis c).2 ≠ [] →
      (parse_recv_buffer_ read_message millis c).1.last_traffic_ =
        millis ((parse_recv_buffer_ read_message millis c).2.length - 1)) ∧
    ((parse_recv_buffer_ read_message millis c).2 = [] →
      (parse_recv_buffer_ read_message millis c).1.last_traffic_ = c.last_traffic_) ∧
    (∀ (x : Externals) (t : Tick),
      (parse_recv_buffer_ read_message millis c).1.sent_ping_ = true →
      ((loop_keepalive x t (parse_recv_buffer_ read_message millis c).1).remove_ = true ↔
        90000 < u32_sub t.now (parse_recv_buffer_ read_message millis c).1.last_traffic_)) := by
  refine ⟨?_, ?_, ?_, fun x t hp => loop_keepalive_pending x t _ halive hp⟩
  all_goals
    revert halive
    unfold parse_recv_buffer_
    split
    · intro _; simp
    · intro halive
      have h := parse_loop_alive read_message millis c.recv_buffer_.length 0 c hlen halive
      first
        | exact h.1
        | (intro hne; rw [h.2, if_neg hne, Nat.zero_add])
        | (intro he; rw [h.2, if_pos he])

/-- C10 as stated fails: with a probe pending, the frame `00 00 01` is
extracted and dispatched (to a handler that leaves the session alone) at clock
1000; the timestamp becomes 1000 but `sent_ping_` is still set, and a tick at
91001 with no further traffic terminates the session because of that pending
probe. -/
theorem inbound_frame_refreshes_timestamp_counterexample :
    (parse_recv_buffer_ ignore_message (fun _ => 1000)
      { APIConnection.fresh 0 with sent_ping_ := true,
                                   recv_buffer_ := [0x00, 0x00, 0x01] }).2 = [⟨1, []⟩] ∧
    (parse_recv_buffer_ ignore_message (fun _ => 1000)
      { APIConnection.fresh 0 with sent_ping_ := true,
                                   recv_buffer_ := [0x00, 0x00, 0x01] }).1.last_traffic_
      = 1000 ∧
    (parse_recv_buffer_ ignore_message (fun _ => 1000)
      { APIConnection.fresh 0 with sent_ping_ := true,
                                   recv_buffer_ := [0x00, 0x00, 0x01] }).1.sent_ping_
      = true ∧
    (loop Externals.plain (Tick.quiet 91001)
      (parse_recv_buffer_ ignore_message (fun _ => 1000)
        { APIConnection.fresh 0 with sent_ping_ := true,
                                     recv_buffer_ := [0x00, 0x00, 0x01] }).1).1.remove_
      = true := by
  decide

/-! ## What the inner loops compute -/

theorem lor_group (acc dat : Nat) (h : acc % 128 = 0) :
    acc ||| (dat &&& 0x7F) = acc + dat % 128 := by
  have hand : dat &&& 0x7F = dat % 128 := Nat.and_pow_two_sub_one_eq_mod dat 7
  have hacc : acc = 2 ^ 7 * (acc / 128) := by
    have := Nat.div_add_mod acc 128
    omega
  rw [hand, hacc, ← Nat.mul_add_lt_is_or (Nat.mod_lt dat (by decide)) (acc / 128)]

theorem shift_group (n : Nat) : ((n <<< 7) % 2 ^ 32) % 128 = 0 := by
  rw [Nat.shiftLeft_eq]
  omega

/-- On every terminated varint the loops of `parse_recv_buffer_` compute the
most-significant-group-first value of the bytes. -/
theorem scan_varint_msb_first (v : List Nat) :
    ∀ acc, acc % 128 = 0 → is_varint v = true →
      (scan_varint acc v).1 = msb_first_value acc v := by
  induction v with
  | nil => intro acc _ h; simp [is_varint] at h
  | cons dat rest ih =>
    intro acc hacc h
    cases rest with
    | nil =>
      simp only [is_varint, beq_iff_eq] at h
      simp only [scan_varint, h, if_true, msb_first_value]
      exact lor_group acc dat hacc
    | cons d r =>
      simp only [is_varint, Bool.and_eq_true, bne_iff_ne, ne_eq] at h
      unfold scan_varint
      simp only [h.1, if_false]
      rw [ih _ (shift_group _) h.2]
      simp only [msb_first_value]
      rw [lor_group acc dat hacc, Nat.shiftLeft_eq]

theorem varint_value_msb_first (v : List Nat) (h : is_varint v = true) :
    varint_value v = msb_first_value 0 v :=
  scan_varint_msb_first v 0 rfl h

/-! ## Every dispatched frame is a complete frame -/

theorem scan_varint_cons_stop (acc dat : Nat) (rest : List Nat)
    (h : dat &&& 0x80 = 0x00) :
    scan_varint acc (dat :: rest) = (acc ||| (dat &&& 0x7F), 1, true) := by
  rw [scan_varint, if_pos h]

theorem scan_varint_cons_more (acc dat : Nat) (rest : List Nat)
    (h : ¬ (dat &&& 0x80 = 0x00)) :
    scan_varint acc (dat :: rest) =
      ((scan_varint (((acc ||| (dat &&& 0x7F)) <<< 7) % 2 ^ 32) rest).1,
        (scan_varint (((acc ||| (dat &&& 0x7F)) <<< 7) % 2 ^ 32) rest).2.1 + 1,
        (scan_varint (((acc ||| (dat &&& 0x7F)) <<< 7) % 2 ^ 32) rest).2.2) := by
  rw [scan_varint, if_neg h]

theorem scan_varint_take (v : List Nat) :
    ∀ acc, (scan_varint acc v).2.2 = true →
      is_varint (v.take (scan_varint acc v).2.1) = true ∧
      (scan_varint acc (v.take (scan_varint acc v).2.1)).1 = (scan_varint acc v).1 ∧
      (v.take (scan_varint acc v).2.1).length = (scan_varint acc v).2.1 := by
  induction v with
  | nil => intro acc h; simp [scan_varint] at h
  | cons dat rest ih =>
    intro acc h
    by_cases hb : dat &&& 0x80 = 0x00
    · rw [scan_varint_cons_stop acc dat rest hb]
      simp only [List.take_succ_cons, List.take_zero]
      rw [scan_varint_cons_stop acc dat [] hb]
      simp [is_varint, hb]
    · rw [scan_varint_cons_more acc dat rest hb] at h ⊢
      simp only at h ⊢
      have hrec := ih _ h
      simp only [List.take_succ_cons]
      rw [scan_varint_cons_more acc dat _ hb]
      refine ⟨?_, hrec.2.1, ?_⟩
      · cases hrest : rest.take (scan_varint (((acc ||| (dat &&& 0x7F)) <<< 7) % 2 ^ 32) rest).2.1 with
        | nil =>
          have h1 := hrec.1
          rw [hrest] at h1
          simp [is_varint] at h1
        | cons d r =>
          have h1 := hrec.1
          rw [hrest] at h1
          simp only [is_varint, Bool.and_eq_true, bne_iff_ne, ne_eq]
          exact ⟨hb, h1⟩
      · simp only [List.length_cons, hrec.2.2]

/-- Whatever `frame_view` reports as a frame is a buffer that starts with a
complete frame: preamble, a terminated length varint, a terminated type varint
and as many payload bytes as the length varint says to the parser. -/
theorem frame_view_shape {buf : List Nat} {msg_size msg_type i : Nat}
    (h : frame_view buf = .frame msg_size msg_type i) :
    ∃ l t p rest, is_varint l = true ∧ is_varint t = true ∧
      p.length = varint_value l ∧ buf = 0x00 :: (l ++ t ++ p ++ rest) ∧
      msg_size = varint_value l ∧ msg_type = varint_value t ∧
      i = 1 + l.length + t.length := by
  cases buf with
  | nil => simp [frame_view] at h
  | cons b0 rest =>
    simp only [frame_view] at h
    by_cases hb0 : b0 = 0
    · subst hb0
      simp only [ne_eq, not_true_eq_false, if_false] at h
      by_cases h1 : (scan_varint 0 rest).2.1 = rest.length
      · simp [h1] at h
      · simp only [h1, if_false] at h
        have hd1 : (scan_varint 0 rest).2.2 = true := by
          by_contra hc
          exact h1 (scan_varint_unterminated rest 0 (by simpa using hc))
        by_cases h2 : (scan_varint 0 (List.drop (scan_varint 0 rest).2.1 rest)).2.2 = true
        · simp only [h2, Bool.not_true, Bool.false_eq_true, if_false] at h
          by_cases h3 : rest.length - (scan_varint 0 rest).2.1 -
                (scan_varint 0 (List.drop (scan_varint 0 rest).2.1 rest)).2.1
                  < (scan_varint 0 rest).1
          · simp [h3] at h
          · simp only [h3, if_false, Decoded.frame.injEq] at h
            obtain ⟨hsz, hty, hi⟩ := h
            have t1 := scan_varint_take rest 0 hd1
            have t2 := scan_varint_take (rest.drop (scan_varint 0 rest).2.1) 0 h2
            generalize hc1 : (scan_varint 0 rest).2.1 = c1 at *
            generalize hc2 : (scan_varint 0 (List.drop c1 rest)).2.1 = c2 at *
            refine ⟨rest.take c1, (rest.drop c1).take c2,
              ((rest.drop c1).drop c2).take msg_size,
              ((rest.drop c1).drop c2).drop msg_size, t1.1, t2.1, ?_, ?_, ?_, ?_, ?_⟩
            · simp only [varint_value, t1.2.1, hsz, List.length_take, List.length_drop]
              omega
            · simp only [List.append_assoc, List.take_append_drop]
            · simp only [varint_value, t1.2.1, hsz]
            · simp only [varint_value, t2.2.1, hty]
            · rw [t1.2.2, t2.2.2, ← hi]
        · simp [h2] at h
    · simp [hb0] at h

theorem parse_recv_buffer_malformed (read_message : Dispatcher) (millis : Nat → Nat)
    (c : APIConnection) (hlen : c.recv_buffer_.length < 2 ^ 32) (hlive : c.remove_ = false)
    (hv : frame_view c.recv_buffer_ = .malformed) :
    parse_recv_buffer_ read_message millis c =
      (c.withSession c.toSession.on_fatal_error, []) := by
  have hb : c.recv_buffer_ ≠ [] := by
    intro h; rw [h] at hv; cases hv
  obtain ⟨n, hn⟩ : ∃ n, c.recv_buffer_.length = n + 1 :=
    Nat.exists_eq_succ_of_ne_zero (fun h => hb (List.length_eq_zero.mp h))
  have hne : c.recv_buffer_.isEmpty = false := by
    cases hc : c.recv_buffer_ with
    | nil => exact absurd hc hb
    | cons _ _ => rfl
  unfold parse_recv_buffer_
  simp only [hne, hlive, Bool.or_self, Bool.false_eq_true, if_false]
  rw [hn, parse_loop_succ, parse_iteration_eq read_message _ c hlen hb, hv]
  simp [hne]

/-- Only complete frames are dispatched: when `parse_recv_buffer_` dispatches
anything, the buffer starts with a complete frame. -/
theorem dispatch_needs_complete_frame (read_message : Dispatcher) (millis : Nat → Nat)
    (c : APIConnection) (hlen : c.recv_buffer_.length < 2 ^ 32)
    (hsome : (parse_recv_buffer_ read_message millis c).2 ≠ []) :
    ∃ l t p rest, is_varint l = true ∧ is_varint t = true ∧
      p.length = varint_value l ∧ c.recv_buffer_ = 0x00 :: (l ++ t ++ p ++ rest) := by
  cases hv : frame_view c.recv_buffer_ with
  | incomplete =>
    rw [parse_recv_buffer_incomplete read_message millis c hlen hv] at hsome
    exact absurd rfl hsome
  | malformed =>
    cases hr : c.remove_ with
    | true =>
      have : parse_recv_buffer_ read_message millis c = (c, []) := by
        simp [parse_recv_buffer_, hr]
      rw [this] at hsome
      exact absurd rfl hsome
    | false =>
      rw [parse_recv_buffer_malformed read_message millis c hlen hr hv] at hsome
      exact absurd rfl hsome
  | frame msg_size msg_type i =>
    obtain ⟨l, t, p, rest, hl, ht, hp, hbuf, _⟩ := frame_view_shape hv
    exact ⟨l, t, p, rest, hl, ht, hp, hbuf⟩

/-! ## Session state -/

theorem send_message_remove (sock : SocketReadings) (msg : EncodedMessage) (s : Session) :
    (send_message_ sock msg s).1.remove_ = s.remove_ :=
  send_buffer_remove sock msg.payload msg.message_type s

theorem send_buffer_connection_state (sock : SocketReadings) (buffer : List Nat)
    (message_type : Nat) (s : Session) :
    (send_buffer sock buffer message_type s).1.connection_state_ = s.connection_state_ := by
  rcases send_buffer_cases sock buffer message_type s with h | h <;> rw [h.1]

theorem hello_state (srv : Server) (msg : HelloRequest) (s : Session) :
    (hello srv msg s).1.connection_state_ = .CONNECTED := rfl

theorem connect_accepted (srv : Server) (sock : SocketReadings) (msg : ConnectRequest)
    (s : Session) (h : srv.check_password msg.password = true) :
    (connect srv sock msg s).1.connection_state_ = .AUTHENTICATED ∧
    (connect srv sock msg s).1.remove_ = s.remove_ := by
  unfold connect
  simp only [h, if_true]
  split
  · exact ⟨send_buffer_connection_state _ _ _ _, send_buffer_remove _ _ _ _⟩
  · exact ⟨rfl, rfl⟩

theorem connect_rejected (srv : Server) (sock : SocketReadings) (msg : ConnectRequest)
    (s : Session) (h : srv.check_password msg.password = false) :
    (connect srv sock msg s).1 = s := by
  unfold connect
  simp [h]

theorem connect_response (srv : Server) (sock : SocketReadings) (msg : ConnectRequest)
    (s : Session) :
    (connect srv sock msg s).2.invalid_password = !srv.check_password msg.password := by
  unfold connect
  cases srv.check_password msg.password <;> simp

theorem connect_rank (srv : Server) (sock : SocketReadings) (msg : ConnectRequest)
    (s : Session) :
    s.connection_state_.rank ≤ (connect srv sock msg s).1.connection_state_.rank := by
  cases h : srv.check_password msg.password with
  | true =>
    rw [(connect_accepted srv sock msg s h).1]
    cases s.connection_state_ <;> decide
  | false =>
    rw [connect_rejected srv sock msg s h]

/-- C11 as amended (session state): with INITIALIZED < CONNECTED <
AUTHENTICATED, `connect` with any credential never lowers the session state;
`hello` with any request always leaves the session CONNECTED, which is not
below the state before for an INITIALIZED or CONNECTED session. -/
theorem session_state_after_handlers (srv : Server) (sock : SocketReadings)
    (hreq : HelloRequest) (creq : ConnectRequest) (s : Session) :
    s.connection_state_.rank ≤ (connect srv sock creq s).1.connection_state_.rank ∧
    (hello srv hreq s).1.connection_state_ = .CONNECTED ∧
    (s.connection_state_ ≠ .AUTHENTICATED →
      s.connection_state_.rank ≤ (hello srv hreq s).1.connection_state_.rank) := by
  refine ⟨connect_rank srv sock creq s, rfl, fun h => ?_⟩
  rw [hello_state]
  cases hs : s.connection_state_ with
  | INITIALIZED => decide
  | CONNECTED => decide
  | AUTHENTICATED => exact absurd hs h

/-- C11 as stated fails: `hello` on an AUTHENTICATED session puts it back to
CONNECTED. -/
theorem session_state_counterexample :
    (hello Server.plain { client_info := "client" }
      { (APIConnection.fresh 0).toSession with
        connection_state_ := .AUTHENTICATED }).1.connection_state_ = .CONNECTED ∧
    (hello Server.plain { client_info := "client" }
      { (APIConnection.fresh 0).toSession with
        connection_state_ := .AUTHENTICATED }).1.connection_state_.rank <
      ConnectionState.rank .AUTHENTICATED := by
  decide

/-- C12 (authentication outcome): `connect` leaves the session AUTHENTICATED
when the server's password check accepts the credential, and leaves the whole
session as it was (state and termination flag included) when the check
rejects it, so a session that was not AUTHENTICATED is AUTHENTICATED afterwards
if and only if the check accepts; the response's `invalid_password` is the
negation of the check result; the termination flag is never changed. -/
theorem authentication_outcome (srv : Server) (sock : SocketReadings)
    (msg : ConnectRequest) (s : Session) :
    (srv.check_password msg.password = true →
      (connect srv sock msg s).1.connection_state_ = .AUTHENTICATED) ∧
    (srv.check_password msg.password = false → (connect srv sock msg s).1 = s) ∧
    (s.connection_state_ ≠ .AUTHENTICATED →
      ((connect srv sock msg s).1.connection_state_ = .AUTHENTICATED ↔
        srv.check_password msg.password = true)) ∧
    (connect srv sock msg s).2.invalid_password = !srv.check_password msg.password ∧
    (connect srv sock msg s).1.remove_ = s.remove_ := by
  refine ⟨fun h => (connect_accepted srv sock msg s h).1,
    fun h => connect_rejected srv sock msg s h, fun hs => ?_,
    connect_response srv sock msg s, ?_⟩
  · cases h : srv.check_password msg.password with
    | true => exact ⟨fun _ => rfl, fun _ => (connect_accepted srv sock msg s h).1⟩
    | false =>
      rw [connect_rejected srv sock msg s h]
      exact ⟨fun hc => absurd hc hs, fun hc => (by cases hc)⟩
  · cases h : srv.check_password msg.password with
    | true => exact (connect_accepted srv sock msg s h).2
    | false => rw [connect_rejected srv sock msg s h]

/-! ## Termination and the send path -/

theorem send_buffer_removed (sock : SocketReadings) (buffer : List Nat) (message_type : Nat)
    (s : Session) (h : s.remove_ = true) :
    send_buffer sock buffer message_type s = (s, false) := by
  unfold send_buffer
  rw [if_pos h]

theorem send_message_removed (sock : SocketReadings) (msg : EncodedMessage) (s : Session)
    (h : s.remove_ = true) : send_message_ sock msg s = (s, false) :=
  send_buffer_removed sock msg.payload msg.message_type s h

theorem send_log_message_remove (x : Externals) (srv : Server)
    (sock sock_retry : SocketReadings) (level : Int) (line : List Nat) (s : Session) :
    (send_log_message x srv sock sock_retry level line s).1.remove_ = s.remove_ := by
  unfold send_log_message
  simp only
  split
  · rfl
  · split
    · rw [send_buffer_remove, send_buffer_remove]
    · rw [send_buffer_remove]

theorem send_log_message_removed (x : Externals) (srv : Server)
    (sock sock_retry : SocketReadings) (level : Int) (line : List Nat) (s : Session)
    (h : s.remove_ = true) :
    send_log_message x srv sock sock_retry level line s = (s, false) := by
  unfold send_log_message
  simp only
  split
  · rfl
  · rw [send_buffer_removed sock _ 29 s h]
    simp only [Bool.not_false, if_true]
    exact send_buffer_removed sock_retry _ 29 s h

theorem subscribe_states_loop_removed (srv : Server) (socks : Nat → SocketReadings) :
    ∀ subs k s, s.remove_ = true →
      (subscribe_states_loop srv socks k subs s).remove_ = true := by
  intro subs
  induction subs with
  | nil => intro k s h; exact h
  | cons entity_id rest ih =>
    intro k s h
    unfold subscribe_states_loop
    simp only
    split
    · rfl
    · exact ih (k + 1) _ (by rw [send_message_remove]; exact h)

theorem send_camera_state_remove (image : List Nat) (s : Session) :
    (send_camera_state image s).remove_ = s.remove_ := by
  unfold send_camera_state
  split
  · rfl
  · split <;> rfl

theorem connect_remove (srv : Server) (sock : SocketReadings)
    (msg : ConnectRequest) (s : Session) :
    (connect srv sock msg s).1.remove_ = s.remove_ := by
  cases h : srv.check_password msg.password with
  | true => exact (connect_accepted srv sock msg s h).2
  | false => rw [connect_rejected srv sock msg s h]

theorem loop_removed (x : Externals) (t : Tick) (c : APIConnection) (h : c.remove_ = true) :
    loop x t c = (c, []) := by
  unfold loop
  rw [if_pos h]

theorem parse_recv_buffer_removed (read_message : Dispatcher) (millis : Nat → Nat)
    (c : APIConnection) (h : c.remove_ = true) :
    parse_recv_buffer_ read_message millis c = (c, []) := by
  simp [parse_recv_buffer_, h]

theorem state_push_removed (sock : SocketReadings) (resp : EncodedMessage) (s : Session)
    (h : s.remove_ = true) :
    (if !s.state_subscription_ then (s, false) else send_message_ sock resp s) = (s, false) := by
  split
  · rfl
  · exact send_message_removed sock resp s h

/-- C13 (termination is absorbing): on a connection whose `remove_` is set,
`loop()` changes nothing and dispatches no frame (so it sends no probe and no
media chunk), `parse_recv_buffer_` changes nothing and dispatches no frame,
`send_buffer`, every state push and the log push return false and leave the
session, its socket included, as it was; and none of the other operations of
the connection (the socket callbacks, the fatal-error paths, `hello`,
`connect`, the camera push, the state-subscription handler) clears the
flag. -/
theorem termination_is_absorbing (x : Externals) (srv : Server) (t : Tick)
    (read_message : Dispatcher) (millis : Nat → Nat) (sock sock_retry : SocketReadings)
    (socks : Nat → SocketReadings) (buffer : List Nat) (message_type : Nat)
    (resp : EncodedMessage) (level : Int) (line image : List Nat) (data : Option (List Nat))
    (error : Int) (time : Nat) (hreq : HelloRequest) (creq : ConnectRequest)
    (c : APIConnection) (h : c.remove_ = true) :
    (loop x t c = (c, []) ∧
      parse_recv_buffer_ read_message millis c = (c, []) ∧
      send_buffer sock buffer message_type c.toSession = (c.toSession, false)) ∧
    (send_binary_sensor_state sock resp c.toSession = (c.toSession, false) ∧
      send_cover_state sock resp c.toSession = (c.toSession, false) ∧
      send_fan_state sock resp c.toSession = (c.toSession, false) ∧
      send_light_state sock resp c.toSession = (c.toSession, false) ∧
      send_sensor_state sock resp c.toSession = (c.toSession, false) ∧
      send_switch_state sock resp c.toSession = (c.toSession, false) ∧
      send_text_sensor_state sock resp c.toSession = (c.toSession, false) ∧
      send_climate_state sock resp c.toSession = (c.toSession, false) ∧
      send_log_message x srv sock sock_retry level line c.toSession = (c.toSession, false)) ∧
    ((on_data_ data c).remove_ = true ∧
      (c.toSession.on_error_ error).remove_ = true ∧
      c.toSession.on_disconnect_.remove_ = true ∧
      (c.toSession.on_timeout_ time).remove_ = true ∧
      c.toSession.on_fatal_error.remove_ = true ∧
      c.toSession.on_unauthenticated_access.remove_ = true ∧
      c.toSession.on_no_setup_connection.remove_ = true ∧
      c.toSession.disconnect_client.remove_ = true ∧
      (hello srv hreq c.toSession).1.remove_ = true ∧
      (connect srv sock creq c.toSession).1.remove_ = true ∧
      (send_camera_state image c.toSession).remove_ = true ∧
      (subscribe_home_assistant_states srv socks c.toSession).remove_ = true) := by
  have hs : c.toSession.remove_ = true := h
  refine ⟨⟨loop_removed x t c h, parse_recv_buffer_removed read_message millis c h,
      send_buffer_removed sock buffer message_type _ hs⟩,
    ⟨state_push_removed sock resp _ hs, state_push_removed sock resp _ hs,
      state_push_removed sock resp _ hs, state_push_removed sock resp _ hs,
      state_push_removed sock resp _ hs, state_push_removed sock resp _ hs,
      state_push_removed sock resp _ hs, state_push_removed sock resp _ hs,
      send_log_message_removed x srv sock sock_retry level line _ hs⟩,
    ?_, rfl, rfl, rfl, rfl, rfl, rfl, rfl, hs, ?_, ?_, ?_⟩
  · cases data with
    | none => exact h
    | some d => rw [on_data_some]; exact h
  · rw [(connect_remove srv sock creq c.toSession)]; exact hs
  · rw [send_camera_state_remove]; exact hs
  · exact subscribe_states_loop_removed srv socks _ 0 _ hs

/-- Witness of C13: a terminated connection that still holds the complete
frame `00 00 01`; a tick changes nothing and dispatches nothing. -/
theorem termination_is_absorbing_witness :
    ({ APIConnection.fresh 0 with remove_ := true, recv_buffer_ := [0x00, 0x00, 0x01] } :
        APIConnection).remove_ = true ∧
      loop Externals.plain (Tick.quiet 100000)
          { APIConnection.fresh 0 with remove_ := true, recv_buffer_ := [0x00, 0x00, 0x01] } =
        ({ APIConnection.fresh 0 with remove_ := true, recv_buffer_ := [0x00, 0x00, 0x01] },
          []) :=
  ⟨rfl,
    (termination_is_absorbing Externals.plain Server.plain (Tick.quiet 100000) ignore_message
      (fun _ => 0) (SocketReadings.room 1000) (SocketReadings.room 1000)
      (fun _ => SocketReadings.room 1000) [] 7 { payload := [], message_type := 7 } 0 [] []
      none 0 0 { client_info := "" } { password := "" }
      { APIConnection.fresh 0 with remove_ := true, recv_buffer_ := [0x00, 0x00, 0x01] }
      rfl).1.1⟩

theorem loop_fatal (x : Externals) (t : Tick) (c : APIConnection)
    (h : t.network_is_connected = false ∨ t.client_disconnected = true) :
    (loop x t c).1.remove_ = true := by
  unfold loop
  cases hr : c.remove_ with
  | true => simp [hr]
  | false =>
    simp only [Bool.false_eq_true, if_false]
    cases hn : t.network_is_connected with
    | false => simp [APIConnection.withSession, Session.on_fatal_error]
    | true =>
      rcases h with h | h
      · rw [hn] at h; cases h
      · simp [h, APIConnection.withSession, Session.on_disconnect_]

/-- C14 (every fatal condition ends in termination): from every connection
state, `on_error_` with any error code, `on_disconnect_`, `on_timeout_` with
any duration, `on_fatal_error`, `on_unauthenticated_access`,
`on_no_setup_connection`, `disconnect_client`, and a `loop()` tick that finds
the network down or the socket disconnected, all leave `remove_` set. -/
theorem fatal_conditions_terminate (x : Externals) (t : Tick) (c : APIConnection)
    (error : Int) (time : Nat) :
    (c.toSession.on_error_ error).remove_ = true ∧
    c.toSession.on_disconnect_.remove_ = true ∧
    (c.toSession.on_timeout_ time).remove_ = true ∧
    c.toSession.on_fatal_error.remove_ = true ∧
    c.toSession.on_unauthenticated_access.remove_ = true ∧
    c.toSession.on_no_setup_connection.remove_ = true ∧
    c.toSession.disconnect_client.remove_ = true ∧
    (t.network_is_connected = false ∨ t.client_disconnected = true →
      (loop x t c).1.remove_ = true) :=
  ⟨rfl, rfl, rfl, rfl, rfl, rfl, rfl, loop_fatal x t c⟩

/-! ## Send failures and the subscription gates -/

theorem state_push_remove (sock : SocketReadings) (resp : EncodedMessage) (s : Session) :
    (if !s.state_subscription_ then (s, false) else send_message_ sock resp s).1.remove_ =
      s.remove_ := by
  split
  · rfl
  · exact send_message_remove sock resp s

theorem loop_keepalive_probe_remove (x : Externals) (t : Tick) (c : APIConnection)
    (hp : c.sent_ping_ = false) (hidle : 60000 < u32_sub t.now c.last_traffic_) :
    (loop_keepalive x t c).remove_ = c.remove_ := by
  rw [loop_keepalive_probe x t c hp hidle]
  exact send_buffer_remove _ _ _ _

theorem subscribe_states_loop_cons (srv : Server) (socks : Nat → SocketReadings) (k : Nat)
    (entity_id : String) (rest : List String) (s : Session) :
    subscribe_states_loop srv socks k (entity_id :: rest) s =
      if (send_message_ (socks k) (srv.state_subscription_response entity_id) s).2 = false then
        (send_message_ (socks k) (srv.state_subscription_response entity_id) s).1.on_fatal_error
      else
        subscribe_states_loop srv socks (k + 1) rest
          (send_message_ (socks k) (srv.state_subscription_response entity_id) s).1 := by
  rw [subscribe_states_loop]
  cases (send_message_ (socks k) (srv.state_subscription_response entity_id) s).2 <;> simp

theorem subscribe_states_loop_nil (srv : Server) (socks : Nat → SocketReadings) (k : Nat)
    (s : Session) : subscribe_states_loop srv socks k [] s = s := by
  rw [subscribe_states_loop]

theorem send_shortfall_cases (x : Externals) (srv : Server) (t : Tick)
    (sock sock_retry : SocketReadings) (socks : Nat → SocketReadings) (buffer : List Nat)
    (message_type : Nat) (resp : EncodedMessage) (level : Int) (line : List Nat)
    (k : Nat) (entity_id : String) (rest : List String) (s : Session) (c : APIConnection) :
    (send_buffer sock buffer message_type s).1.remove_ = s.remove_ ∧
    ((send_binary_sensor_state sock resp s).1.remove_ = s.remove_ ∧
      (send_cover_state sock resp s).1.remove_ = s.remove_ ∧
      (send_fan_state sock resp s).1.remove_ = s.remove_ ∧
      (send_light_state sock resp s).1.remove_ = s.remove_ ∧
      (send_sensor_state sock resp s).1.remove_ = s.remove_ ∧
      (send_switch_state sock resp s).1.remove_ = s.remove_ ∧
      (send_text_sensor_state sock resp s).1.remove_ = s.remove_ ∧
      (send_climate_state sock resp s).1.remove_ = s.remove_) ∧
    (send_log_message x srv sock sock_retry level line s).1.remove_ = s.remove_ ∧
    (c.sent_ping_ = false → 60000 < u32_sub t.now c.last_traffic_ →
      (loop_keepalive x t c).remove_ = c.remove_) ∧
    ((send_message_ (socks k) (srv.state_subscription_response entity_id) s).2 = false →
      subscribe_states_loop srv socks k (entity_id :: rest) s =
        (send_message_ (socks k)
          (srv.state_subscription_response entity_id) s).1.on_fatal_error ∧
      (subscribe_states_loop srv socks k (entity_id :: rest) s).remove_ = true) ∧
    ((send_message_ (socks k) (srv.state_subscription_response entity_id) s).2 = true →
      subscribe_states_loop srv socks k (entity_id :: rest) s =
        subscribe_states_loop srv socks (k + 1) rest
          (send_message_ (socks k) (srv.state_subscription_response entity_id) s).1) ∧
    subscribe_states_loop srv socks k [] s = s := by
  refine ⟨send_buffer_remove _ _ _ _,
    ⟨state_push_remove _ _ _, state_push_remove _ _ _, state_push_remove _ _ _,
      state_push_remove _ _ _, state_push_remove _ _ _, state_push_remove _ _ _,
      state_push_remove _ _ _, state_push_remove _ _ _⟩,
    send_log_message_remove _ _ _ _ _ _ _,
    loop_keepalive_probe_remove x t c, fun h => ?_, fun h => ?_,
    subscribe_states_loop_nil srv socks k s⟩
  · rw [subscribe_states_loop_cons, if_pos h]
    exact ⟨rfl, rfl⟩
  · rw [subscribe_states_loop_cons, if_neg (by rw [h]; simp)]

/-- C15 as amended (send failures and termination): `send_buffer`, every state
push, the log push and the keepalive probe of `loop()` leave the termination
flag as it was, whether the send succeeds or not.  The
`subscribe_home_assistant_states` handler is different: it goes through the
state subscriptions in order, and at the first one whose response send returns
false it calls `on_fatal_error` (the flag is set) and stops; while the sends
return true it goes on, and with no subscription left it changes nothing. -/
theorem send_failure_and_termination (x : Externals) (srv : Server) (t : Tick)
    (sock sock_retry : SocketReadings) (socks : Nat → SocketReadings) (buffer : List Nat)
    (message_type : Nat) (resp : EncodedMessage) (level : Int) (line : List Nat)
    (k : Nat) (entity_id : String) (rest : List String) (s : Session) (c : APIConnection) :
    (send_buffer sock buffer message_type s).1.remove_ = s.remove_ ∧
    ((send_binary_sensor_state sock resp s).1.remove_ = s.remove_ ∧
      (send_cover_state sock resp s).1.remove_ = s.remove_ ∧
      (send_fan_state sock resp s).1.remove_ = s.remove_ ∧
      (send_light_state sock resp s).1.remove_ = s.remove_ ∧
      (send_sensor_state sock resp s).1.remove_ = s.remove_ ∧
      (send_switch_state sock resp s).1.remove_ = s.remove_ ∧
      (send_text_sensor_state sock resp s).1.remove_ = s.remove_ ∧
      (send_climate_state sock resp s).1.remove_ = s.remove_) ∧
    (send_log_message x srv sock sock_retry level line s).1.remove_ = s.remove_ ∧
    (c.sent_ping_ = false → 60000 < u32_sub t.now c.last_traffic_ →
      (loop_keepalive x t c).remove_ = c.remove_) ∧
    ((send_message_ (socks k) (srv.state_subscription_response entity_id) s).2 = false →
      subscribe_states_loop srv socks k (entity_id :: rest) s =
        (send_message_ (socks k)
          (srv.state_subscription_response entity_id) s).1.on_fatal_error ∧
      (subscribe_states_loop srv socks k (entity_id :: rest) s).remove_ = true) ∧
    ((send_message_ (socks k) (srv.state_subscription_response entity_id) s).2 = true →
      subscribe_states_loop srv socks k (entity_id :: rest) s =
        subscribe_states_loop srv socks (k + 1) rest
          (send_message_ (socks k) (srv.state_subscription_response entity_id) s).1) ∧
    subscribe_states_loop srv socks k [] s = s :=
  send_shortfall_cases x srv t sock sock_retry socks buffer message_type resp level line
    k entity_id rest s c

/-- C15 as stated fails for `subscribe_home_assistant_states`: with one state
subscription and a socket that has no room, the response send returns false
for lack of capacity, nothing is handed to the socket, and the session, live
before, is terminated after the handler. -/
theorem send_shortfall_counterexample :
    (APIConnection.fresh 0).toSession.remove_ = false ∧
    (send_message_ (SocketReadings.room 0)
      (Server.plain.state_subscription_response "sensor.outside")
      (APIConnection.fresh 0).toSession).2 = false ∧
    (subscribe_home_assistant_states Server.plain (fun _ => SocketReadings.room 0)
      (APIConnection.fresh 0).toSession).client_.added_ = [] ∧
    (subscribe_home_assistant_states Server.plain (fun _ => SocketReadings.room 0)
      (APIConnection.fresh 0).toSession).remove_ = true := by
  decide

theorem state_push_gate (sock : SocketReadings) (resp : EncodedMessage) (s : Session)
    (h : s.state_subscription_ = false) :
    (if !s.state_subscription_ then (s, false) else send_message_ sock resp s) = (s, false) := by
  simp [h]

theorem send_camera_state_gate (image : List Nat) (s : Session)
    (h : s.state_subscription_ = false) : send_camera_state image s = s := by
  simp [send_camera_state, h]

theorem send_log_message_gate (x : Externals) (srv : Server)
    (sock sock_retry : SocketReadings) (level : Int) (line : List Nat) (s : Session)
    (h : s.log_subscription_ < level) :
    send_log_message x srv sock sock_retry level line s = (s, false) := by
  unfold send_log_message
  rw [if_pos h]

/-- C16 (pushes are gated by the subscription flags): with the
state-subscription flag false, every entity state push returns false and
leaves the session, its socket included, exactly as it was, and the camera
push does not take the image; a log push whose level is above the log-level
threshold returns false and leaves the session exactly as it was. -/
theorem pushes_are_gated (x : Externals) (srv : Server) (sock sock_retry : SocketReadings)
    (resp : EncodedMessage) (level : Int) (line image : List Nat) (s : Session) :
    (s.state_subscription_ = false →
      send_binary_sensor_state sock resp s = (s, false) ∧
      send_cover_state sock resp s = (s, false) ∧
      send_fan_state sock resp s = (s, false) ∧
      send_light_state sock resp s = (s, false) ∧
      send_sensor_state sock resp s = (s, false) ∧
      send_switch_state sock resp s = (s, false) ∧
      send_text_sensor_state sock resp s = (s, false) ∧
      send_climate_state sock resp s = (s, false) ∧
      send_camera_state image s = s) ∧
    (s.log_subscription_ < level →
      send_log_message x srv sock sock_retry level line s = (s, false)) :=
  ⟨fun h => ⟨state_push_gate sock resp s h, state_push_gate sock resp s h,
      state_push_gate sock resp s h, state_push_gate sock resp s h,
      state_push_gate sock resp s h, state_push_gate sock resp s h,
      state_push_gate sock resp s h, state_push_gate sock resp s h,
      send_camera_state_gate image s h⟩,
    send_log_message_gate x srv sock sock_retry level line s⟩

/-- Witness of C16: a fresh session has no state subscription and the log
threshold 0; a sensor push and a log line of level 3 are both refused. -/
theorem pushes_are_gated_witness :
    ((APIConnection.fresh 0).toSession.state_subscription_ = false ∧
      (APIConnection.fresh 0).toSession.log_subscription_ < 3) ∧
    send_sensor_state (SocketReadings.room 1000) { payload := [0x0d, 1, 2, 3, 4], message_type := 25 }
        (APIConnection.fresh 0).toSession = ((APIConnection.fresh 0).toSession, false) ∧
    send_log_message Externals.plain Server.plain (SocketReadings.room 1000)
        (SocketReadings.room 1000) 3 [0x68, 0x69] (APIConnection.fresh 0).toSession =
      ((APIConnection.fresh 0).toSession, false) :=
  ⟨⟨rfl, by decide⟩,
    ((pushes_are_gated Externals.plain Server.plain (SocketReadings.room 1000)
      (SocketReadings.room 1000) { payload := [0x0d, 1, 2, 3, 4], message_type := 25 } 3
      [0x68, 0x69] [] (APIConnection.fresh 0).toSession).1 rfl).2.2.2.2.1,
    (pushes_are_gated Externals.plain Server.plain (SocketReadings.room 1000)
      (SocketReadings.room 1000) { payload := [0x0d, 1, 2, 3, 4], message_type := 25 } 3
      [0x68, 0x69] [] (APIConnection.fresh 0).toSession).2 (by decide)⟩

theorem send_buffer_true (sock : SocketReadings) (buffer : List Nat) (message_type : Nat)
    (s : Session) (h : (send_buffer sock buffer message_type s).2 = true) :
    (send_buffer sock buffer message_type s).1 =
      { s with client_ :=
          { closed_ := s.client_.closed_,
            added_ := s.client_.added_ ++
              ([0x00] ++ varint_bytes buffer.length buffer.length ++
                varint_bytes message_type message_type ++ buffer),
            sends_ := s.client_.sends_ + 1 } } := by
  rcases send_buffer_cases sock buffer message_type s with hc | hc
  · rw [hc.1] at h; cases h
  · rw [hc.1]

theorem send_log_message_cases (x : Externals) (srv : Server)
    (sock sock_retry : SocketReadings) (level : Int) (line : List Nat) (s : Session)
    (hgate : ¬ s.log_subscription_ < level) :
    ((send_buffer sock
        (srv.encode_uint32 1 (level % 2 ^ 32).toNat ++ srv.encode_string 3 line) 29 s).2 = true →
      send_log_message x srv sock sock_retry level line s =
        ((send_buffer sock
          (srv.encode_uint32 1 (level % 2 ^ 32).toNat ++ srv.encode_string 3 line) 29 s).1,
          true) ∧
      (send_log_message x srv sock sock_retry level line s).1.client_.added_ =
        s.client_.added_ ++ ([0x00] ++
          varint_bytes
            (srv.encode_uint32 1 (level % 2 ^ 32).toNat ++ srv.encode_string 3 line).length
            (srv.encode_uint32 1 (level % 2 ^ 32).toNat ++ srv.encode_string 3 line).length ++
          varint_bytes 29 29 ++
          (srv.encode_uint32 1 (level % 2 ^ 32).toNat ++ srv.encode_string 3 line)) ∧
      (send_log_message x srv sock sock_retry level line s).1.client_.sends_ =
        s.client_.sends_ + 1) ∧
    ((send_buffer sock
        (srv.encode_uint32 1 (level % 2 ^ 32).toNat ++ srv.encode_string 3 line) 29 s).2 = false →
      send_log_message x srv sock sock_retry level line s =
        send_buffer sock_retry (x.encode_bool 4 true) 29
          (send_buffer sock
            (srv.encode_uint32 1 (level % 2 ^ 32).toNat ++ srv.encode_string 3 line)
            29 s).1) := by
  have hdef : send_log_message x srv sock sock_retry level line s =
      if (send_buffer sock
          (srv.encode_uint32 1 (level % 2 ^ 32).toNat ++ srv.encode_string 3 line) 29 s).2
          = true then
        ((send_buffer sock
          (srv.encode_uint32 1 (level % 2 ^ 32).toNat ++ srv.encode_string 3 line) 29 s).1,
          true)
      else
        send_buffer sock_retry (x.encode_bool 4 true) 29
          (send_buffer sock
            (srv.encode_uint32 1 (level % 2 ^ 32).toNat ++ srv.encode_string 3 line)
            29 s).1 := by
    unfold send_log_message
    rw [if_neg hgate]
    simp only [List.nil_append]
    cases (send_buffer sock
      (srv.encode_uint32 1 (level % 2 ^ 32).toNat ++ srv.encode_string 3 line) 29 s).2 <;> simp
  refine ⟨fun h => ?_, fun h => ?_⟩
  · rw [hdef, if_pos h]
    refine ⟨rfl, ?_, ?_⟩
    · simp only; rw [send_buffer_true sock _ 29 s h]
    · simp only; rw [send_buffer_true sock _ 29 s h]
  · rw [hdef, if_neg (by rw [h]; simp)]

/-- C17 (log fallback): a `send_log_message` call that passes the level gate
first sends the full log frame (level and message text) under message type 29.
If that send returns true, the call returns true and the socket has received
that one frame and nothing else.  If it returns false, the call is exactly one
further `send_buffer` call, again under message type 29, of a buffer that
holds only the encoded `send_failed = true` marker (field 4), and the call
returns the result of that second send. -/
theorem log_fallback (x : Externals) (srv : Server)
    (sock sock_retry : SocketReadings) (level : Int) (line : List Nat) (s : Session)
    (hgate : ¬ s.log_subscription_ < level) :
    ((send_buffer sock
        (srv.encode_uint32 1 (level % 2 ^ 32).toNat ++ srv.encode_string 3 line) 29 s).2 = true →
      send_log_message x srv sock sock_retry level line s =
        ((send_buffer sock
          (srv.encode_uint32 1 (level % 2 ^ 32).toNat ++ srv.encode_string 3 line) 29 s).1,
          true) ∧
      (send_log_message x srv sock sock_retry level line s).1.client_.added_ =
        s.client_.added_ ++ ([0x00] ++
          varint_bytes
            (srv.encode_uint32 1 (level % 2 ^ 32).toNat ++ srv.encode_string 3 line).length
            (srv.encode_uint32 1 (level % 2 ^ 32).toNat ++ srv.encode_string 3 line).length ++
          varint_bytes 29 29 ++
          (srv.encode_uint32 1 (level % 2 ^ 32).toNat ++ srv.encode_string 3 line)) ∧
      (send_log_message x srv sock sock_retry level line s).1.client_.sends_ =
        s.client_.sends_ + 1) ∧
    ((send_buffer sock
        (srv.encode_uint32 1 (level % 2 ^ 32).toNat ++ srv.encode_string 3 line) 29 s).2 = false →
      send_log_message x srv sock sock_retry level line s =
        send_buffer sock_retry (x.encode_bool 4 true) 29
          (send_buffer sock
            (srv.encode_uint32 1 (level % 2 ^ 32).toNat ++ srv.encode_string 3 line)
            29 s).1) :=
  send_log_message_cases x srv sock sock_retry level line s hgate

/-! ## Media streaming -/

theorem send_buffer_image_reader (sock : SocketReadings) (buffer : List Nat)
    (message_type : Nat) (s : Session) :
    (send_buffer sock buffer message_type s).1.image_reader_ = s.image_reader_ := by
  rcases send_buffer_cases sock buffer message_type s with h | h <;> rw [h.1]

theorem loop_camera_eq (x : Externals) (t : Tick) (s : Session) :
    loop_camera x t s =
      if s.image_reader_.available ≠ 0 then
        if t.camera_space % 2 ^ 32 ≥ 15 + 64 then
          if (send_buffer t.camera_socket (camera_chunk x t s) x.CAMERA_IMAGE_RESPONSE s).2
              = true then
            if (s.image_reader_.available == camera_to_send t s) = true then
              { (send_buffer t.camera_socket (camera_chunk x t s)
                  x.CAMERA_IMAGE_RESPONSE s).1 with
                image_reader_ :=
                  ((send_buffer t.camera_socket (camera_chunk x t s)
                    x.CAMERA_IMAGE_RESPONSE s).1.image_reader_.consume_data
                      (camera_to_send t s)).return_image }
            else
              { (send_buffer t.camera_socket (camera_chunk x t s)
                  x.CAMERA_IMAGE_RESPONSE s).1 with
                image_reader_ :=
                  (send_buffer t.camera_socket (camera_chunk x t s)
                    x.CAMERA_IMAGE_RESPONSE s).1.image_reader_.consume_data
                      (camera_to_send t s) }
          else (send_buffer t.camera_socket (camera_chunk x t s) x.CAMERA_IMAGE_RESPONSE s).1
        else s
      else s := by
  unfold loop_camera
  simp only [List.nil_append]
  split
  · split
    · rw [show (x.encode_fixed32 1 x.camera_object_id_hash ++
          x.encode_bytes 2 (List.take (min (t.camera_space % 2 ^ 32 - 15)
            s.image_reader_.available) s.image_reader_.peek_data_buffer) ++
          x.encode_bool 3 (s.image_reader_.available ==
            min (t.camera_space % 2 ^ 32 - 15) s.image_reader_.available)) =
          camera_chunk x t s from rfl]
      rw [show min (t.camera_space % 2 ^ 32 - 15) s.image_reader_.available =
          camera_to_send t s from rfl]
      cases (send_buffer t.camera_socket (camera_chunk x t s) x.CAMERA_IMAGE_RESPONSE s).2
      · simp
      · cases (s.image_reader_.available == camera_to_send t s) <;> simp
    · rfl
  · rfl

theorem available_pos_image (r : CameraImageReader) (h : r.available ≠ 0) :
    r.image_ ≠ none := by
  intro hn
  apply h
  simp [CameraImageReader.available, hn]

theorem available_consume (r : CameraImageReader) (n : Nat) :
    (r.consume_data n).available = r.available - n := by
  unfold CameraImageReader.consume_data CameraImageReader.available
  cases r.image_ with
  | none => simp
  | some image => simp only; omega

theorem loop_camera_cases (x : Externals) (t : Tick) (s : Session)
    (havail : s.image_reader_.available ≠ 0) :
    (t.camera_space % 2 ^ 32 < 15 + 64 → loop_camera x t s = s) ∧
    (15 + 64 ≤ t.camera_space % 2 ^ 32 →
      (send_buffer t.camera_socket (camera_chunk x t s) x.CAMERA_IMAGE_RESPONSE s).2 = false →
      loop_camera x t s =
        (send_buffer t.camera_socket (camera_chunk x t s) x.CAMERA_IMAGE_RESPONSE s).1 ∧
      (loop_camera x t s).image_reader_ = s.image_reader_) ∧
    (15 + 64 ≤ t.camera_space % 2 ^ 32 →
      (send_buffer t.camera_socket (camera_chunk x t s) x.CAMERA_IMAGE_RESPONSE s).2 = true →
      (loop_camera x t s).image_reader_.available =
        s.image_reader_.available - camera_to_send t s ∧
      (loop_camera x t s).client_.added_ =
        s.client_.added_ ++ ([0x00] ++
          varint_bytes (camera_chunk x t s).length (camera_chunk x t s).length ++
          varint_bytes x.CAMERA_IMAGE_RESPONSE x.CAMERA_IMAGE_RESPONSE ++ camera_chunk x t s) ∧
      (loop_camera x t s).client_.sends_ = s.client_.sends_ + 1 ∧
      (camera_to_send t s ≠ s.image_reader_.available →
        (loop_camera x t s).image_reader_ =
          s.image_reader_.consume_data (camera_to_send t s))) ∧
    ((loop_camera x t s).image_reader_.image_ = none ↔
      (15 + 64 ≤ t.camera_space % 2 ^ 32 ∧
        (send_buffer t.camera_socket (camera_chunk x t s) x.CAMERA_IMAGE_RESPONSE s).2 = true ∧
        camera_to_send t s = s.image_reader_.available)) := by
  have himg := available_pos_image s.image_reader_ havail
  have hir := send_buffer_image_reader t.camera_socket (camera_chunk x t s)
    x.CAMERA_IMAGE_RESPONSE s
  rw [loop_camera_eq, if_pos havail]
  by_cases hsp : t.camera_space % 2 ^ 32 ≥ 15 + 64
  · rw [if_pos hsp]
    by_cases hr : (send_buffer t.camera_socket (camera_chunk x t s)
        x.CAMERA_IMAGE_RESPONSE s).2 = true
    · have htrue := send_buffer_true t.camera_socket (camera_chunk x t s)
        x.CAMERA_IMAGE_RESPONSE s hr
      rw [if_pos hr]
      by_cases hd : s.image_reader_.available = camera_to_send t s
      · have hd' : (s.image_reader_.available == camera_to_send t s) = true := by
          simpa using hd
        rw [if_pos hd']
        refine ⟨fun h => absurd hsp (by omega), fun _ h => absurd hr (by rw [h]; simp),
          fun _ _ => ?_, ?_⟩
        · refine ⟨?_, ?_, ?_, fun hne => absurd hd.symm hne⟩
          · have h0 : ((((send_buffer t.camera_socket (camera_chunk x t s)
                x.CAMERA_IMAGE_RESPONSE s).1.image_reader_.consume_data
                  (camera_to_send t s)).return_image).available) = 0 := rfl
            simp only
            rw [h0, hd]
            omega
          · simp only; rw [htrue]
          · simp only; rw [htrue]
        · exact ⟨fun _ => ⟨hsp, hr, hd.symm⟩, fun _ => rfl⟩
      · have hd' : ¬ ((s.image_reader_.available == camera_to_send t s) = true) := by
          simpa using hd
        rw [if_neg hd']
        refine ⟨fun h => absurd hsp (by omega), fun _ h => absurd hr (by rw [h]; simp),
          fun _ _ => ?_, ?_⟩
        · refine ⟨?_, ?_, ?_, fun _ => ?_⟩
          · simp only; rw [hir]; exact available_consume _ _
          · simp only; rw [htrue]
          · simp only; rw [htrue]
          · simp only; rw [hir]
        · simp only
          rw [hir]
          refine ⟨fun h => absurd h ?_, fun h => absurd h.2.2.symm hd⟩
          simpa [CameraImageReader.consume_data] using himg
    · rw [if_neg hr]
      refine ⟨fun h => absurd hsp (by omega), fun _ _ => ⟨rfl, hir⟩,
        fun _ h => absurd h hr, ?_⟩
      rw [hir]
      exact ⟨fun h => absurd h himg, fun h => absurd h.2.1 hr⟩
  · rw [if_neg hsp]
    refine ⟨fun _ => rfl, fun h => absurd h hsp, fun h => absurd h hsp, ?_⟩
    exact ⟨fun h => absurd h himg, fun h => absurd h.1 hsp⟩

theorem loop_live_camera (x : Externals) (t : Tick) (c : APIConnection)
    (hlive : c.remove_ = false) (hnet : t.network_is_connected = true)
    (hsock : t.client_disconnected = false) (hcam : x.USE_ESP32_CAMERA = true) :
    (loop x t c).1.toSession =
      loop_camera x t (loop_keepalive x t (loop_receive x t c).1).toSession := by
  rw [loop_live x t c hlive hnet hsock]
  simp [hcam, APIConnection.withSession]

/-- C18 (media streaming retries instead of advancing): on a tick of `loop()`
of a live connection built with the camera, where `k` is the session that
reaches the camera part and has image bytes available: if the socket capacity
is below 15 + 64 the session is unchanged; if the chunk's send returns false
the image reader (cursor and image) is unchanged; if it returns true, exactly
`to_send = min(capacity - 15, available)` bytes are consumed, the socket has
received exactly the one frame of that chunk and one `send()`; and the image
is released if and only if the capacity sufficed, the send returned true and
`to_send` equals the bytes available. -/
theorem media_streaming (x : Externals) (t : Tick) (c : APIConnection) (k : Session)
    (hlive : c.remove_ = false) (hnet : t.network_is_connected = true)
    (hsock : t.client_disconnected = false) (hcam : x.USE_ESP32_CAMERA = true)
    (hk : k = (loop_keepalive x t (loop_receive x t c).1).toSession)
    (havail : k.image_reader_.available ≠ 0) :
    (t.camera_space % 2 ^ 32 < 15 + 64 → (loop x t c).1.toSession = k) ∧
    (15 + 64 ≤ t.camera_space % 2 ^ 32 →
      (send_buffer t.camera_socket (camera_chunk x t k) x.CAMERA_IMAGE_RESPONSE k).2 = false →
      (loop x t c).1.toSession =
        (send_buffer t.camera_socket (camera_chunk x t k) x.CAMERA_IMAGE_RESPONSE k).1 ∧
      (loop x t c).1.image_reader_ = k.image_reader_) ∧
    (15 + 64 ≤ t.camera_space % 2 ^ 32 →
      (send_buffer t.camera_socket (camera_chunk x t k) x.CAMERA_IMAGE_RESPONSE k).2 = true →
      (loop x t c).1.image_reader_.available =
        k.image_reader_.available - camera_to_send t k ∧
      (loop x t c).1.client_.added_ =
        k.client_.added_ ++ ([0x00] ++
          varint_bytes (camera_chunk x t k).length (camera_chunk x t k).length ++
          varint_bytes x.CAMERA_IMAGE_RESPONSE x.CAMERA_IMAGE_RESPONSE ++ camera_chunk x t k) ∧
      (loop x t c).1.client_.sends_ = k.client_.sends_ + 1 ∧
      (camera_to_send t k ≠ k.image_reader_.available →
        (loop x t c).1.image_reader_ =
          k.image_reader_.consume_data (camera_to_send t k))) ∧
    ((loop x t c).1.image_reader_.image_ = none ↔
      (15 + 64 ≤ t.camera_space % 2 ^ 32 ∧
        (send_buffer t.camera_socket (camera_chunk x t k) x.CAMERA_IMAGE_RESPONSE k).2 = true ∧
        camera_to_send t k = k.image_reader_.available)) := by
  have hl := loop_live_camera x t c hlive hnet hsock hcam
  rw [← hk] at hl
  have h := loop_camera_cases x t k havail
  rw [← hl] at h
  exact h

/-- Witness of C18, the scenario of the spec: 1000 image bytes available; three
ticks in which the socket reports 50 free bytes leave the connection as it
was; in the next tick the socket reports 2000 free bytes and the whole image
goes out as one chunk (one frame of 1014 bytes, one `send()`), after which the
image is released. -/
theorem media_streaming_witness :
    ((APIConnection.streaming 1000).remove_ = false ∧
      (Tick.with_space 40 2000).network_is_connected = true ∧
      (Tick.with_space 40 2000).client_disconnected = false ∧
      Externals.camera.USE_ESP32_CAMERA = true ∧
      (APIConnection.streaming 1000).toSession =
        (loop_keepalive Externals.camera (Tick.with_space 40 2000)
          (loop_receive Externals.camera (Tick.with_space 40 2000)
            (APIConnection.streaming 1000)).1).toSession ∧
      (APIConnection.streaming 1000).toSession.image_reader_.available ≠ 0) ∧
    (loop Externals.camera (Tick.with_space 30 50)
      (loop Externals.camera (Tick.with_space 20 50)
        (loop Externals.camera (Tick.with_space 10 50)
          (APIConnection.streaming 1000)).1).1).1 = APIConnection.streaming 1000 ∧
    ((loop Externals.camera (Tick.with_space 40 2000)
        (APIConnection.streaming 1000)).1.client_.added_.length = 1014 ∧
      (loop Externals.camera (Tick.with_space 40 2000)
        (APIConnection.streaming 1000)).1.client_.sends_ = 1 ∧
      (loop Externals.camera (Tick.with_space 40 2000)
        (APIConnection.streaming 1000)).1.image_reader_.image_ = none) ∧
    ((loop Externals.camera (Tick.with_space 40 2000)
        (APIConnection.streaming 1000)).1.image_reader_.image_ = none ↔
      (15 + 64 ≤ (Tick.with_space 40 2000).camera_space % 2 ^ 32 ∧
        (send_buffer (Tick.with_space 40 2000).camera_socket
          (camera_chunk Externals.camera (Tick.with_space 40 2000)
            (APIConnection.streaming 1000).toSession)
          Externals.camera.CAMERA_IMAGE_RESPONSE
          (APIConnection.streaming 1000).toSession).2 = true ∧
        camera_to_send (Tick.with_space 40 2000) (APIConnection.streaming 1000).toSession =
          (APIConnection.streaming 1000).toSession.image_reader_.available)) :=
  ⟨⟨rfl, rfl, rfl, rfl, by decide, by decide⟩, by decide, ⟨by decide, by decide, by decide⟩,
    (media_streaming Externals.camera (Tick.with_space 40 2000)
      (APIConnection.streaming 1000) (APIConnection.streaming 1000).toSession
      rfl rfl rfl rfl (by decide) (by decide)).2.2.2⟩

/-! ## The size of a media chunk -/

theorem varint_bytes_small (fuel value : Nat) (h : value < 128) :
    varint_bytes fuel value = [value] := by
  cases fuel with
  | zero => simp [varint_bytes, Nat.mod_eq_of_lt h]
  | succ fuel =>
    unfold varint_bytes
    rw [if_pos (by omega)]

theorem varint_bytes_length_le : ∀ k fuel value, value < 128 ^ (k + 1) →
    (varint_bytes fuel value).length ≤ k + 1 := by
  intro k
  induction k with
  | zero =>
    intro fuel value h
    rw [varint_bytes_small fuel value (by simpa using h)]
    simp
  | succ k ih =>
    intro fuel value h
    cases fuel with
    | zero => simp [varint_bytes]
    | succ fuel =>
      unfold varint_bytes
      split
      · simp
      · have hdiv : value / 128 < 128 ^ (k + 1) := by
          rw [Nat.div_lt_iff_lt_mul (by decide)]
          calc value < 128 ^ (k + 1 + 1) := h
            _ = 128 ^ (k + 1) * 128 := by rw [Nat.pow_succ]
        have := ih fuel (value / 128) hdiv
        simp only [List.length_cons]
        omega

theorem varint_bytes_length_pos (fuel value : Nat) : 1 ≤ (varint_bytes fuel value).length := by
  cases fuel with
  | zero => simp [varint_bytes]
  | succ fuel =>
    unfold varint_bytes
    split <;> simp

theorem varint_bytes_16384 : varint_bytes 16384 16384 = [0x80, 0x80, 0x01] := by decide

theorem varint_bytes_16395 : varint_bytes 16395 16395 = [0x8b, 0x80, 0x01] := by decide

theorem varint_bytes_44 : varint_bytes 44 44 = [0x2c] := by decide

theorem peek_data_buffer_length (r : CameraImageReader) :
    r.peek_data_buffer.length = r.available := by
  unfold CameraImageReader.peek_data_buffer CameraImageReader.available
  cases r.image_ with
  | none => rfl
  | some image => simp

theorem camera_take_length (t : Tick) (s : Session) :
    (s.image_reader_.peek_data_buffer.take (camera_to_send t s)).length = camera_to_send t s := by
  rw [List.length_take, peek_data_buffer_length]
  unfold camera_to_send
  omega

/-- The chunk fits while the capacity is at most 16398: with field encoders of
the sizes the protocol gives them (fixed32: 5 bytes; bytes: tag, varint of the
length, data; bool: 2 bytes) and a message type below 128, header and payload
together need at most the capacity that was read. -/
theorem camera_chunk_fits (x : Externals) (t : Tick) (s : Session)
    (hfixed : ∀ f v, (x.encode_fixed32 f v).length = 5)
    (hbytes : ∀ f d, (x.encode_bytes f d).length =
      1 + (varint_bytes d.length d.length).length + d.length)
    (hbool : ∀ f b, (x.encode_bool f b).length = 2)
    (htype : x.CAMERA_IMAGE_RESPONSE < 128)
    (hlo : 15 + 64 ≤ t.camera_space % 2 ^ 32) (hhi : t.camera_space % 2 ^ 32 ≤ 16398) :
    (camera_chunk x t s).length +
      ([0x00] ++ varint_bytes (camera_chunk x t s).length (camera_chunk x t s).length ++
        varint_bytes x.CAMERA_IMAGE_RESPONSE x.CAMERA_IMAGE_RESPONSE).length ≤
      t.camera_space % 2 ^ 32 := by
  have hts : camera_to_send t s ≤ t.camera_space % 2 ^ 32 - 15 := by
    unfold camera_to_send; omega
  have hlen : (camera_chunk x t s).length =
      8 + (varint_bytes (camera_to_send t s) (camera_to_send t s)).length +
        camera_to_send t s := by
    unfold camera_chunk
    simp only [List.length_append, hfixed, hbytes, hbool, camera_take_length]
    omega
  have hv1 : (varint_bytes (camera_to_send t s) (camera_to_send t s)).length ≤ 2 :=
    varint_bytes_length_le 1 _ _ (by norm_num; omega)
  have hv2 : (varint_bytes (camera_chunk x t s).length (camera_chunk x t s).length).length ≤ 3 :=
    varint_bytes_length_le 2 _ _ (by norm_num; omega)
  have hv3 : (varint_bytes x.CAMERA_IMAGE_RESPONSE x.CAMERA_IMAGE_RESPONSE).length = 1 := by
    rw [varint_bytes_small _ _ htype]; rfl
  by_cases hsmall : camera_to_send t s < 128
  · have hv1' : (varint_bytes (camera_to_send t s) (camera_to_send t s)).length = 1 := by
      rw [varint_bytes_small _ _ hsmall]; rfl
    have hv2' : (varint_bytes (camera_chunk x t s).length
        (camera_chunk x t s).length).length ≤ 2 :=
      varint_bytes_length_le 1 _ _ (by norm_num; omega)
    simp only [List.length_append, List.length_cons, List.length_nil]
    omega
  · simp only [List.length_append, List.length_cons, List.length_nil]
    omega

/-- At capacity 16399 with 16384 image bytes available the chunk does not
fit. -/
theorem camera_chunk_too_large (image : List Nat) (himage : image.length = 16384) :
    camera_to_send (Tick.with_space 5 16399) (Session.with_image image) = 16384 ∧
    (camera_chunk Externals.camera (Tick.with_space 5 16399)
      (Session.with_image image)).length = 16395 ∧
    (camera_chunk Externals.camera (Tick.with_space 5 16399)
      (Session.with_image image)).length +
        ([0x00] ++ varint_bytes 16395 16395 ++ varint_bytes 44 44).length = 16400 ∧
    send_buffer (Tick.with_space 5 16399).camera_socket
      (camera_chunk Externals.camera (Tick.with_space 5 16399) (Session.with_image image))
      Externals.camera.CAMERA_IMAGE_RESPONSE (Session.with_image image) =
        (Session.with_image image, false) ∧
    loop_camera Externals.camera (Tick.with_space 5 16399) (Session.with_image image) =
      Session.with_image image := by
  have havail : (Session.with_image image).image_reader_.available = 16384 := by
    simp [Session.with_image, CameraImageReader.available, himage]
  have hts : camera_to_send (Tick.with_space 5 16399) (Session.with_image image) = 16384 := by
    unfold camera_to_send
    rw [havail]
    rfl
  have htake := camera_take_length (Tick.with_space 5 16399) (Session.with_image image)
  rw [hts] at htake
  have hlen : (camera_chunk Externals.camera (Tick.with_space 5 16399)
      (Session.with_image image)).length = 16395 := by
    unfold camera_chunk
    rw [hts]
    simp only [Externals.camera, proto_fixed32, proto_bytes, proto_bool, List.length_append,
      List.length_cons, List.length_nil, htake, varint_bytes_16384]
  have hsend : send_buffer (Tick.with_space 5 16399).camera_socket
      (camera_chunk Externals.camera (Tick.with_space 5 16399) (Session.with_image image))
      Externals.camera.CAMERA_IMAGE_RESPONSE (Session.with_image image) =
        (Session.with_image image, false) := by
    rcases send_buffer_cases (Tick.with_space 5 16399).camera_socket
      (camera_chunk Externals.camera (Tick.with_space 5 16399) (Session.with_image image))
      Externals.camera.CAMERA_IMAGE_RESPONSE (Session.with_image image) with h | h
    · exact h.1
    · exfalso
      apply h.2.2
      rw [hlen]
      simp only [Externals.camera, varint_bytes_16395, varint_bytes_44]
      decide
  refine ⟨hts, hlen, ?_, hsend, ?_⟩
  · rw [hlen, varint_bytes_16395, varint_bytes_44]
    rfl
  · have hne : (Session.with_image image).image_reader_.available ≠ 0 := by
      rw [havail]; decide
    exact ((loop_camera_cases Externals.camera (Tick.with_space 5 16399)
      (Session.with_image image) hne).2.1 (by decide) (by rw [hsend])).1.trans
        (by rw [hsend])

/-- Witness for C17: log level 3 passes the gate of a session subscribed at
level 5; the full frame of 9 bytes does not fit into 4 free bytes, so the
marker frame is sent at the retry and its result is returned. -/
theorem log_fallback_witness :
    (send_log_message Externals.camera Server.plain (SocketReadings.room 4)
      (SocketReadings.room 100) 3 [0x68, 0x69]
      { (APIConnection.fresh 0).toSession with log_subscription_ := 5 }).1.client_.added_ =
        [0x00, 0x02, 0x1d, 0x20, 0x01] ∧
    (send_log_message Externals.camera Server.plain (SocketReadings.room 4)
      (SocketReadings.room 100) 3 [0x68, 0x69]
      { (APIConnection.fresh 0).toSession with log_subscription_ := 5 }).2 = true := by
  rw [(log_fallback Externals.camera Server.plain (SocketReadings.room 4)
    (SocketReadings.room 100) 3 [0x68, 0x69]
    { (APIConnection.fresh 0).toSession with log_subscription_ := 5 } (by decide)).2
    (by decide)]
  decide

/-- C19 (evaluation at the failing input): socket capacity 16399 and 16384
image bytes available.  `to_send` is 16384, the payload is 16395 bytes long
and the header 5 bytes, so the frame needs 16400 bytes.  `send_buffer` rejects
it at a capacity of 16399, and the tick leaves the session with its cursor
where it was. -/
theorem media_chunk_exceeds_capacity :
    camera_to_send (Tick.with_space 5 16399) (Session.with_image (List.replicate 16384 0xab)) = 16384 ∧
    (camera_chunk Externals.camera (Tick.with_space 5 16399)
      (Session.with_image (List.replicate 16384 0xab))).length = 16395 ∧
    (camera_chunk Externals.camera (Tick.with_space 5 16399)
      (Session.with_image (List.replicate 16384 0xab))).length +
        ([0x00] ++ varint_bytes 16395 16395 ++ varint_bytes 44 44).length = 16400 ∧
    send_buffer (Tick.with_space 5 16399).camera_socket
      (camera_chunk Externals.camera (Tick.with_space 5 16399) (Session.with_image (List.replicate 16384 0xab)))
      Externals.camera.CAMERA_IMAGE_RESPONSE (Session.with_image (List.replicate 16384 0xab)) =
        (Session.with_image (List.replicate 16384 0xab), false) ∧
    loop_camera Externals.camera (Tick.with_space 5 16399) (Session.with_image (List.replicate 16384 0xab)) =
      Session.with_image (List.replicate 16384 0xab) :=
  camera_chunk_too_large (List.replicate 16384 0xab) (List.length_replicate _ _)

/-! ## Bounds of the dispatched payload -/

theorem read_msg_type_done_le (buf : List Nat) (size : Nat) (hsize : size < 2 ^ 32) :
    ∀ fuel i acc, (read_msg_type buf size fuel i acc).2.1 = true →
      (read_msg_type buf size fuel i acc).2.2 ≤ size := by
  intro fuel
  induction fuel with
  | zero =>
    intro i acc h
    simp [read_msg_type] at h
  | succ fuel ih =>
    intro i acc h
    unfold read_msg_type at h ⊢
    by_cases hi : i < size
    · rw [if_pos hi] at h ⊢
      have hwrap : (i + 1) % 2 ^ 32 = i + 1 := Nat.mod_eq_of_lt (by omega)
      simp only at h ⊢
      by_cases hstop : buf.getD i 0 &&& 0x80 = 0x00
      · rw [if_pos hstop]
        simp only [hwrap]
        omega
      · rw [if_neg hstop] at h ⊢
        exact ih _ _ h
    · rw [if_neg hi] at h
      simp at h

theorem dispatch_bounds (c : APIConnection) (size msg_size i : Nat)
    (hsize : size = c.recv_buffer_.length % 2 ^ 32)
    (hdone : (read_msg_type c.recv_buffer_ size size
      (read_msg_size c.recv_buffer_ size size 1 0).2 0).2.1 = true)
    (hi : i = (read_msg_type c.recv_buffer_ size size
      (read_msg_size c.recv_buffer_ size size 1 0).2 0).2.2)
    (hfit : ¬ size - i < msg_size) :
    i ≤ size ∧ u32_sub size i = size - i ∧ i + msg_size ≤ size ∧
    size ≤ c.recv_buffer_.length ∧ (i + msg_size) % 2 ^ 32 = i + msg_size ∧
    ((c.recv_buffer_.drop i).take msg_size).length = msg_size := by
  have hlt : size < 2 ^ 32 := by rw [hsize]; exact Nat.mod_lt _ (by decide)
  have hle : size ≤ c.recv_buffer_.length := by rw [hsize]; exact Nat.mod_le _ _
  have hi1 : i ≤ size := by
    rw [hi]
    exact read_msg_type_done_le c.recv_buffer_ size hlt size _ 0 hdone
  refine ⟨hi1, ?_, by omega, hle, Nat.mod_eq_of_lt (by omega), ?_⟩
  · unfold u32_sub
    rw [Nat.mod_eq_of_lt hlt, Nat.mod_eq_of_lt (by omega : i < 2 ^ 32)]
    omega
  · rw [List.length_take, List.length_drop]
    omega

theorem parse_iteration_dispatched (read_message : Dispatcher) (now : Nat)
    (c c1 : APIConnection) (f : Frame)
    (hd : parse_iteration read_message now c = .again c1 f ∨
      parse_iteration read_message now c = .returned c1 (some f)) :
    (read_msg_type c.recv_buffer_ (c.recv_buffer_.length % 2 ^ 32)
      (c.recv_buffer_.length % 2 ^ 32)
      (read_msg_size c.recv_buffer_ (c.recv_buffer_.length % 2 ^ 32)
        (c.recv_buffer_.length % 2 ^ 32) 1 0).2 0).2.1 = true ∧
    ¬ (c.recv_buffer_.length % 2 ^ 32 -
      (read_msg_type c.recv_buffer_ (c.recv_buffer_.length % 2 ^ 32)
        (c.recv_buffer_.length % 2 ^ 32)
        (read_msg_size c.recv_buffer_ (c.recv_buffer_.length % 2 ^ 32)
          (c.recv_buffer_.length % 2 ^ 32) 1 0).2 0).2.2 <
      (read_msg_size c.recv_buffer_ (c.recv_buffer_.length % 2 ^ 32)
        (c.recv_buffer_.length % 2 ^ 32) 1 0).1) ∧
    f = ⟨(read_msg_type c.recv_buffer_ (c.recv_buffer_.length % 2 ^ 32)
        (c.recv_buffer_.length % 2 ^ 32)
        (read_msg_size c.recv_buffer_ (c.recv_buffer_.length % 2 ^ 32)
          (c.recv_buffer_.length % 2 ^ 32) 1 0).2 0).1,
      (c.recv_buffer_.drop
        (read_msg_type c.recv_buffer_ (c.recv_buffer_.length % 2 ^ 32)
          (c.recv_buffer_.length % 2 ^ 32)
          (read_msg_size c.recv_buffer_ (c.recv_buffer_.length % 2 ^ 32)
            (c.recv_buffer_.length % 2 ^ 32) 1 0).2 0).2.2).take
        (read_msg_size c.recv_buffer_ (c.recv_buffer_.length % 2 ^ 32)
          (c.recv_buffer_.length % 2 ^ 32) 1 0).1⟩ := by
  unfold parse_iteration at hd
  simp only at hd
  split at hd
  · rcases hd with h | h <;> simp at h
  · split at hd
    · rcases hd with h | h <;> simp at h
    · split at hd
      · rcases hd with h | h <;> simp at h
      · rename_i hdone
        split at hd
        · rcases hd with h | h <;> simp at h
        · rename_i hfit
          refine ⟨by simpa using hdone, hfit, ?_⟩
          split at hd
          · rcases hd with h | h
            · simp at h
            · simp only [Iteration.returned.injEq, Option.some.injEq] at h
              exact h.2.symm
          · rcases hd with h | h
            · simp only [Iteration.again.injEq] at h
              exact h.2.symm
            · simp at h

theorem parse_iteration_guarded (read_message junk : Dispatcher) (now : Nat)
    (c : APIConnection) :
    parse_iteration
      (fun s msg_size msg_type msg =>
        if msg.length = msg_size then read_message s msg_size msg_type msg
        else junk s msg_size msg_type msg) now c =
    parse_iteration read_message now c := by
  unfold parse_iteration
  simp only
  by_cases h0 : c.recv_buffer_.getD 0 0 ≠ 0x00
  · rw [if_pos h0, if_pos h0]
  · rw [if_neg h0, if_neg h0]
    split
    · rfl
    · split
      · rfl
      · rename_i hdone
        split
        · rfl
        · rename_i hfit
          have hb := dispatch_bounds c (c.recv_buffer_.length % 2 ^ 32) _ _ rfl
            (by simpa using hdone) rfl hfit
          rw [if_pos hb.2.2.2.2.2]

theorem parse_loop_guarded (read_message junk : Dispatcher) (millis : Nat → Nat) :
    ∀ fuel k c,
      parse_loop
        (fun s msg_size msg_type msg =>
          if msg.length = msg_size then read_message s msg_size msg_type msg
          else junk s msg_size msg_type msg) millis fuel k c =
      parse_loop read_message millis fuel k c := by
  intro fuel
  induction fuel with
  | zero => intro k c; rfl
  | succ fuel ih =>
    intro k c
    unfold parse_loop
    rw [parse_iteration_guarded]
    split
    · rfl
    · cases parse_iteration read_message (millis k) c with
      | returned c1 d => rfl
      | again c1 d => simp only [ih]

/-- C20: dispatch only sees validated frames.  Whenever one pass of the loop
body of `parse_recv_buffer_` calls `read_message` (it ends with a dispatched
frame `f`), with `size` the buffer size as the code reads it, `msg_size` the
declared length and `i` the offset of the first payload byte as the two inner
loops leave them: `i` is at most `size`, so the 32-bit difference `size - i`
of the check does not wrap; `i + msg_size` is at most `size`, which is at most
the length of the buffer, and does not overflow 32 bits; and the payload handed
over is the span from `i` of exactly `msg_size` bytes of the buffer.  This holds
for every buffer content.  Over a whole call, a dispatcher that misbehaves when
the payload is not `msg_size` bytes long is never seen to misbehave. -/
theorem dispatch_sees_validated_frames (read_message junk : Dispatcher) (now : Nat)
    (millis : Nat → Nat) (c c1 : APIConnection) (f : Frame) (size msg_size i : Nat)
    (hsize : size = c.recv_buffer_.length % 2 ^ 32)
    (hmsg_size : msg_size = (read_msg_size c.recv_buffer_ size size 1 0).1)
    (hi : i = (read_msg_type c.recv_buffer_ size size
      (read_msg_size c.recv_buffer_ size size 1 0).2 0).2.2)
    (hd : parse_iteration read_message now c = .again c1 f ∨
      parse_iteration read_message now c = .returned c1 (some f)) :
    i ≤ size ∧ u32_sub size i = size - i ∧
    i + msg_size ≤ size ∧ size ≤ c.recv_buffer_.length ∧
    (i + msg_size) % 2 ^ 32 = i + msg_size ∧
    f.payload = (c.recv_buffer_.drop i).take msg_size ∧
    f.payload.length = msg_size ∧
    (∀ k, k < msg_size → f.payload[k]? = c.recv_buffer_[i + k]?) ∧
    parse_recv_buffer_
      (fun s msg_size msg_type msg =>
        if msg.length = msg_size then read_message s msg_size msg_type msg
        else junk s msg_size msg_type msg) millis c =
      parse_recv_buffer_ read_message millis c := by
  subst hsize
  have h := parse_iteration_dispatched read_message now c c1 f hd
  have hb := dispatch_bounds c (c.recv_buffer_.length % 2 ^ 32) msg_size i rfl h.1 hi
    (by rw [hi, hmsg_size]; exact h.2.1)
  have hf : f.payload = (c.recv_buffer_.drop i).take msg_size := by
    rw [h.2.2, hi, hmsg_size]
  refine ⟨hb.1, hb.2.1, hb.2.2.1, hb.2.2.2.1, hb.2.2.2.2.1, hf, ?_, ?_, ?_⟩
  · rw [hf]; exact hb.2.2.2.2.2
  · intro k hk
    rw [hf, List.getElem?_take_of_lt hk, List.getElem?_drop]
  · unfold parse_recv_buffer_
    rw [parse_loop_guarded]

/-- Witness for C20: a length varint of six bytes (`80 80 80 80 80 02`, which
the code reads as 2), message type 1 and two payload bytes.  The frame is
dispatched with `i = 8`, `msg_size = 2` and `size = 10`. -/
theorem dispatch_sees_validated_frames_witness :
    (8 : Nat) + 2 ≤ 10 ∧
    (⟨1, [0xaa, 0xbb]⟩ : Frame).payload =
      (List.drop 8 [0x00, 0x80, 0x80, 0x80, 0x80, 0x80, 0x02, 0x01, 0xaa, 0xbb]).take 2 :=
  have h := dispatch_sees_validated_frames ignore_message reject_message 7 (fun _ => 7)
    { APIConnection.fresh 0 with
      recv_buffer_ := [0x00, 0x80, 0x80, 0x80, 0x80, 0x80, 0x02, 0x01, 0xaa, 0xbb] }
    { APIConnection.fresh 0 with recv_buffer_ := [], last_traffic_ := 7 }
    ⟨1, [0xaa, 0xbb]⟩ 10 2 8 (by decide) (by decide) (by decide) (Or.inl (by decide))
  ⟨h.2.2.1, h.2.2.2.2.2.1⟩

/-! ## Progress and termination of the parse loop -/

theorem read_msg_size_fuel (buf : List Nat) (size : Nat) (hsize : size < 2 ^ 32) :
    ∀ fuel m i acc, size - i ≤ fuel → size - i ≤ m →
      read_msg_size buf size fuel i acc = read_msg_size buf size m i acc := by
  intro fuel
  induction fuel with
  | zero =>
    intro m i acc hf _
    cases m with
    | zero => rfl
    | succ m =>
      unfold read_msg_size
      rw [if_neg (by omega)]
  | succ fuel ih =>
    intro m i acc _ hm
    cases m with
    | zero =>
      unfold read_msg_size
      rw [if_neg (by omega)]
    | succ m =>
      rw [read_msg_size, read_msg_size]
      by_cases hi : i < size
      · rw [if_pos hi, if_pos hi]
        have hwrap : (i + 1) % 2 ^ 32 = i + 1 := Nat.mod_eq_of_lt (by omega)
        simp only [hwrap]
        rw [ih m (i + 1) _ (by omega) (by omega)]
      · rw [if_neg hi, if_neg hi]

theorem read_msg_type_fuel (buf : List Nat) (size : Nat) (hsize : size < 2 ^ 32) :
    ∀ fuel m i acc, size - i ≤ fuel → size - i ≤ m →
      read_msg_type buf size fuel i acc = read_msg_type buf size m i acc := by
  intro fuel
  induction fuel with
  | zero =>
    intro m i acc hf _
    cases m with
    | zero => rfl
    | succ m =>
      unfold read_msg_type
      rw [if_neg (by omega)]
  | succ fuel ih =>
    intro m i acc _ hm
    cases m with
    | zero =>
      unfold read_msg_type
      rw [if_neg (by omega)]
    | succ m =>
      rw [read_msg_type, read_msg_type]
      by_cases hi : i < size
      · rw [if_pos hi, if_pos hi]
        have hwrap : (i + 1) % 2 ^ 32 = i + 1 := Nat.mod_eq_of_lt (by omega)
        simp only [hwrap]
        rw [ih m (i + 1) _ (by omega) (by omega)]
      · rw [if_neg hi, if_neg hi]

theorem read_msg_size_index_ge (buf : List Nat) (size : Nat) (hsize : size < 2 ^ 32) :
    ∀ fuel i acc, i ≤ (read_msg_size buf size fuel i acc).2 := by
  intro fuel
  induction fuel with
  | zero => intro i acc; exact Nat.le_refl _
  | succ fuel ih =>
    intro i acc
    unfold read_msg_size
    by_cases hi : i < size
    · rw [if_pos hi]
      have hwrap : (i + 1) % 2 ^ 32 = i + 1 := Nat.mod_eq_of_lt (by omega)
      simp only [hwrap]
      split
      · exact Nat.le_succ i
      · exact Nat.le_trans (Nat.le_succ i) (ih (i + 1) _)
    · rw [if_neg hi]

theorem read_msg_size_index_gt (buf : List Nat) (size : Nat) (hsize : size < 2 ^ 32)
    (fuel i acc : Nat) (hi : i < size) :
    i + 1 ≤ (read_msg_size buf size (fuel + 1) i acc).2 := by
  unfold read_msg_size
  rw [if_pos hi]
  have hwrap : (i + 1) % 2 ^ 32 = i + 1 := Nat.mod_eq_of_lt (by omega)
  simp only [hwrap]
  split
  · exact Nat.le_refl _
  · exact read_msg_size_index_ge buf size hsize fuel (i + 1) _

theorem read_msg_type_done_gt (buf : List Nat) (size : Nat) (hsize : size < 2 ^ 32) :
    ∀ fuel i acc, (read_msg_type buf size fuel i acc).2.1 = true →
      i < size ∧ i + 1 ≤ (read_msg_type buf size fuel i acc).2.2 := by
  intro fuel
  induction fuel with
  | zero =>
    intro i acc h
    simp [read_msg_type] at h
  | succ fuel ih =>
    intro i acc h
    unfold read_msg_type at h ⊢
    by_cases hi : i < size
    · rw [if_pos hi] at h ⊢
      have hwrap : (i + 1) % 2 ^ 32 = i + 1 := Nat.mod_eq_of_lt (by omega)
      simp only [hwrap] at h ⊢
      by_cases hstop : buf.getD i 0 &&& 0x80 = 0x00
      · rw [if_pos hstop]
        exact ⟨hi, Nat.le_refl _⟩
      · rw [if_neg hstop] at h ⊢
        exact ⟨hi, Nat.le_trans (Nat.le_succ _) (ih _ _ h).2⟩
    · rw [if_neg hi] at h
      simp at h

/-- Whenever a pass of the loop body dispatches a frame, the frame (header
and payload) takes at least 3 and at most all bytes of the buffer. -/
theorem dispatch_offset (read_message : Dispatcher) (now : Nat) (c c1 : APIConnection)
    (f : Frame)
    (hd : parse_iteration read_message now c = .again c1 f ∨
      parse_iteration read_message now c = .returned c1 (some f)) :
    3 ≤ (read_msg_type c.recv_buffer_ (c.recv_buffer_.length % 2 ^ 32)
        (c.recv_buffer_.length % 2 ^ 32)
        (read_msg_size c.recv_buffer_ (c.recv_buffer_.length % 2 ^ 32)
          (c.recv_buffer_.length % 2 ^ 32) 1 0).2 0).2.2 ∧
    (read_msg_type c.recv_buffer_ (c.recv_buffer_.length % 2 ^ 32)
        (c.recv_buffer_.length % 2 ^ 32)
        (read_msg_size c.recv_buffer_ (c.recv_buffer_.length % 2 ^ 32)
          (c.recv_buffer_.length % 2 ^ 32) 1 0).2 0).2.2 +
      (read_msg_size c.recv_buffer_ (c.recv_buffer_.length % 2 ^ 32)
        (c.recv_buffer_.length % 2 ^ 32) 1 0).1 ≤ c.recv_buffer_.length ∧
    3 ≤ c.recv_buffer_.length := by
  have hlt : c.recv_buffer_.length % 2 ^ 32 < 2 ^ 32 := Nat.mod_lt _ (by decide)
  have h := parse_iteration_dispatched read_message now c c1 f hd
  have hb := dispatch_bounds c (c.recv_buffer_.length % 2 ^ 32) _ _ rfl h.1 rfl h.2.1
  have h2 := read_msg_type_done_gt c.recv_buffer_ _ hlt _ _ _ h.1
  have h1 : 2 ≤ (read_msg_size c.recv_buffer_ (c.recv_buffer_.length % 2 ^ 32)
      (c.recv_buffer_.length % 2 ^ 32) 1 0).2 := by
    have hge := read_msg_size_index_ge c.recv_buffer_ _ hlt (c.recv_buffer_.length % 2 ^ 32) 1 0
    cases hs : c.recv_buffer_.length % 2 ^ 32 with
    | zero =>
      rw [hs] at h2
      omega
    | succ n =>
      by_cases h1n : 1 < n + 1
      · have := read_msg_size_index_gt c.recv_buffer_ (n + 1) (by omega) n 1 0 h1n
        omega
      · rw [hs] at h2 hge
        omega
  omega

theorem parse_iteration_again_buffer (read_message : Dispatcher) (now : Nat)
    (c c1 : APIConnection) (f : Frame)
    (h : parse_iteration read_message now c = .again c1 f) :
    ∃ total, 3 ≤ total ∧ total ≤ c.recv_buffer_.length ∧
      c1.recv_buffer_ = c.recv_buffer_.drop total := by
  have hoff := dispatch_offset read_message now c c1 f (Or.inl h)
  have hlt : c.recv_buffer_.length % 2 ^ 32 < 2 ^ 32 := Nat.mod_lt _ (by decide)
  have hle : c.recv_buffer_.length % 2 ^ 32 ≤ c.recv_buffer_.length := Nat.mod_le _ _
  have hd := parse_iteration_dispatched read_message now c c1 f (Or.inl h)
  have hb := dispatch_bounds c (c.recv_buffer_.length % 2 ^ 32) _ _ rfl hd.1 rfl hd.2.1
  refine ⟨_, ?_, hoff.2.1, ?_⟩
  · exact Nat.le_trans hoff.1 (Nat.le_add_right _ _)
  · unfold parse_iteration at h
    simp only at h
    split at h
    · simp at h
    · split at h
      · simp at h
      · split at h
        · simp at h
        · split at h
          · simp at h
          · split at h
            · simp at h
            · simp only [Iteration.again.injEq] at h
              rw [← h.1, hb.2.2.2.2.1]

theorem parse_iteration_again_length (read_message : Dispatcher) (now : Nat)
    (c c1 : APIConnection) (f : Frame)
    (h : parse_iteration read_message now c = .again c1 f) :
    c1.recv_buffer_.length + 3 ≤ c.recv_buffer_.length := by
  obtain ⟨total, h3, hle, hbuf⟩ := parse_iteration_again_buffer read_message now c c1 f h
  rw [hbuf, List.length_drop]
  omega

theorem parse_loop_count (read_message : Dispatcher) (millis : Nat → Nat) :
    ∀ fuel k c, 3 * (parse_loop read_message millis fuel k c).2.length ≤
      c.recv_buffer_.length := by
  intro fuel
  induction fuel with
  | zero => intro k c; simp [parse_loop]
  | succ fuel ih =>
    intro k c
    rw [parse_loop_succ]
    split
    · simp
    · cases hit : parse_iteration read_message (millis k) c with
      | returned c1 d =>
        cases d with
        | none => simp
        | some f =>
          have := (dispatch_offset read_message (millis k) c c1 f (Or.inr hit)).2.2
          simpa using this
      | again c1 f =>
        have hlen := parse_iteration_again_length read_message (millis k) c c1 f hit
        have := ih (k + 1) c1
        simp only [List.length_cons]
        omega

theorem parse_loop_passes (read_message : Dispatcher) (millis : Nat → Nat) :
    ∀ fuel m k c, c.recv_buffer_.length / 3 + 1 ≤ fuel → c.recv_buffer_.length / 3 + 1 ≤ m →
      parse_loop read_message millis fuel k c = parse_loop read_message millis m k c := by
  intro fuel
  induction fuel with
  | zero => intro m k c hf; omega
  | succ fuel ih =>
    intro m k c hf hm
    cases m with
    | zero => omega
    | succ m =>
      rw [parse_loop_succ, parse_loop_succ]
      split
      · rfl
      · cases hit : parse_iteration read_message (millis k) c with
        | returned c1 d => rfl
        | again c1 f =>
          have hlen := parse_iteration_again_length read_message (millis k) c c1 f hit
          simp only
          rw [ih m (k + 1) c1 (by omega) (by omega)]

theorem parse_recv_buffer_passes (read_message : Dispatcher) (millis : Nat → Nat)
    (c : APIConnection) (fuel : Nat) (hf : c.recv_buffer_.length / 3 + 1 ≤ fuel) :
    parse_recv_buffer_ read_message millis c =
      if c.recv_buffer_.isEmpty || c.remove_ then (c, [])
      else parse_loop read_message millis fuel 0 c := by
  unfold parse_recv_buffer_
  split
  · rfl
  · rename_i hne
    have hpos : c.recv_buffer_.length ≠ 0 := by
      intro h0
      apply hne
      rw [List.length_eq_zero.mp h0]
      rfl
    exact parse_loop_passes read_message millis _ _ 0 c (by omega) hf

theorem parse_recv_buffer_count (read_message : Dispatcher) (millis : Nat → Nat)
    (c : APIConnection) :
    (parse_recv_buffer_ read_message millis c).2.length ≤ c.recv_buffer_.length / 3 := by
  have h : 3 * (parse_recv_buffer_ read_message millis c).2.length ≤ c.recv_buffer_.length := by
    unfold parse_recv_buffer_
    split
    · simp
    · exact parse_loop_count read_message millis _ 0 c
  omega

theorem parse_recv_buffer_empty_frame (read_message : Dispatcher) (millis : Nat → Nat)
    (c : APIConnection) (t : Nat) (rest : List Nat)
    (hlen : c.recv_buffer_.length < 2 ^ 32) (hlive : c.remove_ = false) (ht : t < 128)
    (hbuf : c.recv_buffer_ = 0x00 :: 0x00 :: t :: rest) :
    ((read_message c.toSession 0 t []).remove_ = false →
      parse_recv_buffer_ read_message millis c =
        ((parse_recv_buffer_ read_message (fun j => millis (j + 1))
            { c with
              toSession := read_message c.toSession 0 t [],
              recv_buffer_ := rest,
              last_traffic_ := millis 0 }).1,
          ⟨t, []⟩ ::
          (parse_recv_buffer_ read_message (fun j => millis (j + 1))
            { c with
              toSession := read_message c.toSession 0 t [],
              recv_buffer_ := rest,
              last_traffic_ := millis 0 }).2)) ∧
    ((read_message c.toSession 0 t []).remove_ = true →
      parse_recv_buffer_ read_message millis c =
        (c.withSession (read_message c.toSession 0 t []), [⟨t, []⟩])) := by
  have h := parse_recv_buffer_complete_frame read_message millis c [0x00] [t] [] rest hlen hlive
    (by decide) (is_varint_one_byte t ht)
    (by rw [varint_value_one_byte 0 (by decide)]; rfl) (by rw [hbuf]; rfl)
  rw [varint_value_one_byte 0 (by decide), varint_value_one_byte t ht] at h
  exact ⟨fun hr => (h.1 hr).1, h.2⟩

/-- C21 (the parse loop makes progress and terminates).  A pass through the
body of the while loop of `parse_recv_buffer_` either returns or goes on with
a buffer from which at least 3 bytes were removed from the front.  The two
inner loops end within `size` steps each (more fuel changes nothing).  For a
buffer of `n` bytes and every dispatcher, the call is over after at most
`n / 3 + 1` passes (more fuel changes nothing) and has dispatched at most
`n / 3` frames.  A frame with a zero-length payload, `00 00 t` with `t < 128`,
at the front of the buffer of a live connection is dispatched as type `t` with
the empty payload, and when the handler does not end the session its 3 bytes are
removed and parsing goes on behind it. -/
theorem parse_loop_makes_progress (read_message : Dispatcher) (millis : Nat → Nat)
    (now : Nat) (c : APIConnection) :
    (∀ c1 f, parse_iteration read_message now c = .again c1 f →
      c1.recv_buffer_.length + 3 ≤ c.recv_buffer_.length ∧
      ∃ total, 3 ≤ total ∧ total ≤ c.recv_buffer_.length ∧
        c1.recv_buffer_ = c.recv_buffer_.drop total) ∧
    (∀ fuel i acc, c.recv_buffer_.length % 2 ^ 32 ≤ fuel →
      read_msg_size c.recv_buffer_ (c.recv_buffer_.length % 2 ^ 32) fuel i acc =
        read_msg_size c.recv_buffer_ (c.recv_buffer_.length % 2 ^ 32)
          (c.recv_buffer_.length % 2 ^ 32) i acc ∧
      read_msg_type c.recv_buffer_ (c.recv_buffer_.length % 2 ^ 32) fuel i acc =
        read_msg_type c.recv_buffer_ (c.recv_buffer_.length % 2 ^ 32)
          (c.recv_buffer_.length % 2 ^ 32) i acc) ∧
    (∀ fuel, c.recv_buffer_.length / 3 + 1 ≤ fuel →
      parse_recv_buffer_ read_message millis c =
        if c.recv_buffer_.isEmpty || c.remove_ then (c, [])
        else parse_loop read_message millis fuel 0 c) ∧
    (parse_recv_buffer_ read_message millis c).2.length ≤ c.recv_buffer_.length / 3 ∧
    (c.recv_buffer_.length < 2 ^ 32 → c.remove_ = false →
      ∀ t rest, t < 128 → c.recv_buffer_ = 0x00 :: 0x00 :: t :: rest →
        ((read_message c.toSession 0 t []).remove_ = false →
          parse_recv_buffer_ read_message millis c =
            ((parse_recv_buffer_ read_message (fun j => millis (j + 1))
                { c with
                  toSession := read_message c.toSession 0 t [],
                  recv_buffer_ := rest,
                  last_traffic_ := millis 0 }).1,
              ⟨t, []⟩ ::
              (parse_recv_buffer_ read_message (fun j => millis (j + 1))
                { c with
                  toSession := read_message c.toSession 0 t [],
                  recv_buffer_ := rest,
                  last_traffic_ := millis 0 }).2)) ∧
        ((read_message c.toSession 0 t []).remove_ = true →
          parse_recv_buffer_ read_message millis c =
            (c.withSession (read_message c.toSession 0 t []), [⟨t, []⟩]))) := by
  have hlt : c.recv_buffer_.length % 2 ^ 32 < 2 ^ 32 := Nat.mod_lt _ (by decide)
  refine ⟨fun c1 f h => ⟨parse_iteration_again_length read_message now c c1 f h,
      parse_iteration_again_buffer read_message now c c1 f h⟩,
    fun fuel i acc hf => ⟨read_msg_size_fuel _ _ hlt _ _ _ _ (by omega) (by omega),
      read_msg_type_fuel _ _ hlt _ _ _ _ (by omega) (by omega)⟩,
    fun fuel hf => parse_recv_buffer_passes read_message millis c fuel hf,
    parse_recv_buffer_count read_message millis c,
    fun hlen hlive t rest ht hbuf =>
      parse_recv_buffer_empty_frame read_message millis c t rest hlen hlive ht hbuf⟩

/-- Witness for C21: the two empty frames `00 00 01` and `00 00 02` are both
dispatched, which is the most a buffer of 6 bytes allows, and the buffer is
empty afterwards. -/
theorem parse_loop_makes_progress_witness :
    (parse_recv_buffer_ ignore_message (fun _ => 7)
      { APIConnection.fresh 0 with
        recv_buffer_ := [0x00, 0x00, 0x01, 0x00, 0x00, 0x02] }).2.length ≤ 6 / 3 ∧
    (parse_recv_buffer_ ignore_message (fun _ => 7)
      { APIConnection.fresh 0 with
        recv_buffer_ := [0x00, 0x00, 0x01, 0x00, 0x00, 0x02] }).2 = [⟨1, []⟩, ⟨2, []⟩] ∧
    (parse_recv_buffer_ ignore_message (fun _ => 7)
      { APIConnection.fresh 0 with
        recv_buffer_ := [0x00, 0x00, 0x01, 0x00, 0x00, 0x02] }).1.recv_buffer_ = [] := by
  have h := parse_loop_makes_progress ignore_message (fun _ => 7) 7
    { APIConnection.fresh 0 with recv_buffer_ := [0x00, 0x00, 0x01, 0x00, 0x00, 0x02] }
  refine ⟨h.2.2.2.1, ?_, ?_⟩
  · rw [(h.2.2.2.2 (by decide) rfl 1 [0x00, 0x00, 0x02] (by decide) rfl).1 rfl]
    decide
  · rw [(h.2.2.2.2 (by decide) rfl 1 [0x00, 0x00, 0x02] (by decide) rfl).1 rfl]
    decide


/-! ## What a call of the parser does to the session and the timestamp -/

theorem parse_iteration_returned_none (read_message : Dispatcher) (now : Nat)
    (c c1 : APIConnection) (h : parse_iteration read_message now c = .returned c1 none) :
    c1 = c ∨ c1 = c.withSession c.toSession.on_fatal_error := by
  unfold parse_iteration at h
  simp only at h
  split at h
  · simp only [Iteration.returned.injEq, and_true] at h
    exact Or.inr h.symm
  · split at h
    · simp only [Iteration.returned.injEq, and_true] at h
      exact Or.inl h.symm
    · split at h
      · simp only [Iteration.returned.injEq, and_true] at h
        exact Or.inl h.symm
      · split at h
        · simp only [Iteration.returned.injEq, and_true] at h
          exact Or.inl h.symm
        · split at h <;> simp at h

theorem parse_iteration_returned_some (read_message : Dispatcher) (now : Nat)
    (c c1 : APIConnection) (f : Frame)
    (h : parse_iteration read_message now c = .returned c1 (some f)) :
    c1 = c.withSession (read_message c.toSession f.payload.length f.msg_type f.payload) ∧
    (read_message c.toSession f.payload.length f.msg_type f.payload).remove_ = true := by
  have hd := parse_iteration_dispatched read_message now c c1 f (Or.inr h)
  have hb := dispatch_bounds c (c.recv_buffer_.length % 2 ^ 32) _ _ rfl hd.1 rfl hd.2.1
  have hf := hd.2.2
  unfold parse_iteration at h
  simp only at h
  split at h
  · simp at h
  · split at h
    · simp at h
    · split at h
      · simp at h
      · split at h
        · simp at h
        · split at h
          · rename_i hr
            simp only [Iteration.returned.injEq, Option.some.injEq] at h
            rw [hf]
            simp only [hb.2.2.2.2.2]
            exact ⟨h.1.symm, hr⟩
          · simp at h

theorem parse_iteration_again (read_message : Dispatcher) (now : Nat)
    (c c1 : APIConnection) (f : Frame)
    (h : parse_iteration read_message now c = .again c1 f) :
    c1.toSession = read_message c.toSession f.payload.length f.msg_type f.payload ∧
    (read_message c.toSession f.payload.length f.msg_type f.payload).remove_ = false ∧
    c1.last_traffic_ = now := by
  have hd := parse_iteration_dispatched read_message now c c1 f (Or.inl h)
  have hb := dispatch_bounds c (c.recv_buffer_.length % 2 ^ 32) _ _ rfl hd.1 rfl hd.2.1
  have hf := hd.2.2
  unfold parse_iteration at h
  simp only at h
  split at h
  · simp at h
  · split at h
    · simp at h
    · split at h
      · simp at h
      · split at h
        · simp at h
        · split at h
          · simp at h
          · rename_i hr
            simp only [Iteration.again.injEq] at h
            rw [hf]
            simp only [hb.2.2.2.2.2]
            rw [← h.1]
            exact ⟨rfl, by simpa using hr, rfl⟩

theorem parse_loop_outcome (read_message : Dispatcher) (millis : Nat → Nat) :
    ∀ fuel k c,
      ((parse_loop read_message millis fuel k c).1.toSession =
          (parse_loop read_message millis fuel k c).2.foldl
            (fun s f => read_message s f.payload.length f.msg_type f.payload) c.toSession ∨
        (parse_loop read_message millis fuel k c).1.toSession =
          ((parse_loop read_message millis fuel k c).2.foldl
            (fun s f => read_message s f.payload.length f.msg_type f.payload)
            c.toSession).on_fatal_error) ∧
      (((parse_loop read_message millis fuel k c).2.foldl
          (fun s f => read_message s f.payload.length f.msg_type f.payload)
          c.toSession).remove_ = false →
        (parse_loop read_message millis fuel k c).1.last_traffic_ =
          if (parse_loop read_message millis fuel k c).2 = [] then c.last_traffic_
          else millis (k + (parse_loop read_message millis fuel k c).2.length - 1)) ∧
      (c.remove_ = false →
        ((parse_loop read_message millis fuel k c).2.foldl
          (fun s f => read_message s f.payload.length f.msg_type f.payload)
          c.toSession).remove_ = true →
        (parse_loop read_message millis fuel k c).1.toSession =
          (parse_loop read_message millis fuel k c).2.foldl
            (fun s f => read_message s f.payload.length f.msg_type f.payload) c.toSession ∧
        (parse_loop read_message millis fuel k c).2 ≠ [] ∧
        (parse_loop read_message millis fuel k c).1.last_traffic_ =
          if (parse_loop read_message millis fuel k c).2.length = 1 then c.last_traffic_
          else millis (k + (parse_loop read_message millis fuel k c).2.length - 2)) := by
  intro fuel
  induction fuel with
  | zero =>
    intro k c
    refine ⟨Or.inl rfl, fun _ => rfl, fun hc hr => ?_⟩
    have hr' : c.remove_ = true := hr
    rw [hc] at hr'
    cases hr'
  | succ fuel ih =>
    intro k c
    rw [parse_loop_succ]
    by_cases he : c.recv_buffer_.isEmpty = true
    · rw [if_pos he]
      refine ⟨Or.inl rfl, fun _ => rfl, fun hc hr => ?_⟩
      have hr' : c.remove_ = true := hr
      rw [hc] at hr'
      cases hr'
    · rw [if_neg he]
      cases hit : parse_iteration read_message (millis k) c with
      | returned c1 d =>
        cases d with
        | none =>
          simp only [Option.toList, List.foldl_nil]
          rcases parse_iteration_returned_none read_message (millis k) c c1 hit with h | h
          · rw [h]
            refine ⟨Or.inl rfl, fun _ => rfl, fun hc hr => ?_⟩
            have hr' : c.remove_ = true := hr
            rw [hc] at hr'
            cases hr'
          · rw [h]
            refine ⟨Or.inr rfl, fun _ => rfl, fun hc hr => ?_⟩
            have hr' : c.remove_ = true := hr
            rw [hc] at hr'
            cases hr'
        | some f =>
          have h := parse_iteration_returned_some read_message (millis k) c c1 f hit
          simp only [Option.toList, List.foldl_cons, List.foldl_nil]
          rw [h.1]
          refine ⟨Or.inl rfl, fun hr => ?_, fun _ _ => ⟨rfl, by simp, rfl⟩⟩
          rw [h.2] at hr
          cases hr
      | again c1 f =>
        have h := parse_iteration_again read_message (millis k) c c1 f hit
        have hrec := ih (k + 1) c1
        simp only [List.foldl_cons]
        rw [← h.1]
        refine ⟨hrec.1, fun hr => ?_, fun _ hr => ?_⟩
        · rw [hrec.2.1 hr]
          simp only [List.length_cons, List.cons_ne_nil, if_false]
          split
          · rename_i hnil
            rw [hnil, h.2.2]
            rfl
          · rename_i hnil
            have : 0 < (parse_loop read_message millis fuel (k + 1) c1).2.length :=
              List.length_pos.mpr hnil
            congr 1
            omega
        · have hc1 : c1.remove_ = false := by
            have : c1.toSession.remove_ = false := by rw [h.1]; exact h.2.1
            exact this
          have h3 := hrec.2.2 hc1 hr
          refine ⟨h3.1, by simp, ?_⟩
          have hpos : 0 < (parse_loop read_message millis fuel (k + 1) c1).2.length :=
            List.length_pos.mpr h3.2.1
          rw [h3.2.2]
          simp only [List.length_cons]
          have hne : ¬ (parse_loop read_message millis fuel (k + 1) c1).2.length + 1 = 1 := by
            omega
          rw [if_neg hne]
          by_cases h1 : (parse_loop read_message millis fuel (k + 1) c1).2.length = 1
          · rw [if_pos h1, h1, h.2.2]
            rfl
          · rw [if_neg h1]
            congr 1
            omega


theorem parse_recv_buffer_outcome (read_message : Dispatcher) (millis : Nat → Nat)
    (c : APIConnection) :
    ((parse_recv_buffer_ read_message millis c).1.toSession =
        (parse_recv_buffer_ read_message millis c).2.foldl
          (fun s f => read_message s f.payload.length f.msg_type f.payload) c.toSession ∨
      (parse_recv_buffer_ read_message millis c).1.toSession =
        ((parse_recv_buffer_ read_message millis c).2.foldl
          (fun s f => read_message s f.payload.length f.msg_type f.payload)
          c.toSession).on_fatal_error) ∧
    ((parse_recv_buffer_ read_message millis c).2 = [] →
      (parse_recv_buffer_ read_message millis c).1.last_traffic_ = c.last_traffic_) ∧
    (((parse_recv_buffer_ read_message millis c).2.foldl
        (fun s f => read_message s f.payload.length f.msg_type f.payload)
        c.toSession).remove_ = false →
      (parse_recv_buffer_ read_message millis c).2 ≠ [] →
      (parse_recv_buffer_ read_message millis c).1.last_traffic_ =
        millis ((parse_recv_buffer_ read_message millis c).2.length - 1)) ∧
    (((parse_recv_buffer_ read_message millis c).2.foldl
        (fun s f => read_message s f.payload.length f.msg_type f.payload)
        c.toSession).remove_ = true →
      (parse_recv_buffer_ read_message millis c).1.toSession =
        (parse_recv_buffer_ read_message millis c).2.foldl
          (fun s f => read_message s f.payload.length f.msg_type f.payload) c.toSession ∧
      (parse_recv_buffer_ read_message millis c).1.last_traffic_ =
        if (parse_recv_buffer_ read_message millis c).2.length ≤ 1 then c.last_traffic_
        else millis ((parse_recv_buffer_ read_message millis c).2.length - 2)) := by
  unfold parse_recv_buffer_
  by_cases hg : (c.recv_buffer_.isEmpty || c.remove_) = true
  · rw [if_pos hg]
    exact ⟨Or.inl rfl, fun _ => rfl, fun _ h => absurd rfl h, fun _ => ⟨rfl, rfl⟩⟩
  · rw [if_neg hg]
    have hlive : c.remove_ = false := by
      cases hc : c.remove_ with
      | false => rfl
      | true => exact absurd (by rw [hc, Bool.or_true]) hg
    have h := parse_loop_outcome read_message millis c.recv_buffer_.length 0 c
    refine ⟨h.1, fun he => ?_, fun hr hne => ?_, fun hr => ?_⟩
    · have hr : ((parse_loop read_message millis c.recv_buffer_.length 0 c).2.foldl
          (fun s f => read_message s f.payload.length f.msg_type f.payload)
          c.toSession).remove_ = false := by
        rw [he]
        exact hlive
      rw [h.2.1 hr, if_pos he]
    · rw [h.2.1 hr, if_neg hne, Nat.zero_add]
    · have h3 := h.2.2 hlive hr
      refine ⟨h3.1, ?_⟩
      have hpos : 0 < (parse_loop read_message millis c.recv_buffer_.length 0 c).2.length :=
        List.length_pos.mpr h3.2.1
      rw [h3.2.2, Nat.zero_add]
      by_cases h1 : (parse_loop read_message millis c.recv_buffer_.length 0 c).2.length = 1
      · rw [if_pos h1, if_pos (by omega)]
      · rw [if_neg h1, if_neg (by omega)]

theorem on_fatal_error_sent_ping (s : Session) : s.on_fatal_error.sent_ping_ = s.sent_ping_ :=
  rfl

/-- C5 fails on the code: the buffer `00 80 01 07 aa` starts with 0x00, holds
the length varint `80 01`, which declares 128 payload bytes, the type varint
`07`, and one payload byte.  The parser reads the length as 1 (the slip of
C4), so instead of waiting it dispatches type 7 with the payload `aa`, empties
the buffer and refreshes the last-traffic timestamp. -/
theorem incomplete_payload_is_dispatched :
    (is_varint [0x80, 0x01] = true ∧ lsb_first_value [0x80, 0x01] = 128 ∧
      varint_bytes 128 128 = [0x80, 0x01] ∧ is_varint [0x07] = true ∧
      [0xaa].length < lsb_first_value [0x80, 0x01]) ∧
    read_msg_size [0x00, 0x80, 0x01, 0x07, 0xaa] 5 5 1 0 = (1, 3) ∧
    parse_recv_buffer_ ignore_message (fun _ => 1000)
        { APIConnection.fresh 0 with recv_buffer_ := [0x00, 0x80, 0x01, 0x07, 0xaa] } =
      ({ APIConnection.fresh 0 with recv_buffer_ := [], last_traffic_ := 1000 },
        [⟨7, [0xaa]⟩]) := by
  decide

/-- C6 fails on the code: the frame of type 7 with 128 payload bytes is written
as `00 80 01 07` and the payload, 132 bytes, and is followed here by the frame
`00 00 01`.  The parser reads the length as 1 (the slip of C4): the first pass
dispatches type 7 with one payload byte and removes 5 bytes, not 132; the next
pass finds a payload byte where a preamble should be and ends the session, so
the frame `00 00 01` is never dispatched. -/
theorem consumption_stops_short :
    (encode_frame 7 (List.replicate 128 0x41) =
        [0x00, 0x80, 0x01, 0x07] ++ List.replicate 128 0x41 ∧
      (encode_frame 7 (List.replicate 128 0x41)).length = 1 + 2 + 1 + 128) ∧
    parse_iteration ignore_message 1000
        { APIConnection.fresh 0 with
          recv_buffer_ := encode_frame 7 (List.replicate 128 0x41) ++ [0x00, 0x00, 0x01] } =
      .again
        { APIConnection.fresh 0 with
          recv_buffer_ :=
            (encode_frame 7 (List.replicate 128 0x41) ++ [0x00, 0x00, 0x01]).drop 5,
          last_traffic_ := 1000 }
        ⟨7, [0x41]⟩ ∧
    (parse_recv_buffer_ ignore_message (fun _ => 1000)
      { APIConnection.fresh 0 with
        recv_buffer_ := encode_frame 7 (List.replicate 128 0x41) ++ [0x00, 0x00, 0x01] }).2 =
      [⟨7, [0x41]⟩] ∧
    (parse_recv_buffer_ ignore_message (fun _ => 1000)
      { APIConnection.fresh 0 with
        recv_buffer_ := encode_frame 7 (List.replicate 128 0x41) ++ [0x00, 0x00, 0x01]
      }).1.recv_buffer_ = List.replicate 127 0x41 ++ [0x00, 0x00, 0x01] ∧
    (parse_recv_buffer_ ignore_message (fun _ => 1000)
      { APIConnection.fresh 0 with
        recv_buffer_ := encode_frame 7 (List.replicate 128 0x41) ++ [0x00, 0x00, 0x01]
      }).1.remove_ = true := by
  refine ⟨⟨?_, ?_⟩, ?_, ?_, ?_, ?_⟩ <;> decide

/-- C10 as amended (any inbound frame refreshes the timestamp).  A pass of
`parse_recv_buffer_` that extracts a frame, of any message type, whose
dispatch does not terminate the session sets the last-traffic timestamp to the
current time and leaves the session as the handler made it.  For a whole call,
with `handled` the session that the handlers of the dispatched frames make of
the session before the call: the session afterwards is `handled`, or
`handled` after `on_fatal_error` (the parser met a malformed preamble behind
the frames), and `sent_ping_` is in both cases as the handlers left it, so the
parser itself never clears it; the timestamp is unchanged if no frame was
dispatched, is the clock reading taken after the last frame if no dispatch
terminated the session, and if the last dispatch did terminate it, is the
reading taken after the frame before that one (unchanged if there is none).
While a probe is pending on a session that is not terminated, a keepalive check
terminates it exactly when more than 90000 ms have passed since the
timestamp. -/
theorem inbound_frame_refreshes_timestamp (read_message : Dispatcher) (millis : Nat → Nat)
    (c : APIConnection) (r : APIConnection × List Frame) (handled : Session)
    (hr : r = parse_recv_buffer_ read_message millis c)
    (hhandled : handled = r.2.foldl
      (fun s f => read_message s f.payload.length f.msg_type f.payload) c.toSession) :
    (∀ now c1 f, parse_iteration read_message now c = .again c1 f →
      c1.last_traffic_ = now ∧
      c1.toSession = read_message c.toSession f.payload.length f.msg_type f.payload) ∧
    (r.1.toSession = handled ∨ r.1.toSession = handled.on_fatal_error) ∧
    r.1.sent_ping_ = handled.sent_ping_ ∧
    (r.2 = [] → r.1.last_traffic_ = c.last_traffic_) ∧
    (handled.remove_ = false → r.2 ≠ [] → r.1.last_traffic_ = millis (r.2.length - 1)) ∧
    (handled.remove_ = true →
      r.1.toSession = handled ∧
      r.1.last_traffic_ =
        if r.2.length ≤ 1 then c.last_traffic_ else millis (r.2.length - 2)) ∧
    (∀ (x : Externals) (t : Tick), r.1.remove_ = false → r.1.sent_ping_ = true →
      ((loop_keepalive x t r.1).remove_ = true ↔
        90000 < u32_sub t.now r.1.last_traffic_)) := by
  have h := parse_recv_buffer_outcome read_message millis c
  rw [← hr, ← hhandled] at h
  refine ⟨fun now c1 f hit => ?_, h.1, ?_, h.2.1, h.2.2.1, h.2.2.2,
    fun x t hlive hp => loop_keepalive_pending x t r.1 hlive hp⟩
  · have ha := parse_iteration_again read_message now c c1 f hit
    exact ⟨ha.2.2, ha.1⟩
  · have hs : r.1.sent_ping_ = r.1.toSession.sent_ping_ := rfl
    rcases h.1 with h1 | h1
    · rw [hs, h1]
    · rw [hs, h1, on_fatal_error_sent_ping]

/-- Witness of C10 as amended: a probe is pending and the buffer holds the
frame `00 00 01` followed by the byte `41`.  The frame is dispatched (to a
handler that leaves the session alone) and the timestamp becomes the clock
reading 10; then the parser ends the session on the malformed preamble.  The
flag `sent_ping_` is still set. -/
theorem inbound_frame_refreshes_timestamp_witness :
    (parse_recv_buffer_ ignore_message (fun k => 10 + k)
      { APIConnection.fresh 0 with
        sent_ping_ := true, recv_buffer_ := [0x00, 0x00, 0x01, 0x41] }).2 = [⟨1, []⟩] ∧
    (parse_recv_buffer_ ignore_message (fun k => 10 + k)
      { APIConnection.fresh 0 with
        sent_ping_ := true, recv_buffer_ := [0x00, 0x00, 0x01, 0x41] }).1.last_traffic_ = 10 ∧
    (parse_recv_buffer_ ignore_message (fun k => 10 + k)
      { APIConnection.fresh 0 with
        sent_ping_ := true, recv_buffer_ := [0x00, 0x00, 0x01, 0x41] }).1.sent_ping_ = true ∧
    (parse_recv_buffer_ ignore_message (fun k => 10 + k)
      { APIConnection.fresh 0 with
        sent_ping_ := true, recv_buffer_ := [0x00, 0x00, 0x01, 0x41] }).1.remove_ = true :=
  have h := inbound_frame_refreshes_timestamp ignore_message (fun k => 10 + k)
    { APIConnection.fresh 0 with sent_ping_ := true, recv_buffer_ := [0x00, 0x00, 0x01, 0x41] }
    (parse_recv_buffer_ ignore_message (fun k => 10 + k)
      { APIConnection.fresh 0 with
        sent_ping_ := true, recv_buffer_ := [0x00, 0x00, 0x01, 0x41] })
    { (APIConnection.fresh 0).toSession with sent_ping_ := true } rfl (by decide)
  ⟨by decide, (h.2.2.2.2.1 (by decide) (by decide)).trans (by decide),
    h.2.2.1.trans rfl, by decide⟩

end esphome.api

namespace esphome.neopixelbus

set_option maxRecDepth 1000000

/-! ## Pixel order -/

theorem set_pixel_order_initial (order : ESPNeoPixelOrder) (o : NeoPixelBusLightOutputBase) :
    o.set_pixel_order order = NeoPixelBusLightOutputBase.initial.set_pixel_order order := by
  unfold NeoPixelBusLightOutputBase.set_pixel_order
  simp only [NeoPixelBusLightOutputBase.mk.injEq]
  funext k
  fin_cases k <;> simp [Function.update]

theorem operator_index_bounds (o : NeoPixelBusLightOutputBase) (index : Nat)
    (h0 : o.rgb_offsets_ 0 < 3) (h1 : o.rgb_offsets_ 1 < 3) (h2 : o.rgb_offsets_ 2 < 3) :
    ∀ a ∈ NeoPixelRGBLightOutput.operator_index o index, 3 * index ≤ a ∧ a < 3 * index + 3 := by
  intro a ha
  simp only [NeoPixelRGBLightOutput.operator_index, List.mem_cons, List.mem_singleton,
    List.not_mem_nil, or_false] at ha
  rcases ha with h | h | h <;> omega

theorem set_pixel_order_letters (order : ESPNeoPixelOrder) :
    List.Perm
      [(NeoPixelBusLightOutputBase.initial.set_pixel_order order).rgb_offsets_ 0,
        (NeoPixelBusLightOutputBase.initial.set_pixel_order order).rgb_offsets_ 1,
        (NeoPixelBusLightOutputBase.initial.set_pixel_order order).rgb_offsets_ 2,
        (NeoPixelBusLightOutputBase.initial.set_pixel_order order).rgb_offsets_ 3]
      [0, 1, 2, 3] ∧
    (NeoPixelBusLightOutputBase.initial.set_pixel_order order).rgb_offsets_ 0 =
      spec_letter_position order.identifier 'R' ∧
    (NeoPixelBusLightOutputBase.initial.set_pixel_order order).rgb_offsets_ 1 =
      spec_letter_position order.identifier 'G' ∧
    (NeoPixelBusLightOutputBase.initial.set_pixel_order order).rgb_offsets_ 2 =
      spec_letter_position order.identifier 'B' ∧
    (NeoPixelBusLightOutputBase.initial.set_pixel_order order).rgb_offsets_ 3 =
      spec_letter_position order.identifier 'W' := by
  cases order <;> decide

theorem set_pixel_order_three_letters (order : ESPNeoPixelOrder)
    (h : order ∈ [ESPNeoPixelOrder.GBR, .GRB, .BGR, .RGB, .BRG, .RBG]) :
    order.identifier.length = 3 ∧
    (NeoPixelBusLightOutputBase.initial.set_pixel_order order).rgb_offsets_ 0 < 3 ∧
    (NeoPixelBusLightOutputBase.initial.set_pixel_order order).rgb_offsets_ 1 < 3 ∧
    (NeoPixelBusLightOutputBase.initial.set_pixel_order order).rgb_offsets_ 2 < 3 ∧
    (NeoPixelBusLightOutputBase.initial.set_pixel_order order).rgb_offsets_ 0 ≠
      (NeoPixelBusLightOutputBase.initial.set_pixel_order order).rgb_offsets_ 1 ∧
    (NeoPixelBusLightOutputBase.initial.set_pixel_order order).rgb_offsets_ 0 ≠
      (NeoPixelBusLightOutputBase.initial.set_pixel_order order).rgb_offsets_ 2 ∧
    (NeoPixelBusLightOutputBase.initial.set_pixel_order order).rgb_offsets_ 1 ≠
      (NeoPixelBusLightOutputBase.initial.set_pixel_order order).rgb_offsets_ 2 := by
  simp only [List.mem_cons, List.mem_singleton, List.not_mem_nil, or_false] at h
  rcases h with h | h | h | h | h | h <;> subst h <;> decide

/-- C22 (pixel-order decoding): for every enumerator of `ESPNeoPixelOrder` and
whatever the offsets were before, `set_pixel_order` leaves in
`rgb_offsets_[0..3]` a permutation of 0, 1, 2, 3 in which entries 0, 1, 2, 3
are the positions of the letters R, G, B, W in the enumerator's name (W at
position 3 for a three-letter name).  For each of the three-letter orders GBR,
GRB, BGR, RGB, BRG, RBG the offsets of R, G and B are less than 3 and pairwise
distinct, and the three addresses that `NeoPixelRGBLightOutput::operator[]`
hands out for pixel `index` lie in the 3 bytes of that pixel. -/
theorem pixel_order_decoding (order : ESPNeoPixelOrder) (o : NeoPixelBusLightOutputBase) :
    List.Perm
      [(o.set_pixel_order order).rgb_offsets_ 0, (o.set_pixel_order order).rgb_offsets_ 1,
        (o.set_pixel_order order).rgb_offsets_ 2, (o.set_pixel_order order).rgb_offsets_ 3]
      [0, 1, 2, 3] ∧
    (o.set_pixel_order order).rgb_offsets_ 0 = spec_letter_position order.identifier 'R' ∧
    (o.set_pixel_order order).rgb_offsets_ 1 = spec_letter_position order.identifier 'G' ∧
    (o.set_pixel_order order).rgb_offsets_ 2 = spec_letter_position order.identifier 'B' ∧
    (o.set_pixel_order order).rgb_offsets_ 3 = spec_letter_position order.identifier 'W' ∧
    (order ∈ [ESPNeoPixelOrder.GBR, .GRB, .BGR, .RGB, .BRG, .RBG] →
      order.identifier.length = 3 ∧
      (o.set_pixel_order order).rgb_offsets_ 0 < 3 ∧
      (o.set_pixel_order order).rgb_offsets_ 1 < 3 ∧
      (o.set_pixel_order order).rgb_offsets_ 2 < 3 ∧
      (o.set_pixel_order order).rgb_offsets_ 0 ≠ (o.set_pixel_order order).rgb_offsets_ 1 ∧
      (o.set_pixel_order order).rgb_offsets_ 0 ≠ (o.set_pixel_order order).rgb_offsets_ 2 ∧
      (o.set_pixel_order order).rgb_offsets_ 1 ≠ (o.set_pixel_order order).rgb_offsets_ 2 ∧
      ∀ index, ∀ a ∈ NeoPixelRGBLightOutput.operator_index (o.set_pixel_order order) index,
        3 * index ≤ a ∧ a < 3 * index + 3) := by
  rw [set_pixel_order_initial order o]
  have hl := set_pixel_order_letters order
  refine ⟨hl.1, hl.2.1, hl.2.2.1, hl.2.2.2.1, hl.2.2.2.2, fun h => ?_⟩
  have h3 := set_pixel_order_three_letters order h
  exact ⟨h3.1, h3.2.1, h3.2.2.1, h3.2.2.2.1, h3.2.2.2.2.1, h3.2.2.2.2.2.1, h3.2.2.2.2.2.2,
    fun index => operator_index_bounds _ index h3.2.1 h3.2.2.1 h3.2.2.2.1⟩

/-- Example for C22: after `set_pixel_order(GRB)` the offsets are 1, 0, 2, 3,
and pixel 5 is addressed at bytes 16 (red), 15 (green) and 17 (blue). -/
theorem pixel_order_decoding_witness :
    (NeoPixelBusLightOutputBase.initial.set_pixel_order .GRB).rgb_offsets_ 0 = 1 ∧
    (NeoPixelBusLightOutputBase.initial.set_pixel_order .GRB).rgb_offsets_ 1 = 0 ∧
    (NeoPixelBusLightOutputBase.initial.set_pixel_order .GRB).rgb_offsets_ 2 = 2 ∧
    (NeoPixelBusLightOutputBase.initial.set_pixel_order .GRB).rgb_offsets_ 3 = 3 ∧
    NeoPixelRGBLightOutput.operator_index
      (NeoPixelBusLightOutputBase.initial.set_pixel_order .GRB) 5 = [16, 15, 17] ∧
    ∀ a ∈ NeoPixelRGBLightOutput.operator_index
      (NeoPixelBusLightOutputBase.initial.set_pixel_order .GRB) 5, 3 * 5 ≤ a ∧ a < 3 * 5 + 3 :=
  have h := pixel_order_decoding .GRB NeoPixelBusLightOutputBase.initial
  ⟨h.2.1.trans (by decide), h.2.2.1.trans (by decide), h.2.2.2.1.trans (by decide),
    h.2.2.2.2.1.trans (by decide), by decide, (h.2.2.2.2.2 (by decide)).2.2.2.2.2.2.2 5⟩

end esphome.neopixelbus
